import Mathlib

/-!
# DDoSAlertX front end: playback scheduler and threshold-crossing notifier

A shallow embedding of the animated chart components

* `src/components/charts/AnimatedChart.js`  (namespace `ChartsAnimatedChart`),
* `src/components/AnimatedChart.js`         (namespace `AnimatedChart`),
* `src/components/AnimatedCharts.js`        (namespace `AnimatedCharts`).

React state is a record, an event handler is a function on that record, and the
passive effects that React runs after a render are applied explicitly after the
handler that caused the render.  Events dispatched on `document` are returned as
a list, in dispatch order.

Modelling conventions
* JavaScript numbers are integers (`Int`); floating point is not modelled.
* `frame` only ever holds `1` or a successor of an earlier value, so it is a `Nat`.
* One tick is one firing of the timer that the animation effect scheduled for
  the current render; wall-clock time is not modelled.
-/

/-! ## Data model -/

/-- A JavaScript value stored in a dataset record. -/
inductive JsVal where
  | undefined
  | null
  | num (n : Int)
  | str (s : String)
  deriving DecidableEq, Repr

/-- One flat record of the dataset (`cleaned_df`): its keys with their values. -/
structure Row where
  fields : List (String × JsVal)
  deriving DecidableEq, Repr

/-- Whether the record itself has the key (`Object.keys(row).includes(key)`). -/
def Row.hasOwnKey (r : Row) (key : String) : Bool :=
  r.fields.any (fun kv => kv.1 == key)

/-- The property names that every plain object inherits from
`Object.prototype`. -/
def objectPrototypeKeys : List String :=
  ["constructor", "__defineGetter__", "__defineSetter__", "hasOwnProperty",
   "__lookupGetter__", "__lookupSetter__", "isPrototypeOf", "propertyIsEnumerable",
   "toString", "valueOf", "__proto__", "toLocaleString"]

/-- The JavaScript test `key in row` on a record of the dataset, a plain object:
true for a key of the record itself and for a name inherited from
`Object.prototype`. -/
def Row.hasKey (r : Row) (key : String) : Bool :=
  r.hasOwnKey key || objectPrototypeKeys.contains key

/-- The object `plot_data.ews_alerts`; an absent level is `none`. -/
structure EwsAlerts where
  level1 : Option (List Int)
  level2 : Option (List Int)
  level3 : Option (List Int)
  level4 : Option (List Int)
  deriving DecidableEq, Repr

/-- The object `plotData` handed to the charts; an absent member is `none`. -/
structure PlotData where
  first_attack_idx : Option Int
  attack_indices : Option (List Int)
  ews_alerts : Option EwsAlerts
  deriving DecidableEq, Repr

/-- The custom events the chart components dispatch on `document`. -/
inductive Event where
  | animationComplete (chartId : String)
  | plottingEnded
  | attackDetected
  | playAttackStartedSound
  | attackEnded
  | playAttackEndedSound
  | ewsAlertDetected (ewsNumber : Nat)
  | playEWSAlertSound
  deriving DecidableEq, Repr

/-- JavaScript truthiness of a string-or-null value. -/
def truthyStr : Option String → Bool
  | none => false
  | some e => e != ""

/-! ## `src/components/charts/AnimatedChart.js` -/

namespace ChartsAnimatedChart

/-- The props of the component, with the defaults of its parameter list. -/
structure Props where
  data : Option (List Row)
  field : String
  plotData : Option PlotData
  chartType : String := "standard"
  speed : Int := 30
  showEWS : Bool := false
  showAttackRegion : Bool := false
  title : String := ""
  isAnalysisRunning : Bool := true
  chartId : String := ""
  deriving Repr

/-- The `useState` cells that drive the playback. -/
structure PlaybackState where
  frame : Nat
  animationSpeed : Int
  isComplete : Bool
  paused : Bool
  dataError : Option String
  deriving DecidableEq, Repr

/-- Line 48: `const maxFrames = data?.length || 0`. -/
def maxFrames (p : Props) : Nat :=
  match p.data with
  | some d => d.length
  | none => 0

/-- Lines 40-46: the initial values of the `useState` cells. -/
def useStateInit (p : Props) : PlaybackState :=
  { frame := 1, animationSpeed := p.speed, isComplete := false, paused := false,
    dataError := none }

/-- Lines 56-83: the validation effect, run on mount and whenever `data`,
`field` or `chartId` changes. -/
def validationEffect (p : Props) (s : PlaybackState) : PlaybackState :=
  let s := { s with dataError := none }
  match p.data with
  | none => { s with dataError := some "No data available" }
  | some [] => { s with dataError := some "No data available" }
  | some (sample :: _) =>
    if !(sample.hasKey p.field) then
      { s with dataError := some ("Field \"" ++ p.field ++ "\" not found in data") }
    else
      { s with frame := 1, isComplete := false }

/-- Lines 98-105: the listener of the `stopAllAnimations` event. -/
def handleStopAllAnimations (s : PlaybackState) : PlaybackState :=
  { s with paused := true, isComplete := true }

/-- Lines 242-245: `setPaused(prev => !prev)`. -/
def togglePause (s : PlaybackState) : PlaybackState :=
  { s with paused := !s.paused }

/-- Lines 1000-1003: `setAnimationSpeed(parseInt(e.target.value))`. -/
def handleSpeedChange (value : Int) (s : PlaybackState) : PlaybackState :=
  { s with animationSpeed := value }

/-- Lines 124-134: the effect with dependencies `[isAnalysisRunning, paused,
chartId]`; `timerRef` is the value of `timerRef.current` when it runs. -/
def autoResumeEffect (p : Props) (timerRef : Option Nat) (s : PlaybackState) :
    PlaybackState :=
  if p.isAnalysisRunning && s.paused && timerRef.isNone then
    { s with paused := false }
  else s

/-- The passive effects of the render that follows a state update from `prev`
to `next` under unchanged props.  The animation effect depends on every state
cell, so its cleanup (lines 229-238, or its own first lines 139-142 when the
previous run returned early) has left `timerRef.current = null` before the
effect of lines 124-134 runs; that effect runs only when `paused` changed. -/
def passiveEffects (p : Props) (prev next : PlaybackState) : PlaybackState :=
  if next.paused != prev.paused then autoResumeEffect p none next else next

/-- Lines 137-160: the guards of the animation effect; `true` when the effect
reaches line 226 and schedules `startAnimation`. -/
def timerScheduled (p : Props) (s : PlaybackState) : Bool :=
  if truthyStr s.dataError then false
  else if s.isComplete || s.paused then false
  else if maxFrames p == 0 || p.field == "" then false
  else true

/-- Lines 184-201: the attack start and attack end checks at `frame`. -/
def attackEvents (p : Props) (frame : Nat) : List Event :=
  match p.plotData with
  | none => []
  | some plotData =>
    match plotData.attack_indices with
    | none => []
    | some attack_indices =>
      match attack_indices.head?, attack_indices.getLast? with
      | some firstAttackIdx, some lastAttackIdx =>
        (if (frame : Int) = firstAttackIdx - 1 ∧ (frame : Int) + 1 = firstAttackIdx then
          [Event.attackDetected, Event.playAttackStartedSound] else [])
        ++
        (if (frame : Int) = lastAttackIdx - 1 ∧ (frame : Int) + 1 = lastAttackIdx then
          [Event.attackEnded, Event.playAttackEndedSound] else [])
      | _, _ => []

/-- Lines 206-215: `highAlerts.forEach((alertIdx, i) => ...)`, with `i` the
position of the head of the list. -/
def ewsAlertLoop (frame : Nat) : Nat → List Int → List Event
  | _, [] => []
  | i, alertIdx :: rest =>
    (if (frame : Int) = alertIdx - 1 ∧ (frame : Int) + 1 = alertIdx then
      [Event.ewsAlertDetected (i + 1), Event.playEWSAlertSound] else [])
    ++ ewsAlertLoop frame (i + 1) rest

/-- The array `plotData?.ews_alerts?.level4`, when it is there. -/
def level4Alerts (p : Props) : Option (List Int) :=
  match p.plotData with
  | none => none
  | some plotData =>
    match plotData.ews_alerts with
    | none => none
    | some ews_alerts => ews_alerts.level4

/-- Lines 204-216: the EWS alert checks at `frame`. -/
def ewsEvents (p : Props) (frame : Nat) : List Event :=
  if p.chartType == "flow-with-ews" && p.showEWS then
    match level4Alerts p with
    | none => []
    | some level4 => ewsAlertLoop frame 0 (level4.take 3)
  else []

/-- Lines 165-223: the timer callback `startAnimation`, with the events it
dispatches. -/
def startAnimation (p : Props) (s : PlaybackState) : PlaybackState × List Event :=
  if s.frame ≥ maxFrames p then
    ({ s with isComplete := true },
      if p.chartType == "flow-with-ews" then
        [Event.animationComplete p.chartType, Event.plottingEnded]
      else [])
  else
    ({ s with frame := min (s.frame + 1) (maxFrames p) },
      attackEvents p s.frame ++ ewsEvents p s.frame)

/-- One tick of the clock: the pending timer, if the animation effect scheduled
one, fires and runs `startAnimation`.  A tick changes `frame` or `isComplete`
only, so the effect of lines 124-134 does not run after it. -/
def tick (p : Props) (s : PlaybackState) : PlaybackState × List Event :=
  if timerScheduled p s then startAnimation p s else (s, [])

/-- The state after `n` ticks, with all events dispatched on the way. -/
def ticks (p : Props) : Nat → PlaybackState → PlaybackState × List Event
  | 0, s => (s, [])
  | n + 1, s =>
    let r := tick p s
    let r2 := ticks p n r.1
    (r2.1, r.2 ++ r2.2)

/-- The state after the component mounted: the `useState` defaults followed by
the validation effect (`paused` is false, so lines 124-134 do nothing). -/
def mount (p : Props) : PlaybackState :=
  validationEffect p (useStateInit p)

/-- A click on the pause / play button, followed by the passive effects. -/
def pauseResume (p : Props) (s : PlaybackState) : PlaybackState :=
  passiveEffects p s (togglePause s)

/-- Delivery of the `stopAllAnimations` event, followed by the passive effects. -/
def stopAll (p : Props) (s : PlaybackState) : PlaybackState :=
  passiveEffects p s (handleStopAllAnimations s)

/-- A move of the speed slider; `paused` is unchanged, so no effect touches the
state afterwards. -/
def setSpeed (value : Int) (s : PlaybackState) : PlaybackState :=
  handleSpeedChange value s

/-- A change of the `data` or `field` prop: the validation effect runs again,
with the new props. -/
def changeDataField (newProps : Props) (s : PlaybackState) : PlaybackState :=
  validationEffect newProps s

end ChartsAnimatedChart

/-! ## `src/components/AnimatedChart.js` -/

namespace AnimatedChart

/-- The props of the component, with the defaults of its parameter list
(`colors` only styles the drawing and is left out). -/
structure Props where
  data : List Row
  field : String
  plotData : Option PlotData
  chartType : String := "standard"
  speed : Int := 100
  showEWS : Bool := false
  showAttackRegion : Bool := false
  title : String := ""
  deriving Repr

/-- Lines 47-49: the `useState` cells. -/
structure PlaybackState where
  frame : Nat
  isPaused : Bool
  isComplete : Bool
  deriving DecidableEq, Repr

/-- Line 51: `const maxFrames = data.length`. -/
def maxFrames (p : Props) : Nat := p.data.length

/-- Lines 47-49: the initial values of the `useState` cells. -/
def useStateInit : PlaybackState :=
  { frame := 1, isPaused := false, isComplete := false }

/-- Lines 58-60: the state updates of `restart`; the `clearInterval` of line 57
is in `Session.restart`. -/
def restart (_s : PlaybackState) : PlaybackState :=
  { frame := 1, isPaused := false, isComplete := false }

/-- Lines 64-66: `setIsPaused(prev => !prev)`. -/
def togglePause (s : PlaybackState) : PlaybackState :=
  { s with isPaused := !s.isPaused }

/-- Line 70: the guard of the animation effect; `true` when the effect installs
the interval of lines 73-82. -/
def intervalActive (s : PlaybackState) : Bool :=
  !(s.isPaused || s.isComplete)

/-- Lines 74-81: the `setFrame` updater run by the interval, together with the
`setIsComplete(true)` it issues. -/
def intervalCallback (p : Props) (s : PlaybackState) : PlaybackState :=
  if s.frame ≥ maxFrames p then { s with isComplete := true }
  else { s with frame := s.frame + 1 }

/-- One tick of the clock: the interval, if installed, fires once. -/
def tick (p : Props) (s : PlaybackState) : PlaybackState :=
  if intervalActive s then intervalCallback p s else s

/-- The state after `n` ticks. -/
def ticks (p : Props) : Nat → PlaybackState → PlaybackState
  | 0, s => s
  | n + 1, s => ticks p n (tick p s)

/-- The state cells together with the interval of `timerRef`: `timer` is true
while an interval that the animation effect installed has not been cleared. -/
structure Session where
  state : PlaybackState
  timer : Bool
  deriving DecidableEq, Repr

/-- Lines 69-85: the animation effect after a state update from `prev`. Its
dependencies are `[maxFrames, speed, isPaused, isComplete]`, so it runs again
only when `isPaused` or `isComplete` changed; then its cleanup clears the
interval and its body installs a new one unless the state is paused or
complete. -/
def animationEffect (prev : PlaybackState) (next : Session) : Session :=
  if next.state.isPaused != prev.isPaused || next.state.isComplete != prev.isComplete then
    { next with timer := intervalActive next.state }
  else next

/-- The session after the component mounted: the `useState` defaults, and the
interval that the first run of the animation effect installs. -/
def Session.mount : Session :=
  { state := useStateInit, timer := intervalActive useStateInit }

/-- Lines 56-61: a click on the restart button. Line 57 clears the interval,
lines 58-60 update the state, and the animation effect follows the render. -/
def Session.restart (s : Session) : Session :=
  animationEffect s.state { state := AnimatedChart.restart s.state, timer := false }

/-- One tick of the clock on a session: the interval, if it is live, fires once;
at the end it clears itself (line 76) before `setIsComplete(true)`. -/
def Session.tick (p : Props) (s : Session) : Session :=
  if s.timer then
    animationEffect s.state
      { state := intervalCallback p s.state,
        timer := if s.state.frame ≥ maxFrames p then false else s.timer }
  else s

/-- The session after `n` ticks. -/
def Session.ticks (p : Props) : Nat → Session → Session
  | 0, s => s
  | n + 1, s => Session.ticks p n (Session.tick p s)

end AnimatedChart

/-! ## `src/components/AnimatedCharts.js` -/

namespace AnimatedCharts

/-- The props of the component, with the defaults of its parameter list. -/
structure Props where
  data : List Row
  field : String
  plotData : Option PlotData
  chartType : String := "standard"
  speed : Int := 30
  showEWS : Bool := false
  showAttackRegion : Bool := false
  title : String := ""
  deriving Repr

/-- Lines 37-39: the `useState` cells that drive the playback. -/
structure PlaybackState where
  frame : Nat
  animationSpeed : Int
  isComplete : Bool
  deriving DecidableEq, Repr

/-- Line 42: `const maxFrames = data.length`. -/
def maxFrames (p : Props) : Nat := p.data.length

/-- Lines 37-39: the initial values of the `useState` cells. -/
def useStateInit (p : Props) : PlaybackState :=
  { frame := 1, animationSpeed := p.speed, isComplete := false }

/-- Lines 774-777: `handleSpeedChange`. -/
def handleSpeedChange (newSpeed : Int) (s : PlaybackState) : PlaybackState :=
  { s with animationSpeed := newSpeed }

/-- Line 54: the guard of the animation effect; `true` when the effect installs
the interval of lines 57-74. -/
def intervalActive (s : PlaybackState) : Bool :=
  !s.isComplete

/-- Lines 58-73: the `setFrame` updater run by the interval, with the state
update and the event it issues. -/
def intervalCallback (p : Props) (s : PlaybackState) : PlaybackState × List Event :=
  if s.frame ≥ maxFrames p then
    ({ s with isComplete := true },
      if p.chartType == "flow-with-ews" then [Event.animationComplete p.chartType] else [])
  else
    ({ s with frame := s.frame + 1 }, [])

/-- One tick of the clock: the interval, if installed, fires once. -/
def tick (p : Props) (s : PlaybackState) : PlaybackState × List Event :=
  if intervalActive s then intervalCallback p s else (s, [])

/-- The state after `n` ticks, with all events dispatched on the way. -/
def ticks (p : Props) : Nat → PlaybackState → PlaybackState × List Event
  | 0, s => (s, [])
  | n + 1, s =>
    let r := tick p s
    let r2 := ticks p n r.1
    (r2.1, r.2 ++ r2.2)

end AnimatedCharts

/-! ## Specification-side definitions and scenarios -/

namespace ChartsAnimatedChart

/-- The crossing watchlist of the specification, read off the props the way
`startAnimation` reads them: the index watched for an event, if there is one.
`attackDetected` watches `attack_indices[0]`, `attackEnded` watches the last
element of `attack_indices`, and `ewsAlertDetected k` watches the `k`-th of the
first three entries of `ews_alerts.level4` in a `flow-with-ews` chart with
`showEWS` set. -/
def watchedIndex (p : Props) : Event → Option Int
  | Event.attackDetected =>
    match p.plotData with
    | none => none
    | some plotData =>
      match plotData.attack_indices with
      | none => none
      | some attack_indices => attack_indices.head?
  | Event.attackEnded =>
    match p.plotData with
    | none => none
    | some plotData =>
      match plotData.attack_indices with
      | none => none
      | some attack_indices => attack_indices.getLast?
  | Event.ewsAlertDetected ewsNumber =>
    if p.chartType == "flow-with-ews" && p.showEWS then
      match level4Alerts p with
      | none => none
      | some level4 => if ewsNumber = 0 then none else (level4.take 3)[ewsNumber - 1]?
    else none
  | _ => none

/-- The operations of the playback scheduler that the component offers. -/
inductive Op where
  | tick
  | togglePause
  | setSpeed (value : Int)
  | stopAll
  deriving DecidableEq, Repr

/-- The state after one operation. -/
def applyOp (p : Props) : Op → PlaybackState → PlaybackState
  | Op.tick, s => (tick p s).1
  | Op.togglePause, s => pauseResume p s
  | Op.setSpeed value, s => setSpeed value s
  | Op.stopAll, s => stopAll p s

/-- The state after a sequence of operations, first operation first. -/
def runOps (p : Props) (ops : List Op) (s : PlaybackState) : PlaybackState :=
  ops.foldl (fun st op => applyOp p op st) s

/-- What every operation other than `stopAll` preserves: a Complete state sits
at `maxFrames`, and `frame` does not exceed a positive `maxFrames`. -/
def completeAtEnd (p : Props) (s : PlaybackState) : Prop :=
  (s.isComplete = true → s.frame = maxFrames p) ∧ (1 ≤ maxFrames p → s.frame ≤ maxFrames p)

end ChartsAnimatedChart

namespace AnimatedChart

/-- The operations of the playback scheduler that the component offers. -/
inductive Op where
  | tick
  | togglePause
  | restart
  deriving DecidableEq, Repr

/-- The state after one operation. -/
def applyOp (p : Props) : Op → PlaybackState → PlaybackState
  | Op.tick, s => tick p s
  | Op.togglePause, s => togglePause s
  | Op.restart, s => restart s

/-- The state after a sequence of operations, first operation first. -/
def runOps (p : Props) (ops : List Op) (s : PlaybackState) : PlaybackState :=
  ops.foldl (fun st op => applyOp p op st) s

/-- What every operation of `components/AnimatedChart.js` preserves, on a
non-empty dataset. -/
def completeAtEnd (p : Props) (s : PlaybackState) : Prop :=
  (s.isComplete = true → s.frame = maxFrames p) ∧ s.frame ≤ maxFrames p

end AnimatedChart

/-- A dataset of `n` records that carry the keys the charts read. -/
def sampleRows (n : Nat) : List Row :=
  List.replicate n
    ⟨[("Seconds", JsVal.num 0), ("Label", JsVal.str "BENIGN"), ("Flow Packets/s", JsVal.num 0)]⟩

/-- Scenario of the specification: ten rows, `ews_alerts.level4 = [1, 6, 9]`,
chart `flow-with-ews` as `ChartGrid` configures it. -/
def ewsScenario : ChartsAnimatedChart.Props :=
  { data := some (sampleRows 10), field := "Flow Packets/s",
    plotData := some
      { first_attack_idx := none, attack_indices := none,
        ews_alerts := some { level1 := none, level2 := none, level3 := none,
                             level4 := some [1, 6, 9] } },
    chartType := "flow-with-ews", showEWS := true, showAttackRegion := true }

/-- The EWS scenario with the `showEWS` prop left at its default, false. -/
def ewsHiddenScenario : ChartsAnimatedChart.Props :=
  { ewsScenario with showEWS := false }

/-- Scenario of the specification: five rows, `attack_indices = [2, 3, 4]`,
`first_attack_idx = 2`, chart `peak-region`. -/
def attackScenario : ChartsAnimatedChart.Props :=
  { data := some (sampleRows 5), field := "Flow Packets/s",
    plotData := some
      { first_attack_idx := some 2, attack_indices := some [2, 3, 4], ews_alerts := none },
    chartType := "peak-region", showAttackRegion := true }

/-- The attack scenario once the page has set `isAnalysisRunning` to false. -/
def stoppedScenario : ChartsAnimatedChart.Props :=
  { attackScenario with isAnalysisRunning := false }

/-- Five rows for the component of `src/components/AnimatedChart.js`. -/
def legacyScenario : AnimatedChart.Props :=
  { data := sampleRows 5, field := "Flow Packets/s", plotData := none }

/-- Five rows for the component of `src/components/AnimatedCharts.js`. -/
def uploadScenario : AnimatedCharts.Props :=
  { data := sampleRows 5, field := "Flow Packets/s", plotData := none,
    chartType := "flow-with-ews" }

/-! ## Overlay model

The overlay of one frame is what the component hands to the chart library: the
list `chartDatasets` and the object `annotations`.  A series keeps its label,
its points and its border colour; an annotation keeps its key, its kind and the
dataset values it was built from.  Text that the source assembles from numbers
(`EWS ${i+1}`, `ews-${i}`, `hsl(...)`) is kept as a constructor with the numbers
as arguments.

Further modelling conventions
* The read `row[key]` is modelled for the keys of the record itself and for
  names that no object has; the functions that a name inherited from
  `Object.prototype` yields are no values of `JsVal`.
* Relational comparison converts `null` to 0 and `undefined` to NaN.  The
  conversion of a string operand to a number is not modelled: `jsGt` is the
  comparison of the source on values that are not strings, and the theorems
  that depend on a comparison state this as a hypothesis.
* An exception thrown while the overlay is built (a property read on
  `undefined`, `toFixed` on a value that is not a number) is the result `none`.
-/

/-- The property read `row[key]`; `undefined` when the key is absent. -/
def Row.get (r : Row) (key : String) : JsVal :=
  match r.fields.lookup key with
  | some v => v
  | none => JsVal.undefined

/-- JavaScript truthiness of a value. -/
def JsVal.truthy : JsVal → Bool
  | JsVal.undefined => false
  | JsVal.null => false
  | JsVal.num n => n != 0
  | JsVal.str s => s != ""

/-- The expression `v || 0`. -/
def JsVal.orZero (v : JsVal) : JsVal :=
  if v.truthy then v else JsVal.num 0

/-- The expression `v !== undefined ? v : null`. -/
def JsVal.orNull : JsVal → JsVal
  | JsVal.undefined => JsVal.null
  | v => v

/-- The number a relational comparison sees for a value that is not a string;
`none` is NaN. A string is outside the model and is given `none`. -/
def JsVal.toNumber? : JsVal → Option Int
  | JsVal.num n => some n
  | JsVal.null => some 0
  | JsVal.undefined => none
  | JsVal.str _ => none

/-- The comparison `a > b` on values that are not strings. -/
def jsGt (a b : JsVal) : Bool :=
  match a.toNumber?, b.toNumber? with
  | some x, some y => decide (x > y)
  | _, _ => false

/-- The value of a digit in the given radix. -/
def digitValue (radix : Nat) (c : Char) : Option Nat :=
  let v : Option Nat :=
    if c.isDigit then some (c.toNat - 48)
    else if 'a'.toNat ≤ c.toNat ∧ c.toNat ≤ 'f'.toNat then some (c.toNat - 87)
    else if 'A'.toNat ≤ c.toNat ∧ c.toNat ≤ 'F'.toNat then some (c.toNat - 55)
    else none
  match v with
  | some d => if d < radix then some d else none
  | none => none

/-- The longest prefix of digits, read in the given radix; `acc` is the number
read so far, `none` while no digit was read. -/
def parseDigits (radix : Nat) : List Char → Option Nat → Option Nat
  | [], acc => acc
  | c :: rest, acc =>
    match digitValue radix c with
    | some d => parseDigits radix rest (some (acc.getD 0 * radix + d))
    | none => acc

/-- The characters that `parseInt` skips at the start: the white space and the
line terminators of ECMAScript. -/
def jsIsWhiteSpace (c : Char) : Bool :=
  [0x9, 0xA, 0xB, 0xC, 0xD, 0x20, 0xA0, 0x1680, 0x2000, 0x2001, 0x2002, 0x2003, 0x2004,
   0x2005, 0x2006, 0x2007, 0x2008, 0x2009, 0x200A, 0x2028, 0x2029, 0x202F, 0x205F, 0x3000,
   0xFEFF].contains c.toNat

/-- The function `parseInt` with one argument: white space, a sign, an optional
`0x` prefix and the longest prefix of digits; `none` is NaN. -/
def jsParseInt (s : List Char) : Option Int :=
  let s1 := s.dropWhile jsIsWhiteSpace
  let signed : Bool × List Char :=
    match s1 with
    | '-' :: r => (true, r)
    | '+' :: r => (false, r)
    | _ => (false, s1)
  let based : Nat × List Char :=
    match signed.2 with
    | '0' :: 'x' :: r => (16, r)
    | '0' :: 'X' :: r => (16, r)
    | _ => (10, signed.2)
  match parseDigits based.1 based.2 none with
  | none => none
  | some n => some (if signed.1 then -(n : Int) else (n : Int))

/-- A colour of the drawing: a CSS name, or `hsl(hue, 70%, 60%)`. -/
inductive Colour where
  | named (name : String)
  | hsl (hue : Nat)
  deriving DecidableEq, Repr

/-- A point `{ x, y }` of a series. -/
structure Point where
  x : JsVal
  y : JsVal
  deriving DecidableEq, Repr

/-- The label of a series. -/
inductive SeriesLabel where
  | text (s : String)
  | value (v : JsVal)
  | alertCount (levelName : String) (count : Nat)
  | ews (ewsNumber : Nat)
  deriving DecidableEq, Repr

/-- One entry of `chartDatasets`. -/
structure Series where
  label : SeriesLabel
  data : List Point
  borderColor : Colour
  deriving DecidableEq, Repr

/-- The key of an entry of `annotations`: `attackStart`, `attackEnd`,
`peakPoint`, `peakLabel`, `ews-${i}` and `ews-level${level}-${i}`. -/
inductive AnnotationId where
  | attackStart
  | attackEnd
  | peakPoint
  | peakLabel
  | ews (i : Nat)
  | ewsLevel (level : Nat) (i : Nat)
  deriving DecidableEq, Repr

/-- The value of an entry of `annotations`: a vertical line at `x` with a label
text, the line of an EWS marker (its label names the EWS number and the
seconds), a point, or the text label of the peak (placed at `peakTime + 10`,
`peakValue - 0.1 * peakValue`). -/
inductive AnnotationSpec where
  | line (x : JsVal) (content : String) (borderColor : Colour)
  | ewsLine (x : JsVal) (ewsNumber : Nat) (borderColor : Colour)
  | point (xValue yValue : JsVal) (backgroundColor : Colour)
  | peakLabel (peakTime peakValue : JsVal)
  deriving DecidableEq, Repr

/-- The overlay of one frame. -/
structure Overlay where
  series : List Series
  annotations : List (AnnotationId × AnnotationSpec)
  deriving DecidableEq, Repr

/-- The keys of the annotations of an overlay. -/
def Overlay.ids (o : Overlay) : List AnnotationId :=
  o.annotations.map Prod.fst

/-- The labels of the series of an overlay. -/
def Overlay.labels (o : Overlay) : List SeriesLabel :=
  o.series.map Series.label

/-- The method `findIndex`, counting from `i`; -1 when no element passes. -/
def findIndexFrom (pred : Row → Bool) : Nat → List Row → Int
  | _, [] => -1
  | i, r :: rest => if pred r then (i : Int) else findIndexFrom pred (i + 1) rest

/-- The elements of `new Set(values)`, in insertion order, added to the
elements `seen` that are in the set already. -/
def setInsertAll : List JsVal → List JsVal → List JsVal
  | seen, [] => seen
  | seen, v :: rest => if v ∈ seen then setInsertAll seen rest else setInsertAll (seen ++ [v]) rest

/-- The filter `(_, i) => keep i` on positions, with `i` the position of the
head of the list. -/
def filterIdxFrom {α : Type} (keep : Nat → Bool) : Nat → List α → List α
  | _, [] => []
  | i, a :: rest =>
    if keep i then a :: filterIdxFrom keep (i + 1) rest else filterIdxFrom keep (i + 1) rest

/-! ## Overlay derivation of `src/components/charts/AnimatedChart.js` -/

namespace ChartsAnimatedChart

/-- Lines 295-320: the colour table `colors`. -/
def colors.benign : Colour := Colour.named "green"

/-- The entry `colors.attack`. -/
def colors.attack : Colour := Colour.named "red"

/-- The entry `colors.trafficFlow`. -/
def colors.trafficFlow : Colour := Colour.named "gray"

/-- The entry `colors.flowPackets`. -/
def colors.flowPackets : Colour := Colour.named "blue"

/-- The entries `colors.ews1` to `colors.ews4`; `undefined` is the empty name. -/
def colors.ews (level : Int) : Colour :=
  if level = 1 then Colour.named "green"
  else if level = 2 then Colour.named "orange"
  else if level = 3 then Colour.named "red"
  else if level = 4 then Colour.named "purple"
  else Colour.named ""

/-- The entry `colors.attackStart`. -/
def colors.attackStart : Colour := Colour.named "red"

/-- The entry `colors.attackStop`. -/
def colors.attackStop : Colour := Colour.named "darkred"

/-- The entry `colors.peakStart`. -/
def colors.peakStart : Colour := Colour.named "purple"

/-- The entry `colors.peakPoint.marker`. -/
def colors.peakPointMarker : Colour := Colour.named "black"

/-- The entry `colors.peakPoint.line`. -/
def colors.peakPointLine : Colour := Colour.named "blue"

/-- The entry `colors.earlyWarning`. -/
def colors.earlyWarning : Colour := Colour.named "red"

/-- The entry `colors.ewsLines[i % colors.ewsLines.length]`. -/
def colors.ewsLines (i : Nat) : Colour :=
  if i % 3 = 0 then Colour.named "green"
  else if i % 3 = 1 then Colour.named "orange"
  else Colour.named "purple"

/-- The entry `colors.peakAttack`. -/
def colors.peakAttack : Colour := Colour.named "purple"

/-- The entry `colors.emergency`. -/
def colors.emergency : Colour := Colour.named "red"

/-- The table `levelMap` of lines 551 and 768. -/
def levelMap (level : Int) : String :=
  if level = 1 then "Low"
  else if level = 2 then "Medium"
  else if level = 3 then "High"
  else if level = 4 then "Very High"
  else ""

/-- Line 324: `slice`, the first `frame` rows. -/
def slice (data : Option (List Row)) (frame : Nat) : List Row :=
  match data with
  | some d => if d.length > 0 then d.take (min frame d.length) else []
  | none => []

/-- Lines 325-326 and 481: a point `{ x: labels[i], y: values[i] }`, and the
points of lines 332-340. -/
def flowPoint (field : String) (r : Row) : Point :=
  { x := (r.get "Seconds").orZero, y := (r.get field).orNull }

/-- The points `{ x: r.Seconds, y: r[field] }` of the marker series. -/
def rawPoint (field : String) (r : Row) : Point :=
  { x := r.get "Seconds", y := r.get field }

/-- Line 325: `labels`. -/
def labels (data : Option (List Row)) (frame : Nat) : List JsVal :=
  (slice data frame).map (fun r => (r.get "Seconds").orZero)

/-- Line 326: `values`. -/
def values (data : Option (List Row)) (field : String) (frame : Nat) : List JsVal :=
  (slice data frame).map (fun r => (r.get field).orNull)

/-- The points `values.map((v, i) => ({ x: labels[i], y: v }))`; `labels` and
`values` have the same length. -/
def flowData (data : Option (List Row)) (field : String) (frame : Nat) : List Point :=
  List.zipWith (fun x y => { x := x, y := y }) (labels data frame) (values data field frame)

/-- Line 329: `benignRows`. -/
def benignRows (data : Option (List Row)) (frame : Nat) : List Row :=
  (slice data frame).filter (fun r => r.get "Label" == JsVal.str "BENIGN")

/-- Line 330: `attackRows`. -/
def attackRows (data : Option (List Row)) (frame : Nat) : List Row :=
  (slice data frame).filter (fun r => r.get "Label" != JsVal.str "BENIGN")

/-- The two series `Benign` and `Attack` that open several cases. -/
def benignAttackSeries (p : Props) (frame : Nat) : List Series :=
  [ { label := SeriesLabel.text "Benign",
      data := (benignRows p.data frame).map (flowPoint p.field),
      borderColor := colors.benign },
    { label := SeriesLabel.text "Attack",
      data := (attackRows p.data frame).map (flowPoint p.field),
      borderColor := colors.attack } ]

/-- The series over all visible rows that opens several cases. -/
def flowSeries (p : Props) (frame : Nat) (label : String) (colour : Colour) : Series :=
  { label := SeriesLabel.text label, data := flowData p.data p.field frame,
    borderColor := colour }

/-- The element `data[idx]`, for the property reads `data[idx].Seconds` and
`data[idx][field]`; `none` when the read throws. -/
def rowAt (data : Option (List Row)) (idx : Int) : Option Row :=
  match data with
  | none => none
  | some d => if 0 ≤ idx then d[idx.toNat]? else none

/-- The test `plotData?.attack_indices?.length > 0`, with `attackIndices[0]` and
`attackIndices[attackIndices.length - 1]` when it passes. -/
def attackBounds (p : Props) : Option (Int × Int) :=
  match p.plotData with
  | none => none
  | some plotData =>
    match plotData.attack_indices with
    | none => none
    | some attack_indices =>
      match attack_indices.head?, attack_indices.getLast? with
      | some firstAttackIdx, some lastAttackIdx => some (firstAttackIdx, lastAttackIdx)
      | _, _ => none

/-- Lines 564-606, 622-665, 785-827 and 882-922: the attack region markers; the
four copies differ in the label texts only. -/
def attackRegionMarkers (p : Props) (frame : Nat) (startContent stopContent : String) :
    Option (List (AnnotationId × AnnotationSpec)) :=
  if p.showAttackRegion then
    match attackBounds p with
    | none => some []
    | some (firstAttackIdx, lastAttackIdx) =>
      if (frame : Int) > firstAttackIdx then
        match rowAt p.data firstAttackIdx with
        | none => none
        | some startRow =>
          if (frame : Int) > lastAttackIdx then
            match rowAt p.data lastAttackIdx with
            | none => none
            | some endRow =>
              some [ (AnnotationId.attackStart,
                       AnnotationSpec.line (startRow.get "Seconds") startContent
                         colors.attackStart),
                     (AnnotationId.attackEnd,
                       AnnotationSpec.line (endRow.get "Seconds") stopContent
                         colors.attackStop) ]
          else
            some [ (AnnotationId.attackStart,
                     AnnotationSpec.line (startRow.get "Seconds") startContent
                       colors.attackStart) ]
      else some []
  else some []

/-- Lines 436-437 and 669-670: the body of `attackRows.reduce`, from position
`idx` on, with `maxIdx` the accumulator. -/
def peakIdxLoop (field : String) (arr : List Row) : Nat → Nat → List Row → Nat
  | maxIdx, _, [] => maxIdx
  | maxIdx, idx, row :: rest =>
    match arr[maxIdx]? with
    | some maxRow =>
      peakIdxLoop field arr (if jsGt (row.get field) (maxRow.get field) then idx else maxIdx)
        (idx + 1) rest
    | none => maxIdx

/-- Lines 436-437 and 669-670: `peakIdx`. -/
def peakIdx (field : String) (arr : List Row) : Nat :=
  peakIdxLoop field arr 0 0 arr

/-- Lines 435-443 and 668-677: the peak row of the visible attack rows, when
there is one and `frame > lastFrameIdx`. -/
def visiblePeak (p : Props) (frame : Nat) : Option Row :=
  if (attackRows p.data frame).length > 0 then
    if peakIdx p.field (attackRows p.data frame) < (attackRows p.data frame).length then
      match (attackRows p.data frame)[peakIdx p.field (attackRows p.data frame)]? with
      | some peakRow =>
        if (frame : Int) >
            findIndexFrom (fun r => r.get "Seconds" == peakRow.get "Seconds") 0
              (p.data.getD []) then
          some peakRow
        else none
      | none => none
    else none
  else none

/-- The value `plotData?.first_attack_idx`; `none` is `undefined`. -/
def firstAttackIdx (p : Props) : Option Int :=
  match p.plotData with
  | none => none
  | some plotData => plotData.first_attack_idx

/-- Lines 414-432: the attack start marker of the `peak-region` case. -/
def peakRegionStart (p : Props) (frame : Nat) : Option (List (AnnotationId × AnnotationSpec)) :=
  match firstAttackIdx p with
  | none => some []
  | some idx =>
    if (frame : Int) > idx then
      match rowAt p.data idx with
      | none => none
      | some startRow =>
        some [ (AnnotationId.attackStart,
                 AnnotationSpec.line (startRow.get "Seconds") "Attack Start" colors.peakStart) ]
    else some []

/-- Lines 391-474: the case `peak-region`. -/
def derivePeakRegion (p : Props) (frame : Nat) : Option Overlay :=
  if firstAttackIdx p != some (-1) && decide ((attackRows p.data frame).length > 0) then
    match peakRegionStart p frame with
    | none => none
    | some startMarker =>
      match visiblePeak p frame with
      | some peakRow =>
        some { series := benignAttackSeries p frame ++
                 [ { label := SeriesLabel.text "Peak Point",
                     data := [ { x := peakRow.get "Seconds", y := peakRow.get p.field } ],
                     borderColor := colors.peakPointMarker } ],
               annotations := startMarker ++
                 [ (AnnotationId.peakPoint,
                     AnnotationSpec.line (peakRow.get "Seconds") "Peak Point"
                       colors.peakPointLine) ] }
      | none => some { series := benignAttackSeries p frame, annotations := startMarker }
  else some { series := benignAttackSeries p frame, annotations := [] }

/-- Lines 489-503: the series of the distinct labels, `idx` being the position of
the first label of the list among `uniqueLabels`. -/
def labelSeriesFrom (p : Props) (frame : Nat) : Nat → List JsVal → List Series
  | _, [] => []
  | idx, label :: rest =>
    { label := SeriesLabel.value label,
      data := ((slice p.data frame).filter (fun r => r.get "Label" == label)).map
                (rawPoint p.field),
      borderColor := Colour.hsl ((idx * 137) % 360) }
    :: labelSeriesFrom p frame (idx + 1) rest

/-- Line 489: `uniqueLabels`. -/
def uniqueLabels (p : Props) (frame : Nat) : List JsVal :=
  setInsertAll [] ((slice p.data frame).map (fun r => r.get "Label"))

/-- Lines 506-522: the decimated series of the early warnings. -/
def warningSeries (p : Props) (frame : Nat) : List Series :=
  if p.showEWS && (slice p.data frame).any (fun r => jsGt (r.get "EWS") (JsVal.num 0)) then
    [ { label := SeriesLabel.text "Early Warning (1 per 10)",
        data := (filterIdxFrom (fun i => i % 10 == 0) 0
                  ((slice p.data frame).filter (fun r => jsGt (r.get "EWS") (JsVal.num 0)))).map
                  (rawPoint p.field),
        borderColor := colors.earlyWarning } ]
  else []

/-- Lines 476-523: the case `early-warnings`. -/
def deriveEarlyWarnings (p : Props) (frame : Nat) : Option Overlay :=
  some { series := flowSeries p frame "Traffic Flow" colors.trafficFlow
                    :: (labelSeriesFrom p frame 0 (uniqueLabels p frame) ++ warningSeries p frame),
         annotations := [] }

/-- The points `slice.filter(r => r.EWS === level).map(...)` of lines 544-546
and 769-771. -/
def levelPoints (p : Props) (frame : Nat) (level : Int) : List Point :=
  ((slice p.data frame).filter (fun r => r.get "EWS" == JsVal.num level)).map (rawPoint p.field)

/-- Lines 543-561: the body of `[1, 2, 3, 4].forEach`, over the levels given. -/
def alertLevelSeries (p : Props) (frame : Nat) : List Int → List Series
  | [] => []
  | level :: rest =>
    if (levelPoints p frame level).length = 0 then alertLevelSeries p frame rest
    else
      { label := SeriesLabel.alertCount (levelMap level) (levelPoints p frame level).length,
        data := levelPoints p frame level,
        borderColor := colors.ews level }
      :: alertLevelSeries p frame rest

/-- Lines 530-607: the case `alerts`. -/
def deriveAlerts (p : Props) (frame : Nat) : Option Overlay :=
  match attackRegionMarkers p frame "Attack Start" "Attack Stop" with
  | none => none
  | some markers =>
    some { series := flowSeries p frame "Traffic Flow" colors.trafficFlow
                      :: alertLevelSeries p frame [1, 2, 3, 4],
           annotations := markers }

/-- Lines 668-703: the peak of the `flow-with-ews` case; `toFixed` throws when
`peakTime` is not a number. -/
def peakAttack (p : Props) (frame : Nat) :
    Option (List Series × List (AnnotationId × AnnotationSpec)) :=
  match visiblePeak p frame with
  | some peakRow =>
    match peakRow.get "Seconds" with
    | JsVal.num peakTime =>
      some ([ { label := SeriesLabel.text "Peak Attack",
                data := [ { x := JsVal.num peakTime, y := peakRow.get p.field } ],
                borderColor := colors.peakAttack } ],
            [ (AnnotationId.peakLabel,
                AnnotationSpec.peakLabel (JsVal.num peakTime) (peakRow.get p.field)) ])
    | _ => none
  | none => some ([], [])

/-- Lines 667-703 under the guard of line 622: the peak is looked for only when
the attack region is drawn. -/
def flowPeak (p : Props) (frame : Nat) :
    Option (List Series × List (AnnotationId × AnnotationSpec)) :=
  if p.showAttackRegion && (attackBounds p).isSome then peakAttack p frame else some ([], [])

/-- Lines 714-748: the body of `displayAlerts.forEach((idx, i) => ...)`, with
`i` the position of the head of the list; `toFixed` throws when `sec` is not a
number. -/
def ewsMarkerLoop (p : Props) (frame : Nat) :
    Nat → List Int → Option (List Series × List (AnnotationId × AnnotationSpec))
  | _, [] => some ([], [])
  | i, idx :: rest =>
    if (frame : Int) > idx then
      match rowAt p.data idx with
      | none => none
      | some row =>
        match row.get "Seconds" with
        | JsVal.num sec =>
          match ewsMarkerLoop p frame (i + 1) rest with
          | none => none
          | some more =>
            some ({ label := SeriesLabel.ews (i + 1),
                    data := [ { x := JsVal.num sec, y := row.get p.field } ],
                    borderColor := colors.ewsLines i } :: more.1,
                  (AnnotationId.ews i,
                    AnnotationSpec.ewsLine (JsVal.num sec) (i + 1) (colors.ewsLines i))
                    :: more.2)
        | _ => none
    else ewsMarkerLoop p frame (i + 1) rest

/-- Lines 707-749: the first three level-4 alerts of the `flow-with-ews` case;
`displayAlerts` is `highAlerts` in both branches of line 711. -/
def ewsMarkers (p : Props) (frame : Nat) :
    Option (List Series × List (AnnotationId × AnnotationSpec)) :=
  if p.showEWS then
    match level4Alerts p with
    | none => some ([], [])
    | some level4 => ewsMarkerLoop p frame 0 (level4.take 3)
  else some ([], [])

/-- Lines 609-750: the case `flow-with-ews`. -/
def deriveFlowWithEws (p : Props) (frame : Nat) : Option Overlay :=
  match attackRegionMarkers p frame "Start" "Stop" with
  | none => none
  | some markers =>
    match flowPeak p frame with
    | none => none
    | some peak =>
      match ewsMarkers p frame with
      | none => none
      | some ews =>
        some { series := flowSeries p frame p.field colors.flowPackets :: (peak.1 ++ ews.1),
               annotations := markers ++ peak.2 ++ ews.2 }

/-- Line 765: `parseInt(title.split(' ')[0]) || 0`. -/
def alertLevel (title : String) : Int :=
  match jsParseInt (title.data.takeWhile (fun c => c != ' ')) with
  | some n => n
  | none => 0

/-- Lines 752-828: the case `alert-levels-separately`. -/
def deriveAlertLevelsSeparately (p : Props) (frame : Nat) : Option Overlay :=
  match attackRegionMarkers p frame "Attack Start" "Attack Stop" with
  | none => none
  | some markers =>
    some { series := flowSeries p frame "Traffic Flow" colors.trafficFlow
                      :: (if alertLevel p.title ≥ 1 ∧ alertLevel p.title ≤ 4 then
                            [ { label := SeriesLabel.alertCount (levelMap (alertLevel p.title))
                                           (levelPoints p frame (alertLevel p.title)).length,
                                data := levelPoints p frame (alertLevel p.title),
                                borderColor := colors.ews (alertLevel p.title) } ]
                          else []),
           annotations := markers }

/-- Lines 843-857: the series of the emergency alerts. -/
def emergencySeries (p : Props) (frame : Nat) : List Series :=
  match level4Alerts p with
  | none => []
  | some level4 =>
    [ { label := SeriesLabel.text "Emergency Alerts",
        data := (filterIdxFrom (fun i => level4.contains (i : Int)) 0 (slice p.data frame)).map
                  (rawPoint p.field),
        borderColor := colors.emergency } ]

/-- Lines 830-858: the case `emergency-alerts`. -/
def deriveEmergencyAlerts (p : Props) (frame : Nat) : Option Overlay :=
  some { series := flowSeries p frame p.field colors.flowPackets :: emergencySeries p frame,
         annotations := [] }

/-- Lines 934-947: the body of `indices.forEach((idx, i) => ...)` for one level,
with `i` the position of the head of the list. -/
def ewsPointLoop (p : Props) (frame : Nat) (level : Nat) :
    Nat → List Int → Option (List (AnnotationId × AnnotationSpec))
  | _, [] => some []
  | i, idx :: rest =>
    if (frame : Int) > idx then
      match rowAt p.data idx with
      | none => none
      | some row =>
        match ewsPointLoop p frame level (i + 1) rest with
        | none => none
        | some more =>
          some ((AnnotationId.ewsLevel level i,
                  AnnotationSpec.point (row.get "Seconds") (row.get p.field) (colors.ews level))
                :: more)
    else ewsPointLoop p frame level (i + 1) rest

/-- Line 933: `Object.entries(plotData.ews_alerts)`, the levels that are there,
in the order `level1` to `level4`. -/
def ewsEntries (ews_alerts : EwsAlerts) : List (Nat × List Int) :=
  (match ews_alerts.level1 with | some l => [(1, l)] | none => []) ++
  (match ews_alerts.level2 with | some l => [(2, l)] | none => []) ++
  (match ews_alerts.level3 with | some l => [(3, l)] | none => []) ++
  (match ews_alerts.level4 with | some l => [(4, l)] | none => [])

/-- Line 933: the outer `forEach` over the entries. -/
def ewsPointsOver (p : Props) (frame : Nat) :
    List (Nat × List Int) → Option (List (AnnotationId × AnnotationSpec))
  | [] => some []
  | entry :: rest =>
    match ewsPointLoop p frame entry.1 0 entry.2 with
    | none => none
    | some points =>
      match ewsPointsOver p frame rest with
      | none => none
      | some more => some (points ++ more)

/-- Lines 925-949: the EWS point annotations of the default case. -/
def ewsPoints (p : Props) (frame : Nat) : Option (List (AnnotationId × AnnotationSpec)) :=
  if p.showEWS then
    match p.plotData with
    | none => some []
    | some plotData =>
      match plotData.ews_alerts with
      | none => some []
      | some ews_alerts => ewsPointsOver p frame (ewsEntries ews_alerts)
  else some []

/-- Lines 860-950: the default case. -/
def deriveDefault (p : Props) (frame : Nat) : Option Overlay :=
  match attackRegionMarkers p frame "Attack Start" "Attack End" with
  | none => none
  | some markers =>
    match ewsPoints p frame with
    | none => none
    | some points =>
      some { series := benignAttackSeries p frame, annotations := markers ++ points }

/-- Lines 343-951: `chartDatasets` and `annotations` after the `switch` on
`chartType`, for the props `p` and the state cell `frame`. -/
def deriveOverlay (p : Props) (frame : Nat) : Option Overlay :=
  if p.chartType = "benign-attack" then
    some { series := benignAttackSeries p frame, annotations := [] }
  else if p.chartType = "derivative" then
    some { series := benignAttackSeries p frame, annotations := [] }
  else if p.chartType = "peak-region" then derivePeakRegion p frame
  else if p.chartType = "early-warnings" then deriveEarlyWarnings p frame
  else if p.chartType = "ews-confusion" then some { series := [], annotations := [] }
  else if p.chartType = "alerts" then deriveAlerts p frame
  else if p.chartType = "flow-with-ews" then deriveFlowWithEws p frame
  else if p.chartType = "alert-levels-separately" then deriveAlertLevelsSeparately p frame
  else if p.chartType = "emergency-alerts" then deriveEmergencyAlerts p frame
  else deriveDefault p frame

end ChartsAnimatedChart

/-! ## Specification-side definitions for the overlay -/

namespace ChartsAnimatedChart

/-- The labels of the nine `case` clauses of the `switch` on `chartType`; every
other chart type, `standard` among them, takes the `default` clause. -/
def namedCases : List String :=
  ["benign-attack", "derivative", "peak-region", "early-warnings", "ews-confusion", "alerts",
   "flow-with-ews", "alert-levels-separately", "emergency-alerts"]

/-- The chart types that take the `default` clause. -/
def isDefaultCase (chartType : String) : Bool :=
  !(namedCases.contains chartType)

/-- The chart types whose clause draws the attack region markers from
`attack_indices`: `alerts`, `flow-with-ews`, `alert-levels-separately` and the
`default` clause. -/
def drawsAttackRegion (chartType : String) : Bool :=
  chartType == "alerts" || chartType == "flow-with-ews" ||
    chartType == "alert-levels-separately" || isDefaultCase chartType

/-- The indices of one level of `ews_alerts`, as `Object.entries` lists them. -/
def levelIndices (p : Props) (level : Nat) : Option (List Int) :=
  match p.plotData with
  | none => none
  | some plotData =>
    match plotData.ews_alerts with
    | none => none
    | some ews_alerts => (ewsEntries ews_alerts).lookup level

/-- The metadata index on which an annotation depends, under the chart type and
the options of `p`; `none` when the chart does not draw the annotation from an
index. -/
def annotationIndex (p : Props) : AnnotationId → Option Int
  | AnnotationId.attackStart =>
    if p.chartType = "peak-region" then
      match firstAttackIdx p with
      | some idx => if idx = -1 then none else some idx
      | none => none
    else if drawsAttackRegion p.chartType && p.showAttackRegion then
      (attackBounds p).map Prod.fst
    else none
  | AnnotationId.attackEnd =>
    if drawsAttackRegion p.chartType && p.showAttackRegion then
      (attackBounds p).map Prod.snd
    else none
  | AnnotationId.ews i =>
    if p.chartType = "flow-with-ews" ∧ p.showEWS = true then
      match level4Alerts p with
      | some level4 => (level4.take 3)[i]?
      | none => none
    else none
  | AnnotationId.ewsLevel level i =>
    if isDefaultCase p.chartType && p.showEWS then
      match levelIndices p level with
      | some indices => indices[i]?
      | none => none
    else none
  | AnnotationId.peakPoint => none
  | AnnotationId.peakLabel => none

/-- The rule of the specification for one annotation: it is shown once `frame`
has passed the index it depends on, under the further conditions of its clause (the
attack end marker is nested in the attack start marker; the markers of the
`peak-region` clause and the peak need a visible attack row). -/
def annotationShown (p : Props) (frame : Nat) : AnnotationId → Bool
  | AnnotationId.attackStart =>
    match annotationIndex p AnnotationId.attackStart with
    | some idx =>
      decide ((frame : Int) > idx) &&
        (p.chartType != "peak-region" || decide ((attackRows p.data frame).length > 0))
    | none => false
  | AnnotationId.attackEnd =>
    match annotationIndex p AnnotationId.attackStart, annotationIndex p AnnotationId.attackEnd with
    | some first, some last => decide ((frame : Int) > first) && decide ((frame : Int) > last)
    | _, _ => false
  | AnnotationId.ews i =>
    match annotationIndex p (AnnotationId.ews i) with
    | some idx => decide ((frame : Int) > idx)
    | none => false
  | AnnotationId.ewsLevel level i =>
    match annotationIndex p (AnnotationId.ewsLevel level i) with
    | some idx => decide ((frame : Int) > idx)
    | none => false
  | AnnotationId.peakPoint =>
    p.chartType == "peak-region" && firstAttackIdx p != some (-1) &&
      decide ((attackRows p.data frame).length > 0)
  | AnnotationId.peakLabel =>
    p.chartType == "flow-with-ews" && p.showAttackRegion && (attackBounds p).isSome &&
      decide ((attackRows p.data frame).length > 0)

/-- The numeric value of a field. -/
def fieldNum (field : String) (r : Row) : Int :=
  match r.get field with
  | JsVal.num n => n
  | _ => 0

/-- Every row carries a number under `Seconds`, as the data model demands. -/
def NumericSeconds (d : List Row) : Prop :=
  ∀ r ∈ d, ∃ sec, r.get "Seconds" = JsVal.num sec

/-- No index of the metadata is negative, apart from the value -1 of
`first_attack_idx` that stands for no attack. -/
def IndicesNonNegative (p : Props) : Prop :=
  (∀ idx, firstAttackIdx p = some idx → idx = -1 ∨ 0 ≤ idx) ∧
  (∀ bounds, attackBounds p = some bounds → 0 ≤ bounds.1 ∧ 0 ≤ bounds.2) ∧
  (∀ level indices, levelIndices p level = some indices → ∀ idx ∈ indices, 0 ≤ idx)

end ChartsAnimatedChart

/-- A record with the keys the charts read. -/
def mkRow (seconds : Int) (label : String) (flow ews : Int) : Row :=
  ⟨[("Seconds", JsVal.num seconds), ("Label", JsVal.str label),
    ("Flow Packets/s", JsVal.num flow), ("EWS", JsVal.num ews)]⟩

/-- Five rows, the attack on rows 2 to 4, with the peak value 9 on rows 2 and 3. -/
def peakRows : List Row :=
  [mkRow 0 "BENIGN" 3 0, mkRow 1 "BENIGN" 4 1, mkRow 2 "DDoS" 9 4, mkRow 3 "DDoS" 9 4,
   mkRow 4 "DDoS" 7 2]

/-- The attack scenario over `peakRows`: chart `peak-region`,
`first_attack_idx = 2`, `attack_indices = [2, 3, 4]`. -/
def peakScenario : ChartsAnimatedChart.Props :=
  { attackScenario with data := some peakRows }


namespace ChartsAnimatedChart

/-- The keys that `attackRegionMarkers` writes, computed without the reads of
the dataset. -/
def markerIds (p : Props) (frame : Nat) : List AnnotationId :=
  if p.showAttackRegion then
    match attackBounds p with
    | none => []
    | some (firstAttackIdx, lastAttackIdx) =>
      if (frame : Int) > firstAttackIdx then
        if (frame : Int) > lastAttackIdx then [AnnotationId.attackStart, AnnotationId.attackEnd]
        else [AnnotationId.attackStart]
      else []
  else []

/-- The keys `ews-${i}` that `ewsMarkerLoop` writes. -/
def ewsIdsFrom (frame : Nat) : Nat → List Int → List AnnotationId
  | _, [] => []
  | i, idx :: rest =>
    if (frame : Int) > idx then AnnotationId.ews i :: ewsIdsFrom frame (i + 1) rest
    else ewsIdsFrom frame (i + 1) rest

/-- The labels `EWS ${i+1}` of the series that `ewsMarkerLoop` pushes. -/
def ewsLabelsFrom (frame : Nat) : Nat → List Int → List SeriesLabel
  | _, [] => []
  | i, idx :: rest =>
    if (frame : Int) > idx then SeriesLabel.ews (i + 1) :: ewsLabelsFrom frame (i + 1) rest
    else ewsLabelsFrom frame (i + 1) rest

/-- The keys `ews-level${level}-${i}` that `ewsPointLoop` writes. -/
def ewsLevelIdsFrom (frame : Nat) (level : Nat) : Nat → List Int → List AnnotationId
  | _, [] => []
  | i, idx :: rest =>
    if (frame : Int) > idx then
      AnnotationId.ewsLevel level i :: ewsLevelIdsFrom frame level (i + 1) rest
    else ewsLevelIdsFrom frame level (i + 1) rest

/-- The keys that `ewsPointsOver` writes. -/
def ewsLevelIdsOver (frame : Nat) : List (Nat × List Int) → List AnnotationId
  | [] => []
  | entry :: rest => ewsLevelIdsFrom frame entry.1 0 entry.2 ++ ewsLevelIdsOver frame rest

/-- The key that `peakRegionStart` writes. -/
def peakStartIds (p : Props) (frame : Nat) : List AnnotationId :=
  match firstAttackIdx p with
  | some idx => if (frame : Int) > idx then [AnnotationId.attackStart] else []
  | none => []

/-- The key that `flowPeak` writes. -/
def peakLabelIds (p : Props) (frame : Nat) : List AnnotationId :=
  if p.showAttackRegion && (attackBounds p).isSome &&
      decide ((attackRows p.data frame).length > 0) then [AnnotationId.peakLabel]
  else []

/-- The keys that `ewsMarkers` writes. -/
def ewsIds (p : Props) (frame : Nat) : List AnnotationId :=
  if p.showEWS then
    match level4Alerts p with
    | some level4 => ewsIdsFrom frame 0 (level4.take 3)
    | none => []
  else []

/-- The keys that `ewsPoints` writes. -/
def ewsLevelIds (p : Props) (frame : Nat) : List AnnotationId :=
  if p.showEWS then
    match p.plotData with
    | none => []
    | some plotData =>
      match plotData.ews_alerts with
      | none => []
      | some ews_alerts => ewsLevelIdsOver frame (ewsEntries ews_alerts)
  else []

/-- The keys of `annotations` after the `switch`, computed without the reads of
the dataset that may throw. -/
def overlayIds (p : Props) (frame : Nat) : List AnnotationId :=
  if p.chartType = "benign-attack" then []
  else if p.chartType = "derivative" then []
  else if p.chartType = "peak-region" then
    if firstAttackIdx p != some (-1) && decide ((attackRows p.data frame).length > 0) then
      peakStartIds p frame ++ [AnnotationId.peakPoint]
    else []
  else if p.chartType = "early-warnings" then []
  else if p.chartType = "ews-confusion" then []
  else if p.chartType = "alerts" then markerIds p frame
  else if p.chartType = "flow-with-ews" then
    markerIds p frame ++ peakLabelIds p frame ++ ewsIds p frame
  else if p.chartType = "alert-levels-separately" then markerIds p frame
  else if p.chartType = "emergency-alerts" then []
  else markerIds p frame ++ ewsLevelIds p frame

end ChartsAnimatedChart

namespace ChartsAnimatedChart

/-- The props `p` with the dataset `d` in place of `p.data`. -/
def withData (p : Props) (d : List Row) : Props :=
  { p with data := some d }

end ChartsAnimatedChart

/-- Ten rows of which rows 2 to 4 are attack rows, with `attack_indices =
[2, 3, 4]` and `ews_alerts.level4 = [1, 6, 9]`, chart `flow-with-ews`. -/
def attackFlowScenario : ChartsAnimatedChart.Props :=
  { ewsScenario with
    data := some (peakRows ++ [mkRow 5 "BENIGN" 2 0, mkRow 6 "BENIGN" 2 4, mkRow 7 "BENIGN" 1 0,
                               mkRow 8 "BENIGN" 1 0, mkRow 9 "BENIGN" 1 4]),
    plotData := some
      { first_attack_idx := some 2, attack_indices := some [2, 3, 4],
        ews_alerts := some { level1 := none, level2 := none, level3 := none,
                             level4 := some [1, 6, 9] } } }

/-- The peak scenario with `first_attack_idx = -2`, an index before the first
row. -/
def negativeFirstScenario : ChartsAnimatedChart.Props :=
  { peakScenario with
    plotData := some
      { first_attack_idx := some (-2), attack_indices := some [2, 3, 4], ews_alerts := none } }

/-- The EWS scenario with `ews_alerts.level4 = [-2, 6, 9]`. -/
def negativeEwsScenario : ChartsAnimatedChart.Props :=
  { ewsScenario with
    plotData := some
      { first_attack_idx := none, attack_indices := none,
        ews_alerts := some { level1 := none, level2 := none, level3 := none,
                             level4 := some [-2, 6, 9] } } }

/-- The flow scenario with `ews_alerts.level4 = [1, 6, 12]`: the last index lies
behind the ten rows. -/
def beyondEndScenario : ChartsAnimatedChart.Props :=
  { attackFlowScenario with
    plotData := some
      { first_attack_idx := some 2, attack_indices := some [2, 3, 4],
        ews_alerts := some { level1 := none, level2 := none, level3 := none,
                             level4 := some [1, 6, 12] } } }

/-- The peak scenario drawn as a `benign-attack` chart. -/
def benignAttackScenario : ChartsAnimatedChart.Props :=
  { peakScenario with chartType := "benign-attack" }

/-! ## Further specification-side definitions and scenarios -/

/-- Whether a series label is one of the labels `EWS k` of the level-4 markers. -/
def SeriesLabel.isEws : SeriesLabel → Bool
  | SeriesLabel.ews _ => true
  | _ => false

/-- Whether an annotation key is one of the keys `ews-i` of the level-4 markers. -/
def AnnotationId.isEws : AnnotationId → Bool
  | AnnotationId.ews _ => true
  | _ => false

/-- The expression `v ?? null`. -/
def JsVal.nullish : JsVal → JsVal
  | JsVal.undefined => JsVal.null
  | v => v

/-! ## The alerts case of `src/components/AnimatedChart.js` -/

namespace AnimatedChart

/-- Line 87: `slice`, the first `frame` rows. -/
def slice (p : Props) (frame : Nat) : List Row :=
  p.data.take frame

/-- Lines 88-89 and 269: the points `values.map((v, i) => ({ x: labels[i], y: v }))`
with `labels = slice.map(r => r.Seconds)` and `values = slice.map(r => r[field] ?? null)`. -/
def flowData (p : Props) (frame : Nat) : List Point :=
  List.zipWith (fun x y => { x := x, y := y }) ((slice p frame).map (fun r => r.get "Seconds"))
    ((slice p frame).map (fun r => (r.get p.field).nullish))

/-- Lines 278-280: `levelPoints`. -/
def levelPoints (p : Props) (frame : Nat) (level : Int) : List Point :=
  ((slice p frame).filter (fun r => r.get "EWS" == JsVal.num level)).map
    (fun r => { x := r.get "Seconds", y := r.get p.field })

/-- The entries `ews1` to `ews4` of the default of the prop `colors`;
`undefined` is the empty name. -/
def colors.ews (level : Int) : Colour :=
  if level = 1 then Colour.named "green"
  else if level = 2 then Colour.named "orange"
  else if level = 3 then Colour.named "red"
  else if level = 4 then Colour.named "purple"
  else Colour.named ""

/-- Line 284: the label of the series of one level, for the levels of line 277. -/
def levelLabel (level : Int) : String :=
  if level = 1 then "Level 1 Alert"
  else if level = 2 then "Level 2 Alert"
  else if level = 3 then "Level 3 Alert"
  else if level = 4 then "Level 4 Alert"
  else ""

/-- Lines 264-292: the series of the case `alerts`, one for every level. -/
def alertsSeries (p : Props) (frame : Nat) : List Series :=
  { label := SeriesLabel.text "Traffic Flow", data := flowData p frame,
    borderColor := Colour.named "gray" }
  :: ([1, 2, 3, 4] : List Int).map (fun level =>
      { label := SeriesLabel.text (levelLabel level), data := levelPoints p frame level,
        borderColor := colors.ews level })

end AnimatedChart

/-! ## `src/components/charts/ChartGrid.js` -/

namespace ChartGrid

/-- Lines 120-164: the titles of the charts `alert-level-1` to `alert-level-4`
of `allCharts`. -/
def alertLevelTitle (level : Nat) : String :=
  if level = 1 then "Level 1 Alerts - Flow Packets/s"
  else if level = 2 then "Level 2 Alerts - Flow Packets/s"
  else if level = 3 then "Level 3 Alerts - Flow Packets/s"
  else "Level 4 Alerts - Flow Packets/s"

/-- Lines 120-164: the identifiers of the charts `alert-level-1` to
`alert-level-4`. -/
def alertLevelId (level : Nat) : String :=
  if level = 1 then "alert-level-1"
  else if level = 2 then "alert-level-2"
  else if level = 3 then "alert-level-3"
  else "alert-level-4"

/-- Lines 120-164 and 296-311: the props that `ChartGrid` passes to
`AnimatedChart` for the chart of the alert level `level`; the entry
`alertLevel` of the configuration is not passed on. -/
def alertLevelChart (cleanedDf : List Row) (plotData : Option PlotData)
    (isAnalysisRunning : Bool) (level : Nat) : ChartsAnimatedChart.Props :=
  { data := some cleanedDf, field := "Flow Packets/s", plotData := plotData,
    chartType := "alert-levels-separately", showEWS := true, showAttackRegion := true,
    title := alertLevelTitle level, speed := 30, isAnalysisRunning := isAnalysisRunning,
    chartId := alertLevelId level }

/-- Lines 32-42 and 296-311: the props of the chart `ews-confusion-matrix` of
`allCharts`. -/
def confusionMatrixChart (cleanedDf : List Row) (plotData : Option PlotData)
    (isAnalysisRunning : Bool) : ChartsAnimatedChart.Props :=
  { data := some cleanedDf, field := "Flow Packets/s", plotData := plotData,
    chartType := "confusion-matrix", showEWS := true, showAttackRegion := false,
    title := "EWS Confusion Matrix", speed := 30, isAnalysisRunning := isAnalysisRunning,
    chartId := "ews-confusion-matrix" }

end ChartGrid

/-- The ten rows of the flow scenario; the column `EWS` has the value 1 once,
2 once, 4 four times and 3 never. -/
def flowRows : List Row :=
  peakRows ++ [mkRow 5 "BENIGN" 2 0, mkRow 6 "BENIGN" 2 4, mkRow 7 "BENIGN" 1 0,
               mkRow 8 "BENIGN" 1 0, mkRow 9 "BENIGN" 1 4]

/-- The flow scenario drawn as an `alerts` chart. -/
def alertsScenario : ChartsAnimatedChart.Props :=
  { attackFlowScenario with chartType := "alerts" }

/-- The ten rows for the component of `src/components/AnimatedChart.js`, chart
`alerts`. -/
def legacyAlertsScenario : AnimatedChart.Props :=
  { data := flowRows, field := "Flow Packets/s", plotData := none, chartType := "alerts" }

/-! ## `src/components/FileUpload.js` -/

namespace FileUpload

/-- Lines 118-158: the titles of the charts `alert-level-1` to `alert-level-4`
that `FileUpload` passes to `AnimatedCharts`. -/
def alertLevelTitle (level : Nat) : String :=
  if level = 1 then "1 Level Alerts - Flow Packets/s"
  else if level = 2 then "2 Level Alerts - Flow Packets/s"
  else if level = 3 then "3 Level Alerts - Flow Packets/s"
  else "4 Level Alerts - Flow Packets/s"

end FileUpload

/-- The peak scenario drawn as an `early-warnings` chart with `showEWS` set. -/
def earlyWarningScenario : ChartsAnimatedChart.Props :=
  { peakScenario with chartType := "early-warnings", showEWS := true }

/-! ## Overlay derivation of `src/components/AnimatedCharts.js` -/

namespace AnimatedCharts

/-- Lines 80-105: the colour table `colors`. -/
def colors.benign : Colour := Colour.named "green"

/-- The entry `colors.attack`. -/
def colors.attack : Colour := Colour.named "red"

/-- The entry `colors.trafficFlow`. -/
def colors.trafficFlow : Colour := Colour.named "gray"

/-- The entry `colors.flowPackets`. -/
def colors.flowPackets : Colour := Colour.named "blue"

/-- The entries `colors.ews1` to `colors.ews4`; `undefined` is the empty name. -/
def colors.ews (level : Int) : Colour :=
  if level = 1 then Colour.named "green"
  else if level = 2 then Colour.named "orange"
  else if level = 3 then Colour.named "red"
  else if level = 4 then Colour.named "purple"
  else Colour.named ""

/-- The entry `colors.attackStart`. -/
def colors.attackStart : Colour := Colour.named "red"

/-- The entry `colors.attackStop`. -/
def colors.attackStop : Colour := Colour.named "darkred"

/-- The entry `colors.peakStart`. -/
def colors.peakStart : Colour := Colour.named "purple"

/-- The entry `colors.peakPoint.marker`. -/
def colors.peakPointMarker : Colour := Colour.named "black"

/-- The entry `colors.peakPoint.line`. -/
def colors.peakPointLine : Colour := Colour.named "blue"

/-- The entry `colors.earlyWarning`. -/
def colors.earlyWarning : Colour := Colour.named "red"

/-- The entry `colors.ewsLines[i % colors.ewsLines.length]`. -/
def colors.ewsLines (i : Nat) : Colour :=
  if i % 3 = 0 then Colour.named "green"
  else if i % 3 = 1 then Colour.named "orange"
  else Colour.named "purple"

/-- The entry `colors.peakAttack`. -/
def colors.peakAttack : Colour := Colour.named "purple"

/-- The entry `colors.emergency`. -/
def colors.emergency : Colour := Colour.named "red"

/-- The table `levelMap` of lines 328 and 541. -/
def levelMap (level : Int) : String :=
  if level = 1 then "Low"
  else if level = 2 then "Medium"
  else if level = 3 then "High"
  else if level = 4 then "Very High"
  else ""

/-- Line 108: `slice`, the first `frame` rows. -/
def slice (data : List Row) (frame : Nat) : List Row :=
  data.take frame

/-- The points `{ x: r.Seconds, y: r[field] }` of lines 116-117 and of the
marker series. -/
def rawPoint (field : String) (r : Row) : Point :=
  { x := r.get "Seconds", y := r.get field }

/-- Line 109: `labels`. -/
def labels (data : List Row) (frame : Nat) : List JsVal :=
  (slice data frame).map (fun r => r.get "Seconds")

/-- Line 110: `values`. -/
def values (data : List Row) (field : String) (frame : Nat) : List JsVal :=
  (slice data frame).map (fun r => (r.get field).nullish)

/-- The points `values.map((v, i) => ({ x: labels[i], y: v }))`; `labels` and
`values` have the same length. -/
def flowData (data : List Row) (field : String) (frame : Nat) : List Point :=
  List.zipWith (fun x y => { x := x, y := y }) (labels data frame) (values data field frame)

/-- Line 113: `benignRows`. -/
def benignRows (data : List Row) (frame : Nat) : List Row :=
  (slice data frame).filter (fun r => r.get "Label" == JsVal.str "BENIGN")

/-- Line 114: `attackRows`. -/
def attackRows (data : List Row) (frame : Nat) : List Row :=
  (slice data frame).filter (fun r => r.get "Label" != JsVal.str "BENIGN")

/-- The two series `Benign` and `Attack` that open several cases, with the
points `benignData` and `attackData` of lines 116-117. -/
def benignAttackSeries (p : Props) (frame : Nat) : List Series :=
  [ { label := SeriesLabel.text "Benign",
      data := (benignRows p.data frame).map (rawPoint p.field),
      borderColor := colors.benign },
    { label := SeriesLabel.text "Attack",
      data := (attackRows p.data frame).map (rawPoint p.field),
      borderColor := colors.attack } ]

/-- The series over all visible rows that opens several cases. -/
def flowSeries (p : Props) (frame : Nat) (label : String) (colour : Colour) : Series :=
  { label := SeriesLabel.text label, data := flowData p.data p.field frame,
    borderColor := colour }

/-- The element `data[idx]`, for the property reads `data[idx].Seconds` and
`data[idx][field]`; `none` when the read throws. -/
def rowAt (data : List Row) (idx : Int) : Option Row :=
  if 0 ≤ idx then data[idx.toNat]? else none

/-- The test `plotData?.attack_indices?.length > 0`, with `attackIndices[0]` and
`attackIndices[attackIndices.length - 1]` when it passes. -/
def attackBounds (p : Props) : Option (Int × Int) :=
  match p.plotData with
  | none => none
  | some plotData =>
    match plotData.attack_indices with
    | none => none
    | some attack_indices =>
      match attack_indices.head?, attack_indices.getLast? with
      | some firstAttackIdx, some lastAttackIdx => some (firstAttackIdx, lastAttackIdx)
      | _, _ => none

/-- The array `plotData?.ews_alerts?.level4`, when it is there. -/
def level4Alerts (p : Props) : Option (List Int) :=
  match p.plotData with
  | none => none
  | some plotData =>
    match plotData.ews_alerts with
    | none => none
    | some ews_alerts => ews_alerts.level4

/-- Lines 341-383, 399-442, 558-600 and 655-695: the attack region markers; the
four copies differ in the label texts only. -/
def attackRegionMarkers (p : Props) (frame : Nat) (startContent stopContent : String) :
    Option (List (AnnotationId × AnnotationSpec)) :=
  if p.showAttackRegion then
    match attackBounds p with
    | none => some []
    | some (firstAttackIdx, lastAttackIdx) =>
      if (frame : Int) > firstAttackIdx then
        match rowAt p.data firstAttackIdx with
        | none => none
        | some startRow =>
          if (frame : Int) > lastAttackIdx then
            match rowAt p.data lastAttackIdx with
            | none => none
            | some endRow =>
              some [ (AnnotationId.attackStart,
                       AnnotationSpec.line (startRow.get "Seconds") startContent
                         colors.attackStart),
                     (AnnotationId.attackEnd,
                       AnnotationSpec.line (endRow.get "Seconds") stopContent
                         colors.attackStop) ]
          else
            some [ (AnnotationId.attackStart,
                     AnnotationSpec.line (startRow.get "Seconds") startContent
                       colors.attackStart) ]
      else some []
  else some []

/-- Lines 213-214 and 446-447: the body of `attackRows.reduce`, from position
`idx` on, with `maxIdx` the accumulator. -/
def peakIdxLoop (field : String) (arr : List Row) : Nat → Nat → List Row → Nat
  | maxIdx, _, [] => maxIdx
  | maxIdx, idx, row :: rest =>
    match arr[maxIdx]? with
    | some maxRow =>
      peakIdxLoop field arr (if jsGt (row.get field) (maxRow.get field) then idx else maxIdx)
        (idx + 1) rest
    | none => maxIdx

/-- Lines 213-214 and 446-447: `peakIdx`. -/
def peakIdx (field : String) (arr : List Row) : Nat :=
  peakIdxLoop field arr 0 0 arr

/-- Lines 212-220 and 445-454: the peak row of the visible attack rows, when
there is one and `frame > lastFrameIdx`. -/
def visiblePeak (p : Props) (frame : Nat) : Option Row :=
  if (attackRows p.data frame).length > 0 then
    if peakIdx p.field (attackRows p.data frame) < (attackRows p.data frame).length then
      match (attackRows p.data frame)[peakIdx p.field (attackRows p.data frame)]? with
      | some peakRow =>
        if (frame : Int) >
            findIndexFrom (fun r => r.get "Seconds" == peakRow.get "Seconds") 0
              p.data then
          some peakRow
        else none
      | none => none
    else none
  else none

/-- The value `plotData?.first_attack_idx`; `none` is `undefined`. -/
def firstAttackIdx (p : Props) : Option Int :=
  match p.plotData with
  | none => none
  | some plotData => plotData.first_attack_idx

/-- Lines 191-209: the attack start marker of the `peak-region` case. -/
def peakRegionStart (p : Props) (frame : Nat) : Option (List (AnnotationId × AnnotationSpec)) :=
  match firstAttackIdx p with
  | none => some []
  | some idx =>
    if (frame : Int) > idx then
      match rowAt p.data idx with
      | none => none
      | some startRow =>
        some [ (AnnotationId.attackStart,
                 AnnotationSpec.line (startRow.get "Seconds") "Attack Start" colors.peakStart) ]
    else some []

/-- Lines 168-251: the case `peak-region`. -/
def derivePeakRegion (p : Props) (frame : Nat) : Option Overlay :=
  if firstAttackIdx p != some (-1) && decide ((attackRows p.data frame).length > 0) then
    match peakRegionStart p frame with
    | none => none
    | some startMarker =>
      match visiblePeak p frame with
      | some peakRow =>
        some { series := benignAttackSeries p frame ++
                 [ { label := SeriesLabel.text "Peak Point",
                     data := [ { x := peakRow.get "Seconds", y := peakRow.get p.field } ],
                     borderColor := colors.peakPointMarker } ],
               annotations := startMarker ++
                 [ (AnnotationId.peakPoint,
                     AnnotationSpec.line (peakRow.get "Seconds") "Peak Point"
                       colors.peakPointLine) ] }
      | none => some { series := benignAttackSeries p frame, annotations := startMarker }
  else some { series := benignAttackSeries p frame, annotations := [] }

/-- Lines 266-280: the series of the distinct labels, `idx` being the position of
the first label of the list among `uniqueLabels`. -/
def labelSeriesFrom (p : Props) (frame : Nat) : Nat → List JsVal → List Series
  | _, [] => []
  | idx, label :: rest =>
    { label := SeriesLabel.value label,
      data := ((slice p.data frame).filter (fun r => r.get "Label" == label)).map
                (rawPoint p.field),
      borderColor := Colour.hsl ((idx * 137) % 360) }
    :: labelSeriesFrom p frame (idx + 1) rest

/-- Line 266: `uniqueLabels`. -/
def uniqueLabels (p : Props) (frame : Nat) : List JsVal :=
  setInsertAll [] ((slice p.data frame).map (fun r => r.get "Label"))

/-- Lines 283-299: the decimated series of the early warnings. -/
def warningSeries (p : Props) (frame : Nat) : List Series :=
  if p.showEWS && (slice p.data frame).any (fun r => jsGt (r.get "EWS") (JsVal.num 0)) then
    [ { label := SeriesLabel.text "Early Warning (1 per 10)",
        data := (filterIdxFrom (fun i => i % 10 == 0) 0
                  ((slice p.data frame).filter (fun r => jsGt (r.get "EWS") (JsVal.num 0)))).map
                  (rawPoint p.field),
        borderColor := colors.earlyWarning } ]
  else []

/-- Lines 253-300: the case `early-warnings`. -/
def deriveEarlyWarnings (p : Props) (frame : Nat) : Option Overlay :=
  some { series := flowSeries p frame "Traffic Flow" colors.trafficFlow
                    :: (labelSeriesFrom p frame 0 (uniqueLabels p frame) ++ warningSeries p frame),
         annotations := [] }

/-- The points `slice.filter(r => r.EWS === level).map(...)` of lines 321-323
and 542-544. -/
def levelPoints (p : Props) (frame : Nat) (level : Int) : List Point :=
  ((slice p.data frame).filter (fun r => r.get "EWS" == JsVal.num level)).map (rawPoint p.field)

/-- Lines 320-338: the body of `[1, 2, 3, 4].forEach`, over the levels given. -/
def alertLevelSeries (p : Props) (frame : Nat) : List Int → List Series
  | [] => []
  | level :: rest =>
    if (levelPoints p frame level).length = 0 then alertLevelSeries p frame rest
    else
      { label := SeriesLabel.alertCount (levelMap level) (levelPoints p frame level).length,
        data := levelPoints p frame level,
        borderColor := colors.ews level }
      :: alertLevelSeries p frame rest

/-- Lines 307-384: the case `alerts`. -/
def deriveAlerts (p : Props) (frame : Nat) : Option Overlay :=
  match attackRegionMarkers p frame "Attack Start" "Attack Stop" with
  | none => none
  | some markers =>
    some { series := flowSeries p frame "Traffic Flow" colors.trafficFlow
                      :: alertLevelSeries p frame [1, 2, 3, 4],
           annotations := markers }

/-- Lines 445-480: the peak of the `flow-with-ews` case; `toFixed` throws when
`peakTime` is not a number. -/
def peakAttack (p : Props) (frame : Nat) :
    Option (List Series × List (AnnotationId × AnnotationSpec)) :=
  match visiblePeak p frame with
  | some peakRow =>
    match peakRow.get "Seconds" with
    | JsVal.num peakTime =>
      some ([ { label := SeriesLabel.text "Peak Attack",
                data := [ { x := JsVal.num peakTime, y := peakRow.get p.field } ],
                borderColor := colors.peakAttack } ],
            [ (AnnotationId.peakLabel,
                AnnotationSpec.peakLabel (JsVal.num peakTime) (peakRow.get p.field)) ])
    | _ => none
  | none => some ([], [])

/-- Lines 444-480 under the guard of line 399: the peak is looked for only when
the attack region is drawn. -/
def flowPeak (p : Props) (frame : Nat) :
    Option (List Series × List (AnnotationId × AnnotationSpec)) :=
  if p.showAttackRegion && (attackBounds p).isSome then peakAttack p frame else some ([], [])

/-- Lines 487-521: the body of `highAlerts.forEach((idx, i) => ...)`, with `i`
the position of the head of the list; `toFixed` throws when `sec` is not a
number. -/
def ewsMarkerLoop (p : Props) (frame : Nat) :
    Nat → List Int → Option (List Series × List (AnnotationId × AnnotationSpec))
  | _, [] => some ([], [])
  | i, idx :: rest =>
    if (frame : Int) > idx then
      match rowAt p.data idx with
      | none => none
      | some row =>
        match row.get "Seconds" with
        | JsVal.num sec =>
          match ewsMarkerLoop p frame (i + 1) rest with
          | none => none
          | some more =>
            some ({ label := SeriesLabel.ews (i + 1),
                    data := [ { x := JsVal.num sec, y := row.get p.field } ],
                    borderColor := colors.ewsLines i } :: more.1,
                  (AnnotationId.ews i,
                    AnnotationSpec.ewsLine (JsVal.num sec) (i + 1) (colors.ewsLines i))
                    :: more.2)
        | _ => none
    else ewsMarkerLoop p frame (i + 1) rest

/-- Lines 484-522: the first three level-4 alerts of the `flow-with-ews` case. -/
def ewsMarkers (p : Props) (frame : Nat) :
    Option (List Series × List (AnnotationId × AnnotationSpec)) :=
  if p.showEWS then
    match level4Alerts p with
    | none => some ([], [])
    | some level4 => ewsMarkerLoop p frame 0 (level4.take 3)
  else some ([], [])

/-- Lines 386-523: the case `flow-with-ews`. -/
def deriveFlowWithEws (p : Props) (frame : Nat) : Option Overlay :=
  match attackRegionMarkers p frame "Start" "Stop" with
  | none => none
  | some markers =>
    match flowPeak p frame with
    | none => none
    | some peak =>
      match ewsMarkers p frame with
      | none => none
      | some ews =>
        some { series := flowSeries p frame p.field colors.flowPackets :: (peak.1 ++ ews.1),
               annotations := markers ++ peak.2 ++ ews.2 }

/-- Line 538: `parseInt(title.split(' ')[0]) || 0`. -/
def alertLevel (title : String) : Int :=
  match jsParseInt (title.data.takeWhile (fun c => c != ' ')) with
  | some n => n
  | none => 0

/-- Lines 525-601: the case `alert-levels-separately`. -/
def deriveAlertLevelsSeparately (p : Props) (frame : Nat) : Option Overlay :=
  match attackRegionMarkers p frame "Attack Start" "Attack Stop" with
  | none => none
  | some markers =>
    some { series := flowSeries p frame "Traffic Flow" colors.trafficFlow
                      :: (if alertLevel p.title ≥ 1 ∧ alertLevel p.title ≤ 4 then
                            [ { label := SeriesLabel.alertCount (levelMap (alertLevel p.title))
                                           (levelPoints p frame (alertLevel p.title)).length,
                                data := levelPoints p frame (alertLevel p.title),
                                borderColor := colors.ews (alertLevel p.title) } ]
                          else []),
           annotations := markers }

/-- Lines 616-630: the series of the emergency alerts. -/
def emergencySeries (p : Props) (frame : Nat) : List Series :=
  match level4Alerts p with
  | none => []
  | some level4 =>
    [ { label := SeriesLabel.text "Emergency Alerts",
        data := (filterIdxFrom (fun i => level4.contains (i : Int)) 0 (slice p.data frame)).map
                  (rawPoint p.field),
        borderColor := colors.emergency } ]

/-- Lines 603-631: the case `emergency-alerts`. -/
def deriveEmergencyAlerts (p : Props) (frame : Nat) : Option Overlay :=
  some { series := flowSeries p frame p.field colors.flowPackets :: emergencySeries p frame,
         annotations := [] }

/-- Lines 707-720: the body of `indices.forEach((idx, i) => ...)` for one level,
with `i` the position of the head of the list. -/
def ewsPointLoop (p : Props) (frame : Nat) (level : Nat) :
    Nat → List Int → Option (List (AnnotationId × AnnotationSpec))
  | _, [] => some []
  | i, idx :: rest =>
    if (frame : Int) > idx then
      match rowAt p.data idx with
      | none => none
      | some row =>
        match ewsPointLoop p frame level (i + 1) rest with
        | none => none
        | some more =>
          some ((AnnotationId.ewsLevel level i,
                  AnnotationSpec.point (row.get "Seconds") (row.get p.field) (colors.ews level))
                :: more)
    else ewsPointLoop p frame level (i + 1) rest

/-- Line 706: `Object.entries(plotData.ews_alerts)`, the levels that are there,
in the order `level1` to `level4`. -/
def ewsEntries (ews_alerts : EwsAlerts) : List (Nat × List Int) :=
  (match ews_alerts.level1 with | some l => [(1, l)] | none => []) ++
  (match ews_alerts.level2 with | some l => [(2, l)] | none => []) ++
  (match ews_alerts.level3 with | some l => [(3, l)] | none => []) ++
  (match ews_alerts.level4 with | some l => [(4, l)] | none => [])

/-- Line 706: the outer `forEach` over the entries. -/
def ewsPointsOver (p : Props) (frame : Nat) :
    List (Nat × List Int) → Option (List (AnnotationId × AnnotationSpec))
  | [] => some []
  | entry :: rest =>
    match ewsPointLoop p frame entry.1 0 entry.2 with
    | none => none
    | some points =>
      match ewsPointsOver p frame rest with
      | none => none
      | some more => some (points ++ more)

/-- Lines 698-722: the EWS point annotations of the default case. -/
def ewsPoints (p : Props) (frame : Nat) : Option (List (AnnotationId × AnnotationSpec)) :=
  if p.showEWS then
    match p.plotData with
    | none => some []
    | some plotData =>
      match plotData.ews_alerts with
      | none => some []
      | some ews_alerts => ewsPointsOver p frame (ewsEntries ews_alerts)
  else some []

/-- Lines 633-723: the default case. -/
def deriveDefault (p : Props) (frame : Nat) : Option Overlay :=
  match attackRegionMarkers p frame "Attack Start" "Attack End" with
  | none => none
  | some markers =>
    match ewsPoints p frame with
    | none => none
    | some points =>
      some { series := benignAttackSeries p frame, annotations := markers ++ points }

/-- Lines 124-724: `chartDatasets` and `annotations` after the `switch` on
`chartType`, for the props `p` and the state cell `frame`. -/
def deriveOverlay (p : Props) (frame : Nat) : Option Overlay :=
  if p.chartType = "benign-attack" then
    some { series := benignAttackSeries p frame, annotations := [] }
  else if p.chartType = "derivative" then
    some { series := benignAttackSeries p frame, annotations := [] }
  else if p.chartType = "peak-region" then derivePeakRegion p frame
  else if p.chartType = "early-warnings" then deriveEarlyWarnings p frame
  else if p.chartType = "ews-confusion" then some { series := [], annotations := [] }
  else if p.chartType = "alerts" then deriveAlerts p frame
  else if p.chartType = "flow-with-ews" then deriveFlowWithEws p frame
  else if p.chartType = "alert-levels-separately" then deriveAlertLevelsSeparately p frame
  else if p.chartType = "emergency-alerts" then deriveEmergencyAlerts p frame
  else deriveDefault p frame

end AnimatedCharts

/-- The props of `src/components/AnimatedCharts.js` handed to
`src/components/charts/AnimatedChart.js`: the same dataset, field, metadata,
chart type, options and title. -/
def AnimatedCharts.Props.toChart (p : AnimatedCharts.Props) : ChartsAnimatedChart.Props :=
  { data := some p.data, field := p.field, plotData := p.plotData, chartType := p.chartType,
    speed := p.speed, showEWS := p.showEWS, showAttackRegion := p.showAttackRegion,
    title := p.title }

/-- Every row has a value under the field, as the data model demands. -/
def DefinedField (field : String) (d : List Row) : Prop :=
  ∀ r ∈ d, r.get field ≠ JsVal.undefined

/-- The flow scenario for the component of `src/components/AnimatedCharts.js`. -/
def uploadFlowScenario : AnimatedCharts.Props :=
  { data := flowRows, field := "Flow Packets/s", plotData := attackFlowScenario.plotData,
    chartType := "flow-with-ews", showEWS := true, showAttackRegion := true }

/-! ## A change of the dataset or the field, with the render that precedes the
validation effect -/

namespace ChartsAnimatedChart

/-- A change of the `data` or `field` prop, with the statistics panel closed
(`showStats` false, its initial value), so that the render reads the dataset in
lines 322-951 only. React first renders with the new props and the state as it
is; when this render throws, the component is unmounted and no effect runs
(`none`). Otherwise the validation effect of lines 56-83 runs, and the render
that follows its state updates may throw in turn. -/
def dataChange (newProps : Props) (s : PlaybackState) : Option PlaybackState :=
  match deriveOverlay newProps s.frame with
  | none => none
  | some _ =>
    match deriveOverlay newProps (changeDataField newProps s).frame with
    | none => none
    | some _ => some (changeDataField newProps s)

end ChartsAnimatedChart

/-- Two rows with the keys `Seconds`, `Label` and `Flow Packets/s`. -/
def plainRows : List Row :=
  [⟨[("Seconds", JsVal.num 0), ("Label", JsVal.str "BENIGN"), ("Flow Packets/s", JsVal.num 1)]⟩,
   ⟨[("Seconds", JsVal.num 1), ("Label", JsVal.str "BENIGN"), ("Flow Packets/s", JsVal.num 2)]⟩]

/-- A chart over `plainRows` whose field is `constructor`, a name that no row
has as a key and that every object inherits. -/
def inheritedNameScenario : ChartsAnimatedChart.Props :=
  { data := some plainRows, field := "constructor", plotData := none }

/-- A `flow-with-ews` chart over three rows with `ews_alerts.level4 = [1, 4]`,
the metadata of a longer dataset. -/
def shortDataScenario : ChartsAnimatedChart.Props :=
  { data := some (sampleRows 3), field := "Flow Packets/s",
    plotData := some
      { first_attack_idx := none, attack_indices := none,
        ews_alerts := some { level1 := none, level2 := none, level3 := none,
                             level4 := some [1, 4] } },
    chartType := "flow-with-ews", showEWS := true, showAttackRegion := true }

/-- The session of `src/components/AnimatedChart.js` over five rows after two
ticks: running at frame 3. -/
def legacyRunningSession : AnimatedChart.Session :=
  AnimatedChart.Session.ticks legacyScenario 2 AnimatedChart.Session.mount

/-- The test `typeof v === 'string'`. -/
def JsVal.isString : JsVal → Bool
  | JsVal.str _ => true
  | _ => false
/-! ## Lemmas on the notifier of `src/components/charts/AnimatedChart.js` -/

namespace ChartsAnimatedChart

theorem count_ewsAlertLoop (frame k : Nat) (l : List Int) (i : Nat) :
    (ewsAlertLoop frame i l).count (Event.ewsAlertDetected (k + 1)) =
      if i ≤ k then
        (match l[k - i]? with
         | some a => if (frame : Int) = a - 1 then 1 else 0
         | none => 0)
      else 0 := by
  induction l generalizing i with
  | nil => simp [ewsAlertLoop]
  | cons a rest ih =>
    simp only [ewsAlertLoop, List.count_append, ih]
    by_cases hik : i ≤ k
    · rcases Nat.eq_or_lt_of_le hik with h | h
      · subst h
        have : ¬ (i + 1 ≤ i) := by omega
        simp only [this, if_false, Nat.sub_self, List.getElem?_cons_zero, le_refl, if_true]
        by_cases hc : (frame : Int) = a - 1
        · have : (frame : Int) + 1 = a := by omega
          simp [hc, this]
        · simp [hc]
      · have h1 : i + 1 ≤ k := h
        have h2 : k - i = (k - (i + 1)) + 1 := by omega
        simp only [h1, hik, if_true, h2, List.getElem?_cons_succ]
        have : ∀ c : Prop, [Decidable c] → List.count (Event.ewsAlertDetected (k + 1))
            (if c then [Event.ewsAlertDetected (i + 1), Event.playEWSAlertSound] else []) = 0 := by
          intro c _
          split_ifs
          · have : i ≠ k := by omega
            simp [List.count_cons, this]
          · simp
        rw [this]; simp
    · have h1 : ¬ (i + 1 ≤ k) := by omega
      simp only [hik, h1, if_false]
      have : ∀ c : Prop, [Decidable c] → List.count (Event.ewsAlertDetected (k + 1))
          (if c then [Event.ewsAlertDetected (i + 1), Event.playEWSAlertSound] else []) = 0 := by
        intro c _
        split_ifs
        · have : i ≠ k := by omega
          simp [List.count_cons, this]
        · simp
      rw [this]

theorem count_ewsAlertLoop_other (frame : Nat) (ev : Event)
    (h1 : ∀ n, ev ≠ Event.ewsAlertDetected n) (h2 : ev ≠ Event.playEWSAlertSound)
    (l : List Int) (i : Nat) : (ewsAlertLoop frame i l).count ev = 0 := by
  induction l generalizing i with
  | nil => simp [ewsAlertLoop]
  | cons a rest ih =>
    simp only [ewsAlertLoop, List.count_append, ih]
    split_ifs
    · simp [List.count_cons, (h1 (i + 1)).symm, h2.symm]
    · simp

theorem count_ewsEvents_other (p : Props) (frame : Nat) (ev : Event)
    (h1 : ∀ n, ev ≠ Event.ewsAlertDetected n) (h2 : ev ≠ Event.playEWSAlertSound) :
    (ewsEvents p frame).count ev = 0 := by
  unfold ewsEvents
  split_ifs
  · split
    · simp
    · exact count_ewsAlertLoop_other frame ev h1 h2 _ _
  · simp

theorem count_attackEvents_ews (p : Props) (frame n : Nat) :
    (attackEvents p frame).count (Event.ewsAlertDetected n) = 0 := by
  unfold attackEvents
  split
  · simp
  · split
    · simp
    · split
      · simp only [List.count_append]
        split_ifs <;> simp [List.count_cons]
      · simp


theorem crossing_iff (frame : Nat) (a : Int) :
    ((frame : Int) = a - 1 ∧ (frame : Int) + 1 = a) ↔ (frame : Int) = a - 1 := by
  constructor
  · exact fun h => h.1
  · intro h; exact ⟨h, by omega⟩

theorem count_crossing (p : Props) (frame : Nat) (ev : Event) (i : Int)
    (h : watchedIndex p ev = some i) :
    (attackEvents p frame ++ ewsEvents p frame).count ev =
      if (frame : Int) = i - 1 then 1 else 0 := by
  cases ev with
  | attackDetected =>
    rw [List.count_append, count_ewsEvents_other p frame _ (by simp) (by simp)]
    simp only [watchedIndex] at h
    unfold attackEvents
    cases hpd : p.plotData with
    | none => simp [hpd] at h
    | some pd =>
      simp only [hpd] at h ⊢
      cases hai : pd.attack_indices with
      | none => simp [hai] at h
      | some ai =>
        simp only [hai] at h ⊢
        cases ai with
        | nil => simp at h
        | cons a rest =>
          simp only [List.head?_cons, Option.some.injEq] at h
          subst h
          obtain ⟨b, hb⟩ : ∃ b, (a :: rest).getLast? = some b :=
            ⟨_, List.getLast?_eq_getLast _ (by simp)⟩
          simp only [List.head?_cons, hb, List.count_append, crossing_iff]
          split_ifs <;> simp [List.count_cons]
  | attackEnded =>
    rw [List.count_append, count_ewsEvents_other p frame _ (by simp) (by simp)]
    simp only [watchedIndex] at h
    unfold attackEvents
    cases hpd : p.plotData with
    | none => simp [hpd] at h
    | some pd =>
      simp only [hpd] at h ⊢
      cases hai : pd.attack_indices with
      | none => simp [hai] at h
      | some ai =>
        simp only [hai] at h ⊢
        cases ai with
        | nil => simp at h
        | cons a rest =>
          simp only [List.head?_cons, h, List.count_append, crossing_iff]
          split_ifs <;> simp [List.count_cons]
  | ewsAlertDetected n =>
    rw [List.count_append, count_attackEvents_ews]
    simp only [watchedIndex] at h
    unfold ewsEvents
    by_cases hc : (p.chartType == "flow-with-ews" && p.showEWS) = true
    · simp only [hc, if_true] at h ⊢
      cases hl : level4Alerts p with
      | none => simp [hl] at h
      | some l =>
        simp only [hl] at h ⊢
        cases n with
        | zero => simp at h
        | succ k =>
          simp only [Nat.add_one_ne_zero, if_false, Nat.add_sub_cancel] at h
          rw [count_ewsAlertLoop]
          simp [h]
    · simp [hc] at h
  | _ => simp [watchedIndex] at h

theorem tick_idle (p : Props) (s : PlaybackState) (h : timerScheduled p s = false) :
    tick p s = (s, []) := by
  simp [tick, h]

theorem tick_advance (p : Props) (s : PlaybackState) (h : timerScheduled p s = true)
    (hf : s.frame < maxFrames p) :
    tick p s = ({ s with frame := s.frame + 1 }, attackEvents p s.frame ++ ewsEvents p s.frame) := by
  have h1 : ¬ (s.frame ≥ maxFrames p) := by omega
  have h2 : min (s.frame + 1) (maxFrames p) = s.frame + 1 := by omega
  simp [tick, h, startAnimation, h1, h2]

theorem tick_complete (p : Props) (s : PlaybackState) (h : timerScheduled p s = true)
    (hf : maxFrames p ≤ s.frame) :
    tick p s = ({ s with isComplete := true },
      if p.chartType == "flow-with-ews" then
        [Event.animationComplete p.chartType, Event.plottingEnded]
      else []) := by
  simp [tick, h, startAnimation, hf]

theorem timerScheduled_frame (p : Props) (s : PlaybackState) (f : Nat) :
    timerScheduled p { s with frame := f } = timerScheduled p s := rfl

theorem timerScheduled_complete (p : Props) (s : PlaybackState) (h : s.isComplete = true) :
    timerScheduled p s = false := by
  simp [timerScheduled, h]

theorem ticks_idle (p : Props) (n : Nat) (s : PlaybackState)
    (h : timerScheduled p s = false) : ticks p n s = (s, []) := by
  induction n with
  | zero => rfl
  | succ n ih => simp [ticks, tick_idle p s h, ih]

theorem ticks_add (p : Props) (a b : Nat) (s : PlaybackState) :
    ticks p (a + b) s =
      ((ticks p b (ticks p a s).1).1, (ticks p a s).2 ++ (ticks p b (ticks p a s).1).2) := by
  induction a generalizing s with
  | zero => simp [ticks]
  | succ a ih =>
    have : a + 1 + b = (a + b) + 1 := by omega
    rw [this]
    simp [ticks, ih, List.append_assoc]

/-- While the timer is pending, the `k` ticks that separate `frame` from
`maxFrames` raise `frame` to `maxFrames` and dispatch the event of a watched
index `i` once if `frame ≤ i - 1 < maxFrames` and not at all otherwise. -/
theorem ticks_run (p : Props) (k : Nat) (s : PlaybackState)
    (h : timerScheduled p s = true) (hk : s.frame + k = maxFrames p) :
    (ticks p k s).1 = { s with frame := maxFrames p } ∧
    ∀ ev i, watchedIndex p ev = some i →
      (ticks p k s).2.count ev =
        if (s.frame : Int) ≤ i - 1 ∧ i - 1 < (maxFrames p : Int) then 1 else 0 := by
  induction k generalizing s with
  | zero =>
    simp only [Nat.add_zero] at hk
    refine ⟨by simp [ticks, ← hk], ?_⟩
    intro ev i _
    have : ¬ ((s.frame : Int) ≤ i - 1 ∧ i - 1 < (maxFrames p : Int)) := by
      rw [← hk]; omega
    simp [ticks, this]
  | succ k ih =>
    have hf : s.frame < maxFrames p := by omega
    have ht := tick_advance p s h hf
    have ih' := ih { s with frame := s.frame + 1 } (by rw [timerScheduled_frame]; exact h)
      (by simp only; omega)
    refine ⟨by simp [ticks, ht, ih'.1], ?_⟩
    intro ev i hw
    simp only [ticks, ht, List.count_append, ih'.2 ev i hw]
    rw [← List.count_append, count_crossing p s.frame ev i hw]
    have hfi : (s.frame : Int) < (maxFrames p : Int) := by exact_mod_cast hf
    push_cast
    split_ifs <;> omega


theorem mount_valid (p : Props) (h : (mount p).dataError = none) :
    mount p = useStateInit p ∧ 1 ≤ maxFrames p := by
  unfold mount validationEffect at *
  unfold maxFrames
  cases hd : p.data with
  | none => simp [hd] at h
  | some d =>
    cases d with
    | nil => simp [hd] at h
    | cons sample rest =>
      simp only [hd] at h ⊢
      by_cases hk : sample.hasKey p.field = true
      · simp [hk, useStateInit]
      · simp [hk] at h

theorem timerScheduled_of_running (p : Props) (s : PlaybackState)
    (hp : s.paused = false) (hc : s.isComplete = false) (he : s.dataError = none)
    (hfield : p.field ≠ "") (hN : 1 ≤ maxFrames p) : timerScheduled p s = true := by
  have : maxFrames p ≠ 0 := by omega
  simp [timerScheduled, hp, hc, he, truthyStr, hfield, this]

theorem watched_not_completion (p : Props) (ev : Event) (i : Int)
    (h : watchedIndex p ev = some i) (c : String) :
    ev ≠ Event.animationComplete c ∧ ev ≠ Event.plottingEnded := by
  cases ev <;> simp [watchedIndex] at h ⊢

/-- An uninterrupted playback: from a state with a pending timer and
`frame ≤ maxFrames`, any number of ticks that reaches the completing tick ends
in the Complete state at `frame = maxFrames`, and has dispatched the event of a
watched index `i` once if `frame ≤ i - 1 < maxFrames`, and not at all otherwise. -/
theorem playback (p : Props) (s : PlaybackState) (n : Nat)
    (h : timerScheduled p s = true) (hf : s.frame ≤ maxFrames p)
    (hn : maxFrames p - s.frame + 1 ≤ n) :
    (ticks p n s).1 = { s with frame := maxFrames p, isComplete := true } ∧
    ∀ ev i, watchedIndex p ev = some i →
      (ticks p n s).2.count ev =
        if (s.frame : Int) ≤ i - 1 ∧ i - 1 < (maxFrames p : Int) then 1 else 0 := by
  obtain ⟨m, rfl⟩ : ∃ m, n = (maxFrames p - s.frame) + (1 + m) := ⟨n - (maxFrames p - s.frame + 1), by omega⟩
  have hrun := ticks_run p (maxFrames p - s.frame) s h (by omega)
  have h1 : timerScheduled p { s with frame := maxFrames p } = true := by
    rw [timerScheduled_frame]; exact h
  have h2 := tick_complete p { s with frame := maxFrames p } h1 (le_refl _)
  have h3 : timerScheduled p { s with frame := maxFrames p, isComplete := true } = false :=
    timerScheduled_complete p _ rfl
  have h4 := ticks_idle p m _ h3
  have h5 : ticks p (1 + m) { s with frame := maxFrames p } =
      ({ s with frame := maxFrames p, isComplete := true },
        if p.chartType == "flow-with-ews" then
          [Event.animationComplete p.chartType, Event.plottingEnded]
        else []) := by
    rw [ticks_add]
    have : ticks p 1 { s with frame := maxFrames p } = tick p { s with frame := maxFrames p } := by
      simp [ticks]
    rw [this, h2]
    simp only [h4, List.append_nil]
  rw [ticks_add, hrun.1, h5]
  refine ⟨rfl, ?_⟩
  intro ev i hw
  simp only [List.count_append, hrun.2 ev i hw]
  have hnc := watched_not_completion p ev i hw p.chartType
  have : List.count ev (if p.chartType == "flow-with-ews" then
          [Event.animationComplete p.chartType, Event.plottingEnded] else []) = 0 := by
    split_ifs
    · simp [List.count_cons, hnc.1.symm, hnc.2.symm]
    · simp
  rw [this]; simp

/-- A tick dispatches the event of a watched index exactly on the edge
`i - 1 → i`. -/
theorem tick_publishes_iff (p : Props) (s : PlaybackState) (ev : Event) (i : Int)
    (hw : watchedIndex p ev = some i) :
    ev ∈ (tick p s).2 ↔ ((s.frame : Int) = i - 1 ∧ ((tick p s).1.frame : Int) = i) := by
  by_cases h : timerScheduled p s = true
  · by_cases hf : s.frame < maxFrames p
    · rw [tick_advance p s h hf]
      simp only
      rw [← List.count_pos_iff, count_crossing p s.frame ev i hw]
      push_cast
      split_ifs with hc
      · simp [hc]
      · simp [hc]
    · rw [tick_complete p s h (by omega)]
      have hnc := watched_not_completion p ev i hw p.chartType
      simp only
      constructor
      · intro hmem
        split_ifs at hmem
        · simp [hnc.1, hnc.2] at hmem
        · simp at hmem
      · intro ⟨h1, h2⟩; omega
  · have h' : timerScheduled p s = false := by simpa using h
    rw [tick_idle p s h']
    simp only [List.not_mem_nil, false_iff]
    intro ⟨h1, h2⟩; omega

end ChartsAnimatedChart

/-! ## Lemmas on the schedulers of the two older components -/

namespace AnimatedChart

theorem chart_tick_advance (p : Props) (s : PlaybackState) (h : intervalActive s = true)
    (hf : s.frame < maxFrames p) : tick p s = { s with frame := s.frame + 1 } := by
  have h1 : ¬ (s.frame ≥ maxFrames p) := by omega
  simp [tick, h, intervalCallback, h1]

theorem chart_tick_complete (p : Props) (s : PlaybackState) (h : intervalActive s = true)
    (hf : maxFrames p ≤ s.frame) : tick p s = { s with isComplete := true } := by
  simp [tick, h, intervalCallback, hf]

theorem chart_ticks_idle (p : Props) (n : Nat) (s : PlaybackState)
    (h : intervalActive s = false) : ticks p n s = s := by
  induction n with
  | zero => rfl
  | succ n ih => simp [ticks, tick, h, ih]

theorem chart_ticks_add (p : Props) (a b : Nat) (s : PlaybackState) :
    ticks p (a + b) s = ticks p b (ticks p a s) := by
  induction a generalizing s with
  | zero => simp [ticks]
  | succ a ih =>
    have : a + 1 + b = (a + b) + 1 := by omega
    rw [this]
    simp [ticks, ih]

theorem chart_ticks_run (p : Props) (k : Nat) (s : PlaybackState)
    (h : intervalActive s = true) (hk : s.frame + k = maxFrames p) :
    ticks p k s = { s with frame := maxFrames p } := by
  induction k generalizing s with
  | zero =>
    simp only [Nat.add_zero] at hk
    simp [ticks, ← hk]
  | succ k ih =>
    have hf : s.frame < maxFrames p := by omega
    have ih' := ih { s with frame := s.frame + 1 } h (by simp only; omega)
    simp [ticks, chart_tick_advance p s h hf, ih']

end AnimatedChart

namespace AnimatedCharts

theorem upload_tick_advance (p : Props) (s : PlaybackState) (h : intervalActive s = true)
    (hf : s.frame < maxFrames p) : tick p s = ({ s with frame := s.frame + 1 }, []) := by
  have h1 : ¬ (s.frame ≥ maxFrames p) := by omega
  simp [tick, h, intervalCallback, h1]

theorem upload_tick_complete (p : Props) (s : PlaybackState) (h : intervalActive s = true)
    (hf : maxFrames p ≤ s.frame) :
    tick p s = ({ s with isComplete := true },
      if p.chartType == "flow-with-ews" then [Event.animationComplete p.chartType] else []) := by
  simp [tick, h, intervalCallback, hf]

theorem upload_ticks_idle (p : Props) (n : Nat) (s : PlaybackState)
    (h : intervalActive s = false) : ticks p n s = (s, []) := by
  induction n with
  | zero => rfl
  | succ n ih => simp [ticks, tick, h, ih]

theorem upload_ticks_add (p : Props) (a b : Nat) (s : PlaybackState) :
    ticks p (a + b) s =
      ((ticks p b (ticks p a s).1).1, (ticks p a s).2 ++ (ticks p b (ticks p a s).1).2) := by
  induction a generalizing s with
  | zero => simp [ticks]
  | succ a ih =>
    have : a + 1 + b = (a + b) + 1 := by omega
    rw [this]
    simp [ticks, ih, List.append_assoc]

theorem upload_ticks_run (p : Props) (k : Nat) (s : PlaybackState)
    (h : intervalActive s = true) (hk : s.frame + k = maxFrames p) :
    ticks p k s = ({ s with frame := maxFrames p }, []) := by
  induction k generalizing s with
  | zero =>
    simp only [Nat.add_zero] at hk
    simp [ticks, ← hk]
  | succ k ih =>
    have hf : s.frame < maxFrames p := by omega
    have ih' := ih { s with frame := s.frame + 1 } h (by simp only; omega)
    simp [ticks, upload_tick_advance p s h hf, ih']

end AnimatedCharts

namespace AnimatedChart

theorem chart_playback (p : Props) (s : PlaybackState) (n : Nat)
    (h : intervalActive s = true) (hf : s.frame ≤ maxFrames p)
    (hn : maxFrames p - s.frame + 1 ≤ n) :
    ticks p n s = { s with frame := maxFrames p, isComplete := true } := by
  obtain ⟨m, rfl⟩ : ∃ m, n = (maxFrames p - s.frame) + (1 + m) :=
    ⟨n - (maxFrames p - s.frame + 1), by omega⟩
  rw [chart_ticks_add, chart_ticks_run p _ s h (by omega), chart_ticks_add]
  have h1 : ticks p 1 { s with frame := maxFrames p } =
      { s with frame := maxFrames p, isComplete := true } := by
    simp only [ticks]
    exact chart_tick_complete p _ h (le_refl _)
  rw [h1]
  apply chart_ticks_idle
  simp [intervalActive]

end AnimatedChart

namespace AnimatedCharts

theorem upload_playback (p : Props) (s : PlaybackState) (n : Nat)
    (h : intervalActive s = true) (hf : s.frame ≤ maxFrames p)
    (hn : maxFrames p - s.frame + 1 ≤ n) :
    ticks p n s = ({ s with frame := maxFrames p, isComplete := true },
      if p.chartType == "flow-with-ews" then [Event.animationComplete p.chartType] else []) := by
  obtain ⟨m, rfl⟩ : ∃ m, n = (maxFrames p - s.frame) + (1 + m) :=
    ⟨n - (maxFrames p - s.frame + 1), by omega⟩
  rw [upload_ticks_add, upload_ticks_run p _ s h (by omega), upload_ticks_add]
  have h1 : ticks p 1 { s with frame := maxFrames p } =
      ({ s with frame := maxFrames p, isComplete := true },
        if p.chartType == "flow-with-ews" then [Event.animationComplete p.chartType] else []) := by
    simp only [ticks, List.append_nil]
    exact upload_tick_complete p _ h (le_refl _)
  rw [h1]
  have h2 : intervalActive { s with frame := maxFrames p, isComplete := true } = false := by
    simp [intervalActive]
  simp only [upload_ticks_idle p m _ h2, List.append_nil, List.nil_append]

end AnimatedCharts


/-! ## Invariants of the schedulers -/

namespace ChartsAnimatedChart

theorem passiveEffects_frame (p : Props) (prev next : PlaybackState) :
    (passiveEffects p prev next).frame = next.frame ∧
    (passiveEffects p prev next).isComplete = next.isComplete ∧
    (passiveEffects p prev next).animationSpeed = next.animationSpeed ∧
    (passiveEffects p prev next).dataError = next.dataError := by
  unfold passiveEffects autoResumeEffect
  split_ifs <;> simp

/-- The frame after a tick lies between the frame before it and `maxFrames`,
once `frame ≤ maxFrames`. -/
theorem tick_frame_bounds (p : Props) (s : PlaybackState) (hf : s.frame ≤ maxFrames p) :
    s.frame ≤ (tick p s).1.frame ∧ (tick p s).1.frame ≤ maxFrames p := by
  unfold tick startAnimation
  split_ifs <;> simp only <;> omega

theorem startAnimation_frame_bounds (p : Props) (s : PlaybackState)
    (hf : s.frame ≤ maxFrames p) :
    s.frame ≤ (startAnimation p s).1.frame ∧ (startAnimation p s).1.frame ≤ maxFrames p := by
  unfold startAnimation
  split_ifs <;> simp only <;> omega

theorem completeAtEnd_mount (p : Props) : completeAtEnd p (mount p) := by
  unfold completeAtEnd mount validationEffect useStateInit
  cases hd : p.data with
  | none => simp
  | some d =>
    cases d with
    | nil => simp
    | cons sample rest =>
      simp only
      split_ifs <;> simp

theorem completeAtEnd_tick (p : Props) (s : PlaybackState) (h : completeAtEnd p s) :
    completeAtEnd p (tick p s).1 := by
  by_cases hs : timerScheduled p s = true
  · have hN : 1 ≤ maxFrames p := by
      by_contra hcon
      have : maxFrames p = 0 := by omega
      simp [timerScheduled, this] at hs
    have hle := h.2 hN
    have hnc : s.isComplete = false := by
      cases hc : s.isComplete with
      | false => rfl
      | true => simp [timerScheduled, hc] at hs
    by_cases hf : s.frame < maxFrames p
    · rw [tick_advance p s hs hf]
      exact ⟨fun hc => (by simp only at hc; rw [hnc] at hc; cases hc), fun _ => (by simp only; omega)⟩
    · rw [tick_complete p s hs (by omega)]
      exact ⟨fun _ => (by simp only; omega), fun _ => (by simp only; omega)⟩
  · have hs' : timerScheduled p s = false := by simpa using hs
    rw [tick_idle p s hs']
    exact h

theorem completeAtEnd_applyOp (p : Props) (op : Op) (s : PlaybackState)
    (hop : op ≠ Op.stopAll) (h : completeAtEnd p s) : completeAtEnd p (applyOp p op s) := by
  cases op with
  | tick => exact completeAtEnd_tick p s h
  | togglePause =>
    have hpe := passiveEffects_frame p s (togglePause s)
    have h1 : (applyOp p Op.togglePause s).frame = s.frame := hpe.1
    have h2 : (applyOp p Op.togglePause s).isComplete = s.isComplete := hpe.2.1
    unfold completeAtEnd
    rw [h1, h2]
    exact h
  | setSpeed value => exact h
  | stopAll => exact absurd rfl hop

theorem completeAtEnd_runOps (p : Props) (ops : List Op) (s : PlaybackState)
    (hops : ∀ op ∈ ops, op ≠ Op.stopAll) (h : completeAtEnd p s) :
    completeAtEnd p (runOps p ops s) := by
  induction ops generalizing s with
  | nil => exact h
  | cons op rest ih =>
    simp only [runOps, List.foldl_cons]
    exact ih _ (fun o ho => hops o (List.mem_cons_of_mem _ ho))
      (completeAtEnd_applyOp p op s (hops op (List.mem_cons_self _ _)) h)

end ChartsAnimatedChart

namespace AnimatedChart

theorem chart_tick_frame_bounds (p : Props) (s : PlaybackState) (hf : s.frame ≤ maxFrames p) :
    s.frame ≤ (tick p s).frame ∧ (tick p s).frame ≤ maxFrames p := by
  unfold tick intervalCallback
  split_ifs <;> (try simp only) <;> omega

theorem chart_completeAtEnd_applyOp (p : Props) (op : Op) (s : PlaybackState)
    (hN : 1 ≤ maxFrames p) (h : completeAtEnd p s) : completeAtEnd p (applyOp p op s) := by
  cases op with
  | tick =>
    unfold completeAtEnd at *
    simp only [applyOp, tick, intervalCallback]
    by_cases ha : intervalActive s = true
    · have hnc : s.isComplete = false := by
        cases hc : s.isComplete with
        | false => rfl
        | true => simp [intervalActive, hc] at ha
      simp only [ha, if_true]
      split_ifs with hge
      · exact ⟨fun _ => (by simp only; omega), (by simp only; omega)⟩
      · exact ⟨fun hc => (by simp only at hc; rw [hnc] at hc; cases hc), (by simp only; omega)⟩
    · simp only [ha]
      exact h
  | togglePause => exact h
  | restart =>
    unfold completeAtEnd
    simp only [applyOp, restart]
    exact ⟨fun hc => (by cases hc), hN⟩

theorem chart_completeAtEnd_runOps (p : Props) (ops : List Op) (s : PlaybackState)
    (hN : 1 ≤ maxFrames p) (h : completeAtEnd p s) : completeAtEnd p (runOps p ops s) := by
  induction ops generalizing s with
  | nil => exact h
  | cons op rest ih =>
    simp only [runOps, List.foldl_cons]
    exact ih _ (chart_completeAtEnd_applyOp p op s hN h)

end AnimatedChart

/-! ## Pause and stop -/

namespace ChartsAnimatedChart

/-- With `isAnalysisRunning` false the pause holds: after a click on pause in a
state that is not paused, no number of ticks moves the frame, and the click that
resumes brings the state back, so the next tick is the one the state had
pending before the pause. -/
theorem pause_holds_when_analysis_stopped (p : Props) (s : PlaybackState) (n : Nat)
    (hp : s.paused = false) (ha : p.isAnalysisRunning = false) :
    ticks p n (pauseResume p s) = (pauseResume p s, []) ∧
    (pauseResume p s).frame = s.frame ∧
    pauseResume p (pauseResume p s) = s := by
  have h1 : pauseResume p s = { s with paused := true } := by
    simp [pauseResume, passiveEffects, togglePause, autoResumeEffect, hp, ha]
  have h2 : timerScheduled p (pauseResume p s) = false := by
    rw [h1]; simp [timerScheduled]
  refine ⟨ticks_idle p n _ h2, by rw [h1], ?_⟩
  rw [h1]
  simp [pauseResume, passiveEffects, togglePause, autoResumeEffect, ha]
  cases s
  simp_all

theorem stopAll_eq (p : Props) (s : PlaybackState) :
    stopAll p s =
      { s with isComplete := true,
               paused := if s.paused = false ∧ p.isAnalysisRunning = true then false else true } := by
  cases hp : s.paused <;> cases ha : p.isAnalysisRunning <;>
    simp [stopAll, passiveEffects, handleStopAllAnimations, autoResumeEffect, hp, ha]

end ChartsAnimatedChart

/-! ## Claims -/

open ChartsAnimatedChart

/-- C1 (as stated, refuted): in the scenario `level4 = [1, 6, 9]` with ten rows
the index 1 is watched for `ewsAlertDetected 1` and is a valid offset, yet the
complete playback never dispatches that event; only the events of the indices 6
and 9 are dispatched.  With `showEWS` false the same `flow-with-ews` chart
dispatches no EWS event at all, not even for the index 6. -/
theorem C1_counterexample_index_one :
    (mount ewsScenario).dataError = none ∧
    watchedIndex ewsScenario (Event.ewsAlertDetected 1) = some 1 ∧
    (0 : Int) ≤ 1 ∧ (1 : Int) < (maxFrames ewsScenario : Int) ∧
    (ticks ewsScenario 10 (mount ewsScenario)).1.isComplete = true ∧
    ¬ ((ticks ewsScenario 10 (mount ewsScenario)).2.count (Event.ewsAlertDetected 1) = 1) ∧
    (ticks ewsScenario 10 (mount ewsScenario)).2.count (Event.ewsAlertDetected 1) = 0 ∧
    (ticks ewsScenario 10 (mount ewsScenario)).2.count (Event.ewsAlertDetected 2) = 1 ∧
    (ticks ewsScenario 10 (mount ewsScenario)).2.count (Event.ewsAlertDetected 3) = 1 ∧
    (ewsHiddenScenario.chartType = "flow-with-ews" ∧
      (ticks ewsHiddenScenario 10 (mount ewsHiddenScenario)).1.isComplete = true ∧
      (ticks ewsHiddenScenario 10 (mount ewsHiddenScenario)).2.count
        (Event.ewsAlertDetected 2) = 0) := by
  decide

/-- C1 (amended): for a dataset that passed validation, a non-empty field name
and an index `i` watched by the notifier with `2 ≤ i < N`, every uninterrupted
playback from the mounted state (frame 1) that runs for at least `N` ticks ends
Complete at frame `N` and has dispatched the event of `i` exactly once. -/
theorem C1_watched_event_published_once (p : Props) (ev : Event) (i : Int) (n : Nat)
    (hvalid : (mount p).dataError = none) (hfield : p.field ≠ "")
    (hw : watchedIndex p ev = some i) (h2 : 2 ≤ i) (hi : i < (maxFrames p : Int))
    (hn : maxFrames p ≤ n) :
    (ticks p n (mount p)).1.isComplete = true ∧
    (ticks p n (mount p)).1.frame = maxFrames p ∧
    (ticks p n (mount p)).2.count ev = 1 := by
  obtain ⟨hm, hN⟩ := mount_valid p hvalid
  have hs : timerScheduled p (mount p) = true := by
    rw [hm]; exact timerScheduled_of_running p _ rfl rfl rfl hfield hN
  have hfr : (mount p).frame = 1 := by rw [hm]; rfl
  have hpb := playback p (mount p) n hs (by omega) (by omega)
  refine ⟨by rw [hpb.1], by rw [hpb.1], ?_⟩
  rw [hpb.2 ev i hw, hfr]
  have : ((1 : Nat) : Int) ≤ i - 1 ∧ i - 1 < (maxFrames p : Int) := by
    constructor <;> push_cast <;> omega
  rw [if_pos this]

/-- C1 witness: the event of index 6 in the EWS scenario. -/
theorem C1_witness :
    (mount ewsScenario).dataError = none ∧ ewsScenario.field ≠ "" ∧
    watchedIndex ewsScenario (Event.ewsAlertDetected 2) = some 6 ∧
    ((ticks ewsScenario 10 (mount ewsScenario)).1.isComplete = true ∧
     (ticks ewsScenario 10 (mount ewsScenario)).1.frame = maxFrames ewsScenario ∧
     (ticks ewsScenario 10 (mount ewsScenario)).2.count (Event.ewsAlertDetected 2) = 1) :=
  ⟨by decide, by decide, by decide,
    C1_watched_event_published_once ewsScenario (Event.ewsAlertDetected 2) 6 10
      (by decide) (by decide) (by decide) (by decide) (by decide) (by decide)⟩

/-- C2: a tick dispatches the event of a watched index `i` if and only if the
frame before the tick is `i - 1` and the frame after it is `i`; a tick that
starts at a frame `≥ i` never dispatches it. -/
theorem C2_event_iff_edge_crossing (p : Props) (s : PlaybackState) (ev : Event) (i : Int)
    (hw : watchedIndex p ev = some i) :
    (ev ∈ (tick p s).2 ↔ ((s.frame : Int) = i - 1 ∧ ((tick p s).1.frame : Int) = i)) ∧
    (i ≤ (s.frame : Int) → ev ∉ (tick p s).2) := by
  have h := tick_publishes_iff p s ev i hw
  refine ⟨h, ?_⟩
  intro hge hmem
  have := (h.mp hmem).1
  omega

/-- C2 witness: the attack-start index 2 of the attack scenario, at frame 1. -/
theorem C2_witness :
    watchedIndex attackScenario Event.attackDetected = some 2 ∧
    ((Event.attackDetected ∈ (tick attackScenario (mount attackScenario)).2 ↔
        (((mount attackScenario).frame : Int) = 2 - 1 ∧
          ((tick attackScenario (mount attackScenario)).1.frame : Int) = 2)) ∧
     ((2 : Int) ≤ ((mount attackScenario).frame : Int) →
        Event.attackDetected ∉ (tick attackScenario (mount attackScenario)).2)) :=
  ⟨by decide,
    C2_event_iff_edge_crossing attackScenario (mount attackScenario) Event.attackDetected 2
      (by decide)⟩

/-- C3 (as stated, refuted): with `attack_indices = [2, 3, 4]` the event
`attackDetected` is dispatched by the tick from frame 1 to frame 2, after which
`frame` is 2 and not greater than the index 2; the tick from frame 2 to frame 3
dispatches nothing. -/
theorem C3_counterexample_attack_started :
    watchedIndex attackScenario Event.attackDetected = some 2 ∧
    (mount attackScenario).frame = 1 ∧
    Event.attackDetected ∈ (tick attackScenario (mount attackScenario)).2 ∧
    (tick attackScenario (mount attackScenario)).1.frame = 2 ∧
    ¬ ((2 : Int) < ((tick attackScenario (mount attackScenario)).1.frame : Int)) ∧
    (tick attackScenario (tick attackScenario (mount attackScenario)).1).1.frame = 3 ∧
    (tick attackScenario (tick attackScenario (mount attackScenario)).1).2 = [] := by
  decide

/-- C3 (amended): whenever a tick dispatches the event of a watched index `i`,
that tick advanced `frame` from `i - 1` to `i`: the frame after the tick equals
`i` and is not greater than `i`. -/
theorem C3_event_published_on_reaching_index (p : Props) (s : PlaybackState) (ev : Event)
    (i : Int) (hw : watchedIndex p ev = some i) (hpub : ev ∈ (tick p s).2) :
    (s.frame : Int) = i - 1 ∧ ((tick p s).1.frame : Int) = i ∧
    ¬ (i < ((tick p s).1.frame : Int)) := by
  have h := (tick_publishes_iff p s ev i hw).mp hpub
  exact ⟨h.1, h.2, by omega⟩

/-- C3 witness: the attack-end index 4 of the attack scenario, at frame 3. -/
theorem C3_witness :
    watchedIndex attackScenario Event.attackEnded = some 4 ∧
    Event.attackEnded ∈ (tick attackScenario (ticks attackScenario 2 (mount attackScenario)).1).2 ∧
    ((((ticks attackScenario 2 (mount attackScenario)).1.frame : Nat) : Int) = 4 - 1 ∧
      ((tick attackScenario (ticks attackScenario 2 (mount attackScenario)).1).1.frame : Int) = 4 ∧
      ¬ ((4 : Int) <
        ((tick attackScenario (ticks attackScenario 2 (mount attackScenario)).1).1.frame : Int))) :=
  ⟨by decide, by decide,
    C3_event_published_on_reaching_index attackScenario
      (ticks attackScenario 2 (mount attackScenario)).1 Event.attackEnded 4
      (by decide) (by decide)⟩

/-- C4 (as stated, refuted): in the five-row attack scenario the state after
`N - 1 = 4` ticks from the mounted state has `frame = 5 = N` but `isComplete`
is still false. -/
theorem C4_counterexample_not_complete_after_N_minus_1 :
    maxFrames attackScenario = 5 ∧
    mount attackScenario =
      { frame := 1, animationSpeed := 30, isComplete := false, paused := false,
        dataError := none } ∧
    (ticks attackScenario (5 - 1) (mount attackScenario)).1.frame = 5 ∧
    ¬ ((ticks attackScenario (5 - 1) (mount attackScenario)).1.frame = 5 ∧
       (ticks attackScenario (5 - 1) (mount attackScenario)).1.isComplete = true) := by
  decide

/-- C4 (amended): for every dataset of length `N ≥ 1`, starting from the initial
playback state (frame 1, not paused, not complete, no error; field name
non-empty), after exactly `N - 1` ticks the state has `frame = N` and is not yet
Complete; after exactly `N` ticks it has `frame = N` and is Complete, and every
longer run of ticks ends in that same state.  The same holds for the schedulers
of `components/AnimatedChart.js` and `components/AnimatedCharts.js`. -/
theorem C4_complete_after_N_ticks (p : Props) (s : PlaybackState)
    (q : AnimatedChart.Props) (r : AnimatedCharts.Props)
    (hN : 1 ≤ maxFrames p) (hfield : p.field ≠ "")
    (hframe : s.frame = 1) (hp : s.paused = false) (hc : s.isComplete = false)
    (he : s.dataError = none)
    (hq : 1 ≤ AnimatedChart.maxFrames q) (hr : 1 ≤ AnimatedCharts.maxFrames r) :
    ((ticks p (maxFrames p - 1) s).1.frame = maxFrames p ∧
     (ticks p (maxFrames p - 1) s).1.isComplete = false ∧
     (ticks p (maxFrames p) s).1.frame = maxFrames p ∧
     (ticks p (maxFrames p) s).1.isComplete = true ∧
     ∀ n, maxFrames p ≤ n → (ticks p n s).1 = (ticks p (maxFrames p) s).1) ∧
    ((AnimatedChart.ticks q (AnimatedChart.maxFrames q - 1) AnimatedChart.useStateInit).frame
        = AnimatedChart.maxFrames q ∧
     (AnimatedChart.ticks q (AnimatedChart.maxFrames q - 1)
        AnimatedChart.useStateInit).isComplete = false ∧
     (AnimatedChart.ticks q (AnimatedChart.maxFrames q) AnimatedChart.useStateInit).frame
        = AnimatedChart.maxFrames q ∧
     (AnimatedChart.ticks q (AnimatedChart.maxFrames q) AnimatedChart.useStateInit).isComplete
        = true ∧
     ∀ n, AnimatedChart.maxFrames q ≤ n →
       AnimatedChart.ticks q n AnimatedChart.useStateInit
         = AnimatedChart.ticks q (AnimatedChart.maxFrames q) AnimatedChart.useStateInit) ∧
    ((AnimatedCharts.ticks r (AnimatedCharts.maxFrames r - 1)
        (AnimatedCharts.useStateInit r)).1.frame = AnimatedCharts.maxFrames r ∧
     (AnimatedCharts.ticks r (AnimatedCharts.maxFrames r - 1)
        (AnimatedCharts.useStateInit r)).1.isComplete = false ∧
     (AnimatedCharts.ticks r (AnimatedCharts.maxFrames r)
        (AnimatedCharts.useStateInit r)).1.frame = AnimatedCharts.maxFrames r ∧
     (AnimatedCharts.ticks r (AnimatedCharts.maxFrames r)
        (AnimatedCharts.useStateInit r)).1.isComplete = true ∧
     ∀ n, AnimatedCharts.maxFrames r ≤ n →
       (AnimatedCharts.ticks r n (AnimatedCharts.useStateInit r)).1
         = (AnimatedCharts.ticks r (AnimatedCharts.maxFrames r)
             (AnimatedCharts.useStateInit r)).1) := by
  refine ⟨?_, ?_, ?_⟩
  · have hs := timerScheduled_of_running p s hp hc he hfield hN
    have h1 := (ticks_run p (maxFrames p - 1) s hs (by omega)).1
    have h2 : ∀ n, maxFrames p ≤ n →
        (ticks p n s).1 = { s with frame := maxFrames p, isComplete := true } :=
      fun n hn => (playback p s n hs (by omega) (by omega)).1
    refine ⟨by rw [h1], by rw [h1]; exact hc, by rw [h2 _ (le_refl _)],
      by rw [h2 _ (le_refl _)], ?_⟩
    intro n hn
    rw [h2 n hn, h2 _ (le_refl _)]
  · have ha : AnimatedChart.intervalActive AnimatedChart.useStateInit = true := rfl
    have hf : AnimatedChart.useStateInit.frame = 1 := rfl
    have h1 := AnimatedChart.chart_ticks_run q (AnimatedChart.maxFrames q - 1)
      AnimatedChart.useStateInit ha (by rw [hf]; omega)
    have h2 : ∀ n, AnimatedChart.maxFrames q ≤ n →
        AnimatedChart.ticks q n AnimatedChart.useStateInit =
          { AnimatedChart.useStateInit with
            frame := AnimatedChart.maxFrames q, isComplete := true } :=
      fun n hn => AnimatedChart.chart_playback q _ n ha (by rw [hf]; omega) (by rw [hf]; omega)
    refine ⟨by rw [h1], by rw [h1]; rfl, by rw [h2 _ (le_refl _)],
      by rw [h2 _ (le_refl _)], ?_⟩
    intro n hn
    rw [h2 n hn, h2 _ (le_refl _)]
  · have ha : AnimatedCharts.intervalActive (AnimatedCharts.useStateInit r) = true := rfl
    have hf : (AnimatedCharts.useStateInit r).frame = 1 := rfl
    have h1 := AnimatedCharts.upload_ticks_run r (AnimatedCharts.maxFrames r - 1)
      (AnimatedCharts.useStateInit r) ha (by rw [hf]; omega)
    have h2 := fun n (hn : AnimatedCharts.maxFrames r ≤ n) =>
      AnimatedCharts.upload_playback r (AnimatedCharts.useStateInit r) n ha
        (by rw [hf]; omega) (by rw [hf]; omega)
    refine ⟨by rw [h1], by rw [h1]; rfl, by rw [h2 _ (le_refl _)],
      by rw [h2 _ (le_refl _)], ?_⟩
    intro n hn
    rw [h2 n hn, h2 _ (le_refl _)]

/-- C4 witness: the five-row scenarios of the three components. -/
theorem C4_witness :
    ((ticks attackScenario (maxFrames attackScenario - 1) (mount attackScenario)).1.frame
        = maxFrames attackScenario ∧
     (ticks attackScenario (maxFrames attackScenario - 1) (mount attackScenario)).1.isComplete
        = false ∧
     (ticks attackScenario (maxFrames attackScenario) (mount attackScenario)).1.frame
        = maxFrames attackScenario ∧
     (ticks attackScenario (maxFrames attackScenario) (mount attackScenario)).1.isComplete
        = true) :=
  have h := C4_complete_after_N_ticks attackScenario (mount attackScenario)
    legacyScenario uploadScenario (by decide) (by decide) (by decide) (by decide)
    (by decide) (by decide) (by decide) (by decide)
  ⟨h.1.1, h.1.2.1, h.1.2.2.1, h.1.2.2.2.1⟩

/-- C5: in a state that is not paused, not complete, without error and with
`1 ≤ frame < maxFrames`, the timer callback `startAnimation` yields `frame + 1`
and leaves `paused`, `isComplete`, `animationSpeed` and `dataError` unchanged;
with a non-empty field name the timer is pending, so a tick of the clock is that
callback.  The interval callback of `components/AnimatedChart.js` does the same
on its state. -/
theorem C5_tick_advances_by_exactly_one (p : Props) (s : PlaybackState)
    (q : AnimatedChart.Props) (t : AnimatedChart.PlaybackState)
    (hp : s.paused = false) (hc : s.isComplete = false) (he : s.dataError = none)
    (h1 : 1 ≤ s.frame) (hf : s.frame < maxFrames p)
    (htp : t.isPaused = false) (htc : t.isComplete = false)
    (htf : t.frame < AnimatedChart.maxFrames q) :
    ((startAnimation p s).1.frame = s.frame + 1 ∧
     (startAnimation p s).1.paused = s.paused ∧
     (startAnimation p s).1.isComplete = s.isComplete ∧
     (startAnimation p s).1.animationSpeed = s.animationSpeed ∧
     (startAnimation p s).1.dataError = s.dataError) ∧
    (p.field ≠ "" → tick p s = startAnimation p s) ∧
    ((AnimatedChart.tick q t).frame = t.frame + 1 ∧
     (AnimatedChart.tick q t).isPaused = t.isPaused ∧
     (AnimatedChart.tick q t).isComplete = t.isComplete) := by
  refine ⟨?_, ?_, ?_⟩
  · have h2 : ¬ (s.frame ≥ maxFrames p) := by omega
    have h3 : min (s.frame + 1) (maxFrames p) = s.frame + 1 := by omega
    simp [startAnimation, h2, h3]
  · intro hfield
    have hs := timerScheduled_of_running p s hp hc he hfield (by omega)
    simp [tick, hs]
  · have ha : AnimatedChart.intervalActive t = true := by
      simp [AnimatedChart.intervalActive, htp, htc]
    rw [AnimatedChart.chart_tick_advance q t ha htf]
    exact ⟨rfl, rfl, rfl⟩

/-- C5 witness: the mounted state of the attack scenario and the initial state
of the five-row scenario of `components/AnimatedChart.js`. -/
theorem C5_witness :
    (startAnimation attackScenario (mount attackScenario)).1.frame
      = (mount attackScenario).frame + 1 ∧
    (AnimatedChart.tick legacyScenario AnimatedChart.useStateInit).frame
      = AnimatedChart.useStateInit.frame + 1 :=
  have h := C5_tick_advances_by_exactly_one attackScenario (mount attackScenario)
    legacyScenario AnimatedChart.useStateInit (by decide) (by decide) (by decide)
    (by decide) (by decide) (by decide) (by decide) (by decide)
  ⟨h.1.1, h.2.2.1⟩

/-- C6: on a dataset of `N` rows and in a state with `frame ≤ N` (in particular
for `N ≥ 1` and `1 ≤ frame ≤ N`), a tick
(of the clock, or the bare timer callback), a click on pause / play, a speed
change and `stopAll` each yield a frame `f'` with `frame ≤ f' ≤ N`, and a tick
at `frame = N` keeps the frame; a change of dataset or field keeps the frame or
sets it to 1.  In `components/AnimatedChart.js` a tick and a click on pause /
play obey the same bounds and `restart` sets the frame to 1. -/
theorem C6_frame_monotone_and_bounded (p newProps : Props) (s : PlaybackState) (value : Int)
    (q : AnimatedChart.Props) (t : AnimatedChart.PlaybackState)
    (hf : s.frame ≤ maxFrames p) (htf : t.frame ≤ AnimatedChart.maxFrames q) :
    (s.frame ≤ (tick p s).1.frame ∧ (tick p s).1.frame ≤ maxFrames p) ∧
    (s.frame ≤ (startAnimation p s).1.frame ∧ (startAnimation p s).1.frame ≤ maxFrames p) ∧
    (s.frame = maxFrames p → (tick p s).1.frame = s.frame) ∧
    (s.frame ≤ (pauseResume p s).frame ∧ (pauseResume p s).frame ≤ maxFrames p) ∧
    (s.frame ≤ (setSpeed value s).frame ∧ (setSpeed value s).frame ≤ maxFrames p) ∧
    (s.frame ≤ (stopAll p s).frame ∧ (stopAll p s).frame ≤ maxFrames p) ∧
    ((changeDataField newProps s).frame = s.frame ∨ (changeDataField newProps s).frame = 1) ∧
    (t.frame ≤ (AnimatedChart.tick q t).frame ∧
      (AnimatedChart.tick q t).frame ≤ AnimatedChart.maxFrames q) ∧
    (t.frame ≤ (AnimatedChart.togglePause t).frame ∧
      (AnimatedChart.togglePause t).frame ≤ AnimatedChart.maxFrames q) ∧
    (AnimatedChart.restart t).frame = 1 := by
  have hb := tick_frame_bounds p s hf
  have hpr : (pauseResume p s).frame = s.frame := (passiveEffects_frame p s (togglePause s)).1
  have hst : (stopAll p s).frame = s.frame :=
    (passiveEffects_frame p s (handleStopAllAnimations s)).1
  refine ⟨hb, startAnimation_frame_bounds p s hf, fun h => by omega, by omega, ⟨le_refl _, hf⟩,
    by omega, ?_, AnimatedChart.chart_tick_frame_bounds q t htf, ⟨le_refl _, htf⟩, rfl⟩
  unfold changeDataField validationEffect
  cases newProps.data with
  | none => exact Or.inl rfl
  | some d =>
    cases d with
    | nil => exact Or.inl rfl
    | cons sample rest =>
      simp only
      split_ifs
      · exact Or.inl rfl
      · exact Or.inr rfl

/-- C6 witness: the attack scenario after two ticks, and the five-row scenario
of `components/AnimatedChart.js` after two ticks. -/
theorem C6_witness :
    ((ticks attackScenario 2 (mount attackScenario)).1.frame
        ≤ (tick attackScenario (ticks attackScenario 2 (mount attackScenario)).1).1.frame ∧
      (tick attackScenario (ticks attackScenario 2 (mount attackScenario)).1).1.frame
        ≤ maxFrames attackScenario) ∧
    (AnimatedChart.restart
      (AnimatedChart.ticks legacyScenario 2 AnimatedChart.useStateInit)).frame = 1 :=
  have h := C6_frame_monotone_and_bounded attackScenario ewsScenario
    (ticks attackScenario 2 (mount attackScenario)).1 50
    legacyScenario (AnimatedChart.ticks legacyScenario 2 AnimatedChart.useStateInit)
    (by decide) (by decide)
  ⟨h.1, h.2.2.2.2.2.2.2.2.2⟩

/-- C7 (as stated, refuted): in the five-row attack scenario four ticks from the
mounted state reach `frame = maxFrames` while `isComplete` is false, and
`stopAll` in the mounted state gives `isComplete = true` while `frame = 1` is
not `maxFrames`. -/
theorem C7_counterexample_complete_iff_last_frame :
    ((runOps attackScenario [Op.tick, Op.tick, Op.tick, Op.tick] (mount attackScenario)).frame
        = maxFrames attackScenario ∧
     (runOps attackScenario [Op.tick, Op.tick, Op.tick, Op.tick]
        (mount attackScenario)).isComplete = false) ∧
    ((runOps attackScenario [Op.stopAll] (mount attackScenario)).isComplete = true ∧
     (runOps attackScenario [Op.stopAll] (mount attackScenario)).frame
        ≠ maxFrames attackScenario) := by
  decide

/-- C7 (amended): in every state reached from the mounted state by ticks, clicks
on pause / play and speed changes (no `stopAll`), `isComplete` implies
`frame = maxFrames`; likewise in `components/AnimatedChart.js`, on a non-empty
dataset, for every sequence of ticks, clicks on pause / play and restarts. -/
theorem C7_complete_implies_last_frame (p : Props) (ops : List Op)
    (q : AnimatedChart.Props) (ops2 : List AnimatedChart.Op)
    (hops : ∀ op ∈ ops, op ≠ Op.stopAll) (hq : 1 ≤ AnimatedChart.maxFrames q) :
    ((runOps p ops (mount p)).isComplete = true →
      (runOps p ops (mount p)).frame = maxFrames p) ∧
    ((AnimatedChart.runOps q ops2 AnimatedChart.useStateInit).isComplete = true →
      (AnimatedChart.runOps q ops2 AnimatedChart.useStateInit).frame
        = AnimatedChart.maxFrames q) := by
  refine ⟨(completeAtEnd_runOps p ops (mount p) hops (completeAtEnd_mount p)).1, ?_⟩
  have h0 : AnimatedChart.completeAtEnd q AnimatedChart.useStateInit :=
    ⟨fun hc => (by cases hc), hq⟩
  exact (AnimatedChart.chart_completeAtEnd_runOps q ops2 _ hq h0).1

/-- C7 witness: a full playback with a pause and a speed change on the way, and
a playback with a restart in `components/AnimatedChart.js`. -/
theorem C7_witness :
    ((runOps stoppedScenario
        [Op.tick, Op.togglePause, Op.tick, Op.togglePause, Op.setSpeed 50, Op.tick, Op.tick,
          Op.tick, Op.tick]
        (mount stoppedScenario)).isComplete = true →
      (runOps stoppedScenario
        [Op.tick, Op.togglePause, Op.tick, Op.togglePause, Op.setSpeed 50, Op.tick, Op.tick,
          Op.tick, Op.tick]
        (mount stoppedScenario)).frame = maxFrames stoppedScenario) ∧
    (runOps stoppedScenario
        [Op.tick, Op.togglePause, Op.tick, Op.togglePause, Op.setSpeed 50, Op.tick, Op.tick,
          Op.tick, Op.tick]
        (mount stoppedScenario)).isComplete = true :=
  ⟨(C7_complete_implies_last_frame stoppedScenario
      [Op.tick, Op.togglePause, Op.tick, Op.togglePause, Op.setSpeed 50, Op.tick, Op.tick,
        Op.tick, Op.tick]
      legacyScenario [AnimatedChart.Op.tick, AnimatedChart.Op.restart]
      (by decide) (by decide)).1, by decide⟩

/-- C8 (code defect, evaluated at the failing input): in the attack scenario
`isAnalysisRunning` is true and the mounted state is running; the click on pause
sets `paused`, the effect of lines 124-134 clears it again in the same commit,
and the next tick advances `frame` from 1 to 2; four ticks after the pause the
frame is 5. -/
theorem C8_pause_undone_while_analysis_runs :
    attackScenario.isAnalysisRunning = true ∧
    timerScheduled attackScenario (mount attackScenario) = true ∧
    (mount attackScenario).frame = 1 ∧
    (togglePause (mount attackScenario)).paused = true ∧
    (pauseResume attackScenario (mount attackScenario)).paused = false ∧
    (tick attackScenario (pauseResume attackScenario (mount attackScenario))).1.frame = 2 ∧
    (ticks attackScenario 4 (pauseResume attackScenario (mount attackScenario))).1.frame = 5 := by
  decide

/-- C9 (as stated, refuted): the state reached by a complete playback of the
five-row scenario is Complete and not paused; the `stopAllAnimations` listener
sets `paused`, so `stopAll` changes that state once the page has set
`isAnalysisRunning` to false. -/
theorem C9_counterexample_stopAll_on_complete :
    (ticks attackScenario 5 (mount attackScenario)).1.isComplete = true ∧
    (ticks attackScenario 5 (mount attackScenario)).1.paused = false ∧
    handleStopAllAnimations (ticks attackScenario 5 (mount attackScenario)).1
      ≠ (ticks attackScenario 5 (mount attackScenario)).1 ∧
    (stopAll stoppedScenario (ticks attackScenario 5 (mount attackScenario)).1).paused = true ∧
    stopAll stoppedScenario (ticks attackScenario 5 (mount attackScenario)).1
      ≠ (ticks attackScenario 5 (mount attackScenario)).1 := by
  decide

/-- C9 (amended): for every playback state `s`, `stopAll s` is Complete with the
frame of `s`, no later tick changes it or dispatches an event, and `stopAll` is
idempotent; when `s` is already Complete, `stopAll s` differs from `s` at most
in `paused`, and equals `s` exactly when `s` is paused or `isAnalysisRunning` is
true. -/
theorem C9_stopAll_complete_idempotent (p : Props) (s : PlaybackState) :
    (stopAll p s).isComplete = true ∧
    (stopAll p s).frame = s.frame ∧
    (∀ n, ticks p n (stopAll p s) = (stopAll p s, [])) ∧
    stopAll p (stopAll p s) = stopAll p s ∧
    (s.isComplete = true → stopAll p s = { s with paused := (stopAll p s).paused }) ∧
    (s.isComplete = true →
      (stopAll p s = s ↔ (s.paused = true ∨ p.isAnalysisRunning = true))) := by
  have hc : (stopAll p s).isComplete = true := by rw [stopAll_eq]
  refine ⟨hc, by rw [stopAll_eq], ?_, ?_, ?_, ?_⟩
  · intro n
    exact ticks_idle p n _ (timerScheduled_complete p _ hc)
  · rw [stopAll_eq p (stopAll p s), stopAll_eq p s]
    cases hp : s.paused <;> cases ha : p.isAnalysisRunning <;> simp
  · intro hs
    rw [stopAll_eq]
    cases s
    simp_all
  · intro hs
    rw [stopAll_eq]
    cases s
    cases ha : p.isAnalysisRunning <;> simp_all

/-! ## Lemmas on the peak of the attack rows -/

namespace ChartsAnimatedChart

theorem jsGt_num (a b : Int) : jsGt (JsVal.num a) (JsVal.num b) = decide (a > b) := rfl

/-- The invariant of the `reduce` loop: with the rows before position `idx`
scanned, `maxIdx` is the first position of their maximum. -/
theorem peakIdxLoop_spec (field : String) (arr : List Row)
    (hnum : ∀ r ∈ arr, ∃ n, r.get field = JsVal.num n) :
    ∀ (rest pre : List Row) (maxIdx : Nat) (maxRow : Row), arr = pre ++ rest →
      arr[maxIdx]? = some maxRow →
      (∀ (k : Nat) rk, k < pre.length → arr[k]? = some rk → fieldNum field rk ≤ fieldNum field maxRow) →
      (∀ (k : Nat) rk, k < maxIdx → arr[k]? = some rk → fieldNum field rk < fieldNum field maxRow) →
      ∃ peakRow, arr[peakIdxLoop field arr maxIdx pre.length rest]? = some peakRow ∧
        (∀ (k : Nat) rk, arr[k]? = some rk → fieldNum field rk ≤ fieldNum field peakRow) ∧
        (∀ (k : Nat) rk, k < peakIdxLoop field arr maxIdx pre.length rest → arr[k]? = some rk →
          fieldNum field rk < fieldNum field peakRow) := by
  intro rest
  induction rest with
  | nil =>
    intro pre maxIdx maxRow harr hmax hle hlt
    simp only [List.append_nil] at harr
    subst harr
    refine ⟨maxRow, by simpa [peakIdxLoop] using hmax, ?_, ?_⟩
    · intro k rk hk
      have hklt : k < arr.length := by
        by_contra hcon
        rw [List.getElem?_eq_none (by omega)] at hk
        cases hk
      exact hle k rk hklt hk
    · intro k rk hk
      simp only [peakIdxLoop] at hk
      exact hlt k rk hk
  | cons row rest ih =>
    intro pre maxIdx maxRow harr hmax hle hlt
    have hrow : arr[pre.length]? = some row := by
      rw [harr, List.getElem?_append_right (le_refl _)]; simp
    have harr' : arr = (pre ++ [row]) ++ rest := by rw [harr]; simp
    have hlen : (pre ++ [row]).length = pre.length + 1 := by simp
    obtain ⟨n, hn⟩ := hnum row (by rw [harr]; simp)
    obtain ⟨m, hm⟩ := hnum maxRow (List.getElem?_mem hmax)
    have hfn : fieldNum field row = n := by simp [fieldNum, hn]
    have hfm : fieldNum field maxRow = m := by simp [fieldNum, hm]
    simp only [peakIdxLoop, hmax, hn, hm, jsGt_num]
    by_cases hgt : n > m
    · simp only [hgt, decide_True, if_true]
      have := ih (pre ++ [row]) pre.length row harr' hrow
        (by
          intro k rk hk hrk
          rw [hlen] at hk
          rcases Nat.lt_succ_iff_lt_or_eq.mp hk with h | h
          · have := hle k rk h hrk
            omega
          · subst h
            rw [hrow] at hrk
            cases hrk
            exact le_refl _)
        (by
          intro k rk hk hrk
          have := hle k rk hk hrk
          omega)
      rw [hlen] at this
      exact this
    · simp only [hgt, decide_False]
      have := ih (pre ++ [row]) maxIdx maxRow harr' hmax
        (by
          intro k rk hk hrk
          rw [hlen] at hk
          rcases Nat.lt_succ_iff_lt_or_eq.mp hk with h | h
          · exact hle k rk h hrk
          · subst h
            rw [hrow] at hrk
            cases hrk
            omega)
        hlt
      rw [hlen] at this
      simpa using this

/-- The peak index is in range, whatever the field values are. -/
theorem peakIdxLoop_lt (field : String) (arr : List Row) :
    ∀ (rest : List Row) (maxIdx idx : Nat), maxIdx < arr.length →
      idx + rest.length = arr.length →
      peakIdxLoop field arr maxIdx idx rest < arr.length := by
  intro rest
  induction rest with
  | nil => intro maxIdx idx h _; simpa [peakIdxLoop] using h
  | cons row rest ih =>
    intro maxIdx idx h hlen
    simp only [List.length_cons] at hlen
    simp only [peakIdxLoop]
    have hsome : arr[maxIdx]? = some (arr[maxIdx]) := List.getElem?_eq_getElem h
    rw [hsome]
    simp only
    apply ih
    · split_ifs <;> omega
    · omega

theorem peakIdx_lt (field : String) (arr : List Row) (h : arr ≠ []) :
    peakIdx field arr < arr.length := by
  have hpos : 0 < arr.length := List.length_pos.mpr h
  exact peakIdxLoop_lt field arr arr 0 0 hpos (by simp)

end ChartsAnimatedChart

/-! ## Lemmas on the reads of the dataset -/

namespace ChartsAnimatedChart

theorem slice_some (d : List Row) (frame : Nat) : slice (some d) frame = d.take frame := by
  simp only [slice]
  split_ifs with h
  · rw [List.take_eq_take]
    omega
  · have : d = [] := by
      cases d with
      | nil => rfl
      | cons a l => simp at h
    simp [this]

theorem slice_none (frame : Nat) : slice none frame = [] := rfl

theorem slice_length (d : List Row) (frame : Nat) (h : frame ≤ d.length) :
    (slice (some d) frame).length = frame := by
  rw [slice_some, List.length_take]
  omega

theorem mem_slice_data (data : Option (List Row)) (frame : Nat) (r : Row)
    (h : r ∈ slice data frame) : ∃ d, data = some d ∧ r ∈ d.take frame := by
  cases data with
  | none => simp [slice_none] at h
  | some d => exact ⟨d, rfl, by rwa [slice_some] at h⟩

theorem findIndexFrom_lt (pred : Row → Bool) :
    ∀ (d : List Row) (i n : Nat), (∃ r ∈ d.take n, pred r = true) →
      findIndexFrom pred i d < ((i + n : Nat) : Int) := by
  intro d
  induction d with
  | nil => intro i n ⟨r, hr, _⟩; simp at hr
  | cons a l ih =>
    intro i n ⟨r, hr, hp⟩
    cases n with
    | zero => simp at hr
    | succ n =>
      simp only [findIndexFrom]
      by_cases ha : pred a = true
      · simp only [ha, if_true]
        omega
      · simp only [ha]
        simp only [List.take_succ_cons, List.mem_cons] at hr
        rcases hr with h | h
        · subst h; exact absurd hp ha
        · have := ih (i + 1) n ⟨r, h, hp⟩
          simp only [Bool.false_eq_true, if_false]
          omega

/-- The test `frame > lastFrameIdx` of lines 443 and 677 always passes: the peak
row is a visible row, so `findIndex` stops at a position below `frame` (or
returns -1). -/
theorem visiblePeak_eq (p : Props) (frame : Nat) :
    visiblePeak p frame =
      (attackRows p.data frame)[peakIdx p.field (attackRows p.data frame)]? := by
  unfold visiblePeak
  by_cases hne : (attackRows p.data frame).length > 0
  · have hne' : attackRows p.data frame ≠ [] := List.length_pos.mp hne
    have hlt := peakIdx_lt p.field _ hne'
    simp only [hne, hlt, if_true]
    cases hrow : (attackRows p.data frame)[peakIdx p.field (attackRows p.data frame)]? with
    | none => rfl
    | some peakRow =>
      simp only
      have hmem : peakRow ∈ attackRows p.data frame := List.getElem?_mem hrow
      have hslice : peakRow ∈ slice p.data frame := (List.mem_filter.mp hmem).1
      obtain ⟨d, hd, hin⟩ := mem_slice_data p.data frame peakRow hslice
      have := findIndexFrom_lt (fun r => r.get "Seconds" == peakRow.get "Seconds") d 0 frame
        ⟨peakRow, hin, by simp⟩
      rw [hd]
      simp only [Option.getD_some]
      rw [if_pos]
      simpa using this
  · have : attackRows p.data frame = [] := by
      cases h : attackRows p.data frame with
      | nil => rfl
      | cons a l => rw [h] at hne; simp at hne
    simp [this]

theorem visiblePeak_isSome (p : Props) (frame : Nat) :
    (visiblePeak p frame).isSome = decide ((attackRows p.data frame).length > 0) := by
  rw [visiblePeak_eq]
  by_cases hne : (attackRows p.data frame).length > 0
  · have hlt := peakIdx_lt p.field _ (List.length_pos.mp hne)
    rw [List.getElem?_eq_getElem hlt]
    simp [hne]
  · have : attackRows p.data frame = [] := by
      cases h : attackRows p.data frame with
      | nil => rfl
      | cons a l => rw [h] at hne; simp at hne
    simp [this]

theorem attackRows_mono (data : Option (List Row)) (f g : Nat) (h : f ≤ g)
    (hne : (attackRows data f).length > 0) : (attackRows data g).length > 0 := by
  cases data with
  | none => simp [attackRows, slice_none] at hne
  | some d =>
    simp only [attackRows, slice_some] at hne ⊢
    obtain ⟨r, hr⟩ := List.exists_mem_of_length_pos hne
    have hr' := List.mem_filter.mp hr
    have hsub : r ∈ d.take g := by
      have : d.take f = (d.take g).take f := by
        rw [List.take_take]; congr 1; omega
      rw [this] at hr'
      exact List.mem_of_mem_take hr'.1
    exact List.length_pos_of_mem (List.mem_filter.mpr ⟨hsub, hr'.2⟩)

theorem rowAt_some_of_lt (d : List Row) (idx : Int) (frame : Nat)
    (h0 : 0 ≤ idx) (hf : idx < (frame : Int)) (hN : frame ≤ d.length) :
    ∃ r, rowAt (some d) idx = some r ∧ r ∈ d := by
  have hlt : idx.toNat < d.length := by omega
  refine ⟨d[idx.toNat], ?_, List.getElem_mem _⟩
  simp [rowAt, h0, List.getElem?_eq_getElem hlt]

theorem rowAt_take (d : List Row) (idx : Int) (frame : Nat) (hf : idx < (frame : Int)) :
    rowAt (some (d.take frame)) idx = rowAt (some d) idx := by
  unfold rowAt
  by_cases h0 : 0 ≤ idx
  · simp only [h0, if_true]
    rw [List.getElem?_take_of_lt (by omega)]
  · simp [h0]

end ChartsAnimatedChart

/-! ## The keys of the annotations -/

namespace ChartsAnimatedChart

theorem attackRegionMarkers_ids (p : Props) (frame : Nat) (s t : String)
    (m : List (AnnotationId × AnnotationSpec))
    (h : attackRegionMarkers p frame s t = some m) : m.map Prod.fst = markerIds p frame := by
  unfold attackRegionMarkers at h
  unfold markerIds
  by_cases hs : p.showAttackRegion = true
  · simp only [hs, if_true] at h ⊢
    cases hb : attackBounds p with
    | none => simp only [hb] at h ⊢; cases h; rfl
    | some bounds =>
      obtain ⟨a, b⟩ := bounds
      simp only [hb] at h ⊢
      by_cases ha : (frame : Int) > a
      · simp only [ha, if_true] at h ⊢
        cases hr : rowAt p.data a with
        | none => simp [hr] at h
        | some startRow =>
          simp only [hr] at h
          by_cases hb2 : (frame : Int) > b
          · simp only [hb2, if_true] at h ⊢
            cases hr2 : rowAt p.data b with
            | none => simp [hr2] at h
            | some endRow => simp only [hr2] at h; cases h; rfl
          · simp only [hb2, if_false] at h ⊢
            cases h; rfl
      · simp only [ha, if_false] at h ⊢
        cases h; rfl
  · simp only [hs] at h ⊢
    cases h; rfl

theorem ewsMarkerLoop_ids (p : Props) (frame : Nat) :
    ∀ (l : List Int) (i : Nat) (x : List Series × List (AnnotationId × AnnotationSpec)),
      ewsMarkerLoop p frame i l = some x →
      x.2.map Prod.fst = ewsIdsFrom frame i l ∧ x.1.map Series.label = ewsLabelsFrom frame i l := by
  intro l
  induction l with
  | nil => intro i x h; simp only [ewsMarkerLoop] at h; cases h; exact ⟨rfl, rfl⟩
  | cons idx rest ih =>
    intro i x h
    simp only [ewsMarkerLoop] at h
    simp only [ewsIdsFrom, ewsLabelsFrom]
    by_cases hf : (frame : Int) > idx
    · simp only [hf, if_true] at h ⊢
      cases hr : rowAt p.data idx with
      | none => simp [hr] at h
      | some row =>
        simp only [hr] at h
        cases hsec : row.get "Seconds" with
        | num sec =>
          simp only [hsec] at h
          cases hm : ewsMarkerLoop p frame (i + 1) rest with
          | none => simp [hm] at h
          | some more =>
            simp only [hm] at h
            cases h
            have := ih (i + 1) more hm
            simp [this.1, this.2]
        | undefined => simp [hsec] at h
        | null => simp [hsec] at h
        | str s => simp [hsec] at h
    · simp only [hf, if_false] at h ⊢
      exact ih (i + 1) x h

theorem ewsPointLoop_ids (p : Props) (frame level : Nat) :
    ∀ (l : List Int) (i : Nat) (x : List (AnnotationId × AnnotationSpec)),
      ewsPointLoop p frame level i l = some x →
      x.map Prod.fst = ewsLevelIdsFrom frame level i l := by
  intro l
  induction l with
  | nil => intro i x h; simp only [ewsPointLoop] at h; cases h; rfl
  | cons idx rest ih =>
    intro i x h
    simp only [ewsPointLoop] at h
    simp only [ewsLevelIdsFrom]
    by_cases hf : (frame : Int) > idx
    · simp only [hf, if_true] at h ⊢
      cases hr : rowAt p.data idx with
      | none => simp [hr] at h
      | some row =>
        simp only [hr] at h
        cases hm : ewsPointLoop p frame level (i + 1) rest with
        | none => simp [hm] at h
        | some more =>
          simp only [hm] at h
          cases h
          simp [ih (i + 1) more hm]
    · simp only [hf, if_false] at h ⊢
      exact ih (i + 1) x h

theorem ewsPointsOver_ids (p : Props) (frame : Nat) :
    ∀ (entries : List (Nat × List Int)) (x : List (AnnotationId × AnnotationSpec)),
      ewsPointsOver p frame entries = some x →
      x.map Prod.fst = ewsLevelIdsOver frame entries := by
  intro entries
  induction entries with
  | nil => intro x h; simp only [ewsPointsOver] at h; cases h; rfl
  | cons entry rest ih =>
    intro x h
    simp only [ewsPointsOver] at h
    cases hp : ewsPointLoop p frame entry.1 0 entry.2 with
    | none => simp [hp] at h
    | some points =>
      simp only [hp] at h
      cases hm : ewsPointsOver p frame rest with
      | none => simp [hm] at h
      | some more =>
        simp only [hm] at h
        cases h
        simp [ewsLevelIdsOver, ewsPointLoop_ids p frame entry.1 entry.2 0 points hp, ih more hm]

theorem isDefaultCase_iff (ct : String) :
    isDefaultCase ct = true ↔
      (ct ≠ "benign-attack" ∧ ct ≠ "derivative" ∧ ct ≠ "peak-region" ∧ ct ≠ "early-warnings" ∧
        ct ≠ "ews-confusion" ∧ ct ≠ "alerts" ∧ ct ≠ "flow-with-ews" ∧
        ct ≠ "alert-levels-separately" ∧ ct ≠ "emergency-alerts") := by
  simp [isDefaultCase, namedCases]

theorem deriveOverlay_default (p : Props) (frame : Nat) (h : isDefaultCase p.chartType = true) :
    deriveOverlay p frame = deriveDefault p frame := by
  obtain ⟨h1, h2, h3, h4, h5, h6, h7, h8, h9⟩ := (isDefaultCase_iff _).mp h
  simp [deriveOverlay, h1, h2, h3, h4, h5, h6, h7, h8, h9]

theorem overlayIds_default (p : Props) (frame : Nat) (h : isDefaultCase p.chartType = true) :
    overlayIds p frame = markerIds p frame ++ ewsLevelIds p frame := by
  obtain ⟨h1, h2, h3, h4, h5, h6, h7, h8, h9⟩ := (isDefaultCase_iff _).mp h
  simp [overlayIds, h1, h2, h3, h4, h5, h6, h7, h8, h9]

theorem derivePeakRegion_ids (p : Props) (frame : Nat) (o : Overlay)
    (h : derivePeakRegion p frame = some o) :
    o.annotations.map Prod.fst =
      (if (firstAttackIdx p != some (-1) && decide ((attackRows p.data frame).length > 0)) = true
        then peakStartIds p frame ++ [AnnotationId.peakPoint]
        else []) := by
  unfold peakStartIds
  unfold derivePeakRegion at h
  by_cases hc : (firstAttackIdx p != some (-1) &&
      decide ((attackRows p.data frame).length > 0)) = true
  · simp only [hc, if_true] at h ⊢
    have hne : (attackRows p.data frame).length > 0 := by
      simp only [Bool.and_eq_true, decide_eq_true_eq] at hc
      exact hc.2
    have hvis := visiblePeak_isSome p frame
    cases hv : visiblePeak p frame with
    | none => rw [hv] at hvis; simp [hne] at hvis
    | some peakRow =>
      unfold peakRegionStart at h
      cases hfa : firstAttackIdx p with
      | none => simp only [hfa, hv] at h; cases h; rfl
      | some idx =>
        simp only [hfa, hv] at h ⊢
        by_cases hf : (frame : Int) > idx
        · simp only [hf, if_true] at h ⊢
          cases hr : rowAt p.data idx with
          | none => simp [hr] at h
          | some startRow => simp only [hr] at h; cases h; rfl
        · simp only [hf, if_false] at h ⊢
          cases h; rfl
  · simp only [hc] at h ⊢
    cases h; rfl

theorem deriveFlowWithEws_ids (p : Props) (frame : Nat) (o : Overlay)
    (h : deriveFlowWithEws p frame = some o) :
    o.annotations.map Prod.fst = markerIds p frame ++ peakLabelIds p frame ++ ewsIds p frame := by
  unfold peakLabelIds ewsIds
  unfold deriveFlowWithEws at h
  cases hm : attackRegionMarkers p frame "Start" "Stop" with
  | none => simp [hm] at h
  | some markers =>
    simp only [hm] at h
    have hmi := attackRegionMarkers_ids p frame _ _ markers hm
    have hpk : ∀ peak, flowPeak p frame = some peak →
        peak.2.map Prod.fst =
          (if (p.showAttackRegion && (attackBounds p).isSome &&
              decide ((attackRows p.data frame).length > 0)) = true then
            [AnnotationId.peakLabel] else []) := by
      intro peak hpeak
      unfold flowPeak at hpeak
      have hvis := visiblePeak_isSome p frame
      by_cases hc : (p.showAttackRegion && (attackBounds p).isSome) = true
      · simp only [hc, if_true, Bool.true_and] at hpeak ⊢
        unfold peakAttack at hpeak
        cases hv : visiblePeak p frame with
        | none =>
          rw [hv] at hvis
          simp only [hv] at hpeak
          cases hpeak
          simp only [Option.isSome_none] at hvis
          simp [← hvis]
        | some peakRow =>
          rw [hv] at hvis
          simp only [hv] at hpeak
          simp only [Option.isSome_some] at hvis
          cases hsec : peakRow.get "Seconds" with
          | num sec => simp only [hsec] at hpeak; cases hpeak; simp [← hvis]
          | undefined => simp [hsec] at hpeak
          | null => simp [hsec] at hpeak
          | str s => simp [hsec] at hpeak
      · simp only [hc, Bool.false_eq_true, if_false, Bool.false_and] at hpeak ⊢
        cases hpeak; rfl
    cases hp : flowPeak p frame with
    | none => simp [hp] at h
    | some peak =>
      simp only [hp] at h
      have hpi := hpk peak hp
      cases he : ewsMarkers p frame with
      | none => simp [he] at h
      | some ews =>
        simp only [he] at h
        cases h
        have hei : ews.2.map Prod.fst =
            (if p.showEWS = true then
              match level4Alerts p with
              | some level4 => ewsIdsFrom frame 0 (level4.take 3)
              | none => []
             else []) := by
          unfold ewsMarkers at he
          by_cases hs : p.showEWS = true
          · simp only [hs, if_true] at he ⊢
            cases hl : level4Alerts p with
            | none => simp only [hl] at he ⊢; cases he; rfl
            | some level4 =>
              simp only [hl] at he ⊢
              exact (ewsMarkerLoop_ids p frame _ 0 ews he).1
          · simp only [hs] at he ⊢
            cases he; rfl
        simp only [List.map_append, hmi, hpi, hei]

theorem deriveDefault_ids (p : Props) (frame : Nat) (o : Overlay)
    (h : deriveDefault p frame = some o) :
    o.annotations.map Prod.fst = markerIds p frame ++ ewsLevelIds p frame := by
  unfold ewsLevelIds
  unfold deriveDefault at h
  cases hm : attackRegionMarkers p frame "Attack Start" "Attack End" with
  | none => simp [hm] at h
  | some markers =>
    simp only [hm] at h
    have hmi := attackRegionMarkers_ids p frame _ _ markers hm
    cases hp : ewsPoints p frame with
    | none => simp [hp] at h
    | some points =>
      simp only [hp] at h
      cases h
      have hpi : points.map Prod.fst =
          (if p.showEWS = true then
            match p.plotData with
            | none => []
            | some plotData =>
              match plotData.ews_alerts with
              | none => []
              | some ews_alerts => ewsLevelIdsOver frame (ewsEntries ews_alerts)
           else []) := by
        unfold ewsPoints at hp
        by_cases hs : p.showEWS = true
        · simp only [hs, if_true] at hp ⊢
          cases hpd : p.plotData with
          | none => simp only [hpd] at hp ⊢; cases hp; rfl
          | some plotData =>
            simp only [hpd] at hp ⊢
            cases hea : plotData.ews_alerts with
            | none => simp only [hea] at hp ⊢; cases hp; rfl
            | some ews_alerts =>
              simp only [hea] at hp ⊢
              exact ewsPointsOver_ids p frame _ points hp
        · simp only [hs] at hp ⊢
          cases hp; rfl
      simp only [List.map_append, hmi, hpi]

theorem deriveAlerts_ids (p : Props) (frame : Nat) (o : Overlay)
    (h : deriveAlerts p frame = some o) : o.annotations.map Prod.fst = markerIds p frame := by
  unfold deriveAlerts at h
  cases hm : attackRegionMarkers p frame "Attack Start" "Attack Stop" with
  | none => simp [hm] at h
  | some markers =>
    simp only [hm] at h; cases h
    exact attackRegionMarkers_ids p frame _ _ markers hm

theorem deriveAlertLevelsSeparately_ids (p : Props) (frame : Nat) (o : Overlay)
    (h : deriveAlertLevelsSeparately p frame = some o) :
    o.annotations.map Prod.fst = markerIds p frame := by
  unfold deriveAlertLevelsSeparately at h
  cases hm : attackRegionMarkers p frame "Attack Start" "Attack Stop" with
  | none => simp [hm] at h
  | some markers =>
    simp only [hm] at h; cases h
    exact attackRegionMarkers_ids p frame _ _ markers hm

/-- The keys of the annotations of a derived overlay are the keys listed by
`overlayIds`. -/
theorem deriveOverlay_ids (p : Props) (frame : Nat) (o : Overlay)
    (h : deriveOverlay p frame = some o) : o.ids = overlayIds p frame := by
  unfold Overlay.ids
  by_cases h1 : p.chartType = "benign-attack"
  · simp [deriveOverlay, overlayIds, h1] at h ⊢; rw [← h]
  by_cases h2 : p.chartType = "derivative"
  · simp [deriveOverlay, overlayIds, h2] at h ⊢; rw [← h]
  by_cases h3 : p.chartType = "peak-region"
  · simp only [deriveOverlay, overlayIds, h3, String.reduceEq, if_true, if_false] at h ⊢
    exact derivePeakRegion_ids p frame o h
  by_cases h4 : p.chartType = "early-warnings"
  · simp [deriveOverlay, overlayIds, h4, deriveEarlyWarnings] at h ⊢; rw [← h]
  by_cases h5 : p.chartType = "ews-confusion"
  · simp [deriveOverlay, overlayIds, h5] at h ⊢; rw [← h]
  by_cases h6 : p.chartType = "alerts"
  · simp only [deriveOverlay, overlayIds, h6, String.reduceEq, if_true, if_false] at h ⊢
    exact deriveAlerts_ids p frame o h
  by_cases h7 : p.chartType = "flow-with-ews"
  · simp only [deriveOverlay, overlayIds, h7, String.reduceEq, if_true, if_false] at h ⊢
    exact deriveFlowWithEws_ids p frame o h
  by_cases h8 : p.chartType = "alert-levels-separately"
  · simp only [deriveOverlay, overlayIds, h8, String.reduceEq, if_true, if_false] at h ⊢
    exact deriveAlertLevelsSeparately_ids p frame o h
  by_cases h9 : p.chartType = "emergency-alerts"
  · simp [deriveOverlay, overlayIds, h9, deriveEmergencyAlerts] at h ⊢; rw [← h]
  have hd : isDefaultCase p.chartType = true :=
    (isDefaultCase_iff _).mpr ⟨h1, h2, h3, h4, h5, h6, h7, h8, h9⟩
  rw [deriveOverlay_default p frame hd] at h
  rw [overlayIds_default p frame hd]
  exact deriveDefault_ids p frame o h

end ChartsAnimatedChart

/-! ## Which keys are present -/

namespace ChartsAnimatedChart

theorem mem_markerIds (p : Props) (frame : Nat) (id : AnnotationId) :
    id ∈ markerIds p frame ↔
      p.showAttackRegion = true ∧ ∃ a b, attackBounds p = some (a, b) ∧ (frame : Int) > a ∧
        (id = AnnotationId.attackStart ∨ (id = AnnotationId.attackEnd ∧ (frame : Int) > b)) := by
  unfold markerIds
  by_cases hs : p.showAttackRegion = true
  · simp only [hs, if_true, true_and]
    cases hb : attackBounds p with
    | none => simp
    | some bounds =>
      obtain ⟨a, b⟩ := bounds
      simp only [Option.some.injEq, Prod.mk.injEq]
      by_cases ha : (frame : Int) > a
      · by_cases hb2 : (frame : Int) > b
        · simp only [ha, hb2, if_true]
          constructor
          · intro h
            simp only [List.mem_cons, List.mem_singleton, List.not_mem_nil, or_false] at h
            exact ⟨a, b, ⟨rfl, rfl⟩, ha, h.imp (fun h => h) (fun h => ⟨h, hb2⟩)⟩
          · rintro ⟨a', b', ⟨rfl, rfl⟩, _, h⟩
            simp only [List.mem_cons, List.mem_singleton, List.not_mem_nil, or_false]
            exact h.imp (fun h => h) (fun h => h.1)
        · simp only [ha, hb2, if_true, if_false]
          constructor
          · intro h
            simp only [List.mem_singleton] at h
            exact ⟨a, b, ⟨rfl, rfl⟩, ha, Or.inl h⟩
          · rintro ⟨a', b', ⟨rfl, rfl⟩, _, h⟩
            simp only [List.mem_singleton]
            rcases h with h | ⟨_, h⟩
            · exact h
            · exact absurd h hb2
      · simp only [ha, if_false, List.not_mem_nil, false_iff]
        rintro ⟨a', b', ⟨rfl, rfl⟩, h, _⟩
        exact ha h
  · simp [hs]

theorem mem_ewsIdsFrom (frame : Nat) (id : AnnotationId) :
    ∀ (l : List Int) (i : Nat),
      id ∈ ewsIdsFrom frame i l ↔
        ∃ (k : Nat) (idx : Int), l[k]? = some idx ∧ (frame : Int) > idx ∧
          id = AnnotationId.ews (i + k) := by
  intro l
  induction l with
  | nil => intro i; simp [ewsIdsFrom]
  | cons a rest ih =>
    intro i
    simp only [ewsIdsFrom]
    constructor
    · intro h
      have h' : (id = AnnotationId.ews i ∧ (frame : Int) > a) ∨
          id ∈ ewsIdsFrom frame (i + 1) rest := by
        split_ifs at h with hf
        · rcases List.mem_cons.mp h with h | h
          · exact Or.inl ⟨h, hf⟩
          · exact Or.inr h
        · exact Or.inr h
      rcases h' with ⟨h1, h2⟩ | h
      · exact ⟨0, a, by simp, h2, by simpa using h1⟩
      · obtain ⟨k, idx, hk, hf, hid⟩ := (ih (i + 1)).mp h
        exact ⟨k + 1, idx, by simpa using hk, hf, by rw [hid]; congr 1; omega⟩
    · rintro ⟨k, idx, hk, hf, hid⟩
      cases k with
      | zero =>
        simp only [List.getElem?_cons_zero, Option.some.injEq] at hk
        subst hk
        simp only [hf, if_true, Nat.add_zero] at hid ⊢
        exact List.mem_cons.mpr (Or.inl hid)
      | succ k =>
        simp only [List.getElem?_cons_succ] at hk
        have : id ∈ ewsIdsFrom frame (i + 1) rest :=
          (ih (i + 1)).mpr ⟨k, idx, hk, hf, by rw [hid]; congr 1; omega⟩
        split_ifs
        · exact List.mem_cons_of_mem _ this
        · exact this

theorem mem_ewsLevelIdsFrom (frame level : Nat) (id : AnnotationId) :
    ∀ (l : List Int) (i : Nat),
      id ∈ ewsLevelIdsFrom frame level i l ↔
        ∃ (k : Nat) (idx : Int), l[k]? = some idx ∧ (frame : Int) > idx ∧
          id = AnnotationId.ewsLevel level (i + k) := by
  intro l
  induction l with
  | nil => intro i; simp [ewsLevelIdsFrom]
  | cons a rest ih =>
    intro i
    simp only [ewsLevelIdsFrom]
    constructor
    · intro h
      have h' : (id = AnnotationId.ewsLevel level i ∧ (frame : Int) > a) ∨
          id ∈ ewsLevelIdsFrom frame level (i + 1) rest := by
        split_ifs at h with hf
        · rcases List.mem_cons.mp h with h | h
          · exact Or.inl ⟨h, hf⟩
          · exact Or.inr h
        · exact Or.inr h
      rcases h' with ⟨h1, h2⟩ | h
      · exact ⟨0, a, by simp, h2, by simpa using h1⟩
      · obtain ⟨k, idx, hk, hf, hid⟩ := (ih (i + 1)).mp h
        exact ⟨k + 1, idx, by simpa using hk, hf, by rw [hid]; congr 1; omega⟩
    · rintro ⟨k, idx, hk, hf, hid⟩
      cases k with
      | zero =>
        simp only [List.getElem?_cons_zero, Option.some.injEq] at hk
        subst hk
        simp only [hf, if_true, Nat.add_zero] at hid ⊢
        exact List.mem_cons.mpr (Or.inl hid)
      | succ k =>
        simp only [List.getElem?_cons_succ] at hk
        have : id ∈ ewsLevelIdsFrom frame level (i + 1) rest :=
          (ih (i + 1)).mpr ⟨k, idx, hk, hf, by rw [hid]; congr 1; omega⟩
        split_ifs
        · exact List.mem_cons_of_mem _ this
        · exact this

theorem mem_ewsLevelIdsOver (frame : Nat) (id : AnnotationId) :
    ∀ (entries : List (Nat × List Int)),
      id ∈ ewsLevelIdsOver frame entries ↔
        ∃ entry ∈ entries, ∃ (k : Nat) (idx : Int), entry.2[k]? = some idx ∧
          (frame : Int) > idx ∧ id = AnnotationId.ewsLevel entry.1 k := by
  intro entries
  induction entries with
  | nil => simp [ewsLevelIdsOver]
  | cons entry rest ih =>
    simp only [ewsLevelIdsOver, List.mem_append, ih, mem_ewsLevelIdsFrom, Nat.zero_add,
      List.mem_cons, exists_eq_or_imp]

theorem mem_iff_lookup_of_nodup {β : Type} :
    ∀ (l : List (Nat × β)), (l.map Prod.fst).Nodup → ∀ (k : Nat) (v : β),
      ((k, v) ∈ l ↔ l.lookup k = some v) := by
  intro l
  induction l with
  | nil => intro _ k v; simp [List.lookup]
  | cons e rest ih =>
    intro hnd k v
    obtain ⟨k', v'⟩ := e
    simp only [List.map_cons, List.nodup_cons] at hnd
    simp only [List.mem_cons, Prod.mk.injEq, List.lookup]
    by_cases hk : k = k'
    · subst hk
      simp only [beq_self_eq_true, true_and, Option.some.injEq]
      constructor
      · rintro (h | h)
        · exact h.symm
        · exact absurd (List.mem_map_of_mem Prod.fst h) hnd.1
      · intro h; exact Or.inl h.symm
    · have hb : (k == k') = false := by simpa using hk
      simp only [hk, false_and, false_or, hb]
      exact ih hnd.2 k v

theorem ewsEntries_nodup (ews_alerts : EwsAlerts) :
    ((ewsEntries ews_alerts).map Prod.fst).Nodup := by
  unfold ewsEntries
  cases ews_alerts.level1 <;> cases ews_alerts.level2 <;> cases ews_alerts.level3 <;>
    cases ews_alerts.level4 <;> simp

/-- The levels that `Object.entries` lists are distinct, so an entry is what
`levelIndices` finds under its level. -/
theorem mem_ewsEntries (ews_alerts : EwsAlerts) (level : Nat) (indices : List Int) :
    (level, indices) ∈ ewsEntries ews_alerts ↔
      (ewsEntries ews_alerts).lookup level = some indices :=
  mem_iff_lookup_of_nodup _ (ewsEntries_nodup ews_alerts) level indices

end ChartsAnimatedChart

namespace ChartsAnimatedChart

theorem mem_peakStartIds (p : Props) (frame : Nat) (id : AnnotationId) :
    id ∈ peakStartIds p frame ↔
      id = AnnotationId.attackStart ∧ ∃ idx, firstAttackIdx p = some idx ∧ (frame : Int) > idx := by
  unfold peakStartIds
  cases firstAttackIdx p with
  | none => simp
  | some idx => by_cases hf : (frame : Int) > idx <;> simp [hf]

theorem mem_peakLabelIds (p : Props) (frame : Nat) (id : AnnotationId) :
    id ∈ peakLabelIds p frame ↔
      id = AnnotationId.peakLabel ∧ p.showAttackRegion = true ∧ (attackBounds p).isSome = true ∧
        (attackRows p.data frame).length > 0 := by
  unfold peakLabelIds
  split_ifs with h
  · simp only [Bool.and_eq_true, decide_eq_true_eq] at h
    simp [h.1.1, h.1.2, h.2]
  · simp only [Bool.and_eq_true, decide_eq_true_eq] at h
    simp only [List.not_mem_nil, false_iff]
    rintro ⟨_, h1, h2, h3⟩
    exact h ⟨⟨h1, h2⟩, h3⟩

theorem mem_ewsIds (p : Props) (frame : Nat) (id : AnnotationId) :
    id ∈ ewsIds p frame ↔
      p.showEWS = true ∧ ∃ (level4 : List Int) (k : Nat) (idx : Int), level4Alerts p = some level4 ∧
        (level4.take 3)[k]? = some idx ∧ (frame : Int) > idx ∧ id = AnnotationId.ews k := by
  unfold ewsIds
  by_cases hs : p.showEWS = true
  · simp only [hs, if_true, true_and]
    cases hl : level4Alerts p with
    | none => simp
    | some level4 => simp [mem_ewsIdsFrom]
  · simp [hs]

theorem mem_ewsLevelIds (p : Props) (frame : Nat) (id : AnnotationId) :
    id ∈ ewsLevelIds p frame ↔
      p.showEWS = true ∧ ∃ (level : Nat) (indices : List Int) (k : Nat) (idx : Int),
        levelIndices p level = some indices ∧ indices[k]? = some idx ∧ (frame : Int) > idx ∧
          id = AnnotationId.ewsLevel level k := by
  unfold ewsLevelIds levelIndices
  by_cases hs : p.showEWS = true
  · simp only [hs, if_true, true_and]
    cases hpd : p.plotData with
    | none => simp
    | some plotData =>
      simp only
      cases hea : plotData.ews_alerts with
      | none => simp
      | some ews_alerts =>
        simp only [mem_ewsLevelIdsOver]
        constructor
        · rintro ⟨entry, hmem, k, idx, hk, hf, hid⟩
          exact ⟨entry.1, entry.2, k, idx, (mem_ewsEntries _ _ _).mp hmem, hk, hf, hid⟩
        · rintro ⟨level, indices, k, idx, hl, hk, hf, hid⟩
          exact ⟨(level, indices), (mem_ewsEntries _ _ _).mpr hl, k, idx, hk, hf, hid⟩
  · simp [hs]

theorem drawsAttackRegion_peak : drawsAttackRegion "peak-region" = false := by decide

theorem shown_attackStart (p : Props) (frame : Nat) :
    annotationShown p frame AnnotationId.attackStart = true ↔
      (p.chartType = "peak-region" ∧ (attackRows p.data frame).length > 0 ∧
        ∃ idx, firstAttackIdx p = some idx ∧ idx ≠ -1 ∧ (frame : Int) > idx) ∨
      (p.chartType ≠ "peak-region" ∧ drawsAttackRegion p.chartType = true ∧
        p.showAttackRegion = true ∧
        ∃ a b, attackBounds p = some (a, b) ∧ (frame : Int) > a) := by
  unfold annotationShown annotationIndex
  by_cases hp : p.chartType = "peak-region"
  · simp only [hp, if_true, ne_eq, not_true_eq_false, false_and, or_false, true_and]
    cases hfa : firstAttackIdx p with
    | none => simp
    | some idx =>
      by_cases h1 : idx = -1
      · simp [h1]
      · simp [h1]
        tauto
  · simp only [hp, if_false, ne_eq, not_false_eq_true, true_and, false_and, false_or]
    by_cases hd : (drawsAttackRegion p.chartType && p.showAttackRegion) = true
    · simp only [hd, if_true]
      simp only [Bool.and_eq_true] at hd
      cases hb : attackBounds p with
      | none => simp
      | some bounds => obtain ⟨a, b⟩ := bounds; simp [hd.1, hd.2, hp]
    · rw [if_neg hd]
      simp only [Bool.and_eq_true, not_and] at hd
      simp only [Bool.false_eq_true, false_iff, not_and]
      intro h1 h2
      exact absurd h2 (hd h1)

theorem shown_attackEnd (p : Props) (frame : Nat) :
    annotationShown p frame AnnotationId.attackEnd = true ↔
      drawsAttackRegion p.chartType = true ∧ p.showAttackRegion = true ∧
        ∃ a b, attackBounds p = some (a, b) ∧ (frame : Int) > a ∧ (frame : Int) > b := by
  unfold annotationShown annotationIndex
  by_cases hd : (drawsAttackRegion p.chartType && p.showAttackRegion) = true
  · have hp : p.chartType ≠ "peak-region" := by
      intro hp
      rw [hp, drawsAttackRegion_peak] at hd
      simp at hd
    simp only [hd, hp, if_true, if_false]
    simp only [Bool.and_eq_true] at hd
    cases hb : attackBounds p with
    | none => simp
    | some bounds =>
      obtain ⟨a', b'⟩ := bounds
      simp only [hd.1, hd.2, Option.map_some', true_and, Bool.and_eq_true, decide_eq_true_eq,
        Option.some.injEq, Prod.mk.injEq]
      constructor
      · intro h; exact ⟨a', b', ⟨rfl, rfl⟩, h⟩
      · rintro ⟨a, b, ⟨rfl, rfl⟩, h⟩; exact h
  · simp only [hd]
    simp only [Bool.and_eq_true, not_and] at hd
    have : ¬ (drawsAttackRegion p.chartType = true ∧ p.showAttackRegion = true ∧
        ∃ a b, attackBounds p = some (a, b) ∧ (frame : Int) > a ∧ (frame : Int) > b) :=
      fun h => hd h.1 h.2.1
    simp only [this, iff_false]
    split <;> simp_all

theorem shown_ews (p : Props) (frame i : Nat) :
    annotationShown p frame (AnnotationId.ews i) = true ↔
      p.chartType = "flow-with-ews" ∧ p.showEWS = true ∧
        ∃ level4 idx, level4Alerts p = some level4 ∧ (level4.take 3)[i]? = some idx ∧
          (frame : Int) > idx := by
  unfold annotationShown annotationIndex
  by_cases hc : p.chartType = "flow-with-ews" ∧ p.showEWS = true
  · simp only [hc, and_self, if_true, true_and]
    cases hl : level4Alerts p with
    | none => simp
    | some level4 =>
      cases hi : (level4.take 3)[i]? with
      | none => simp [hi]
      | some idx => simp [hi]
  · simp only [hc, if_false]
    simp only [Bool.false_eq_true, false_iff]
    rintro ⟨h1, h2, _⟩
    exact hc ⟨h1, h2⟩

theorem shown_ewsLevel (p : Props) (frame level i : Nat) :
    annotationShown p frame (AnnotationId.ewsLevel level i) = true ↔
      isDefaultCase p.chartType = true ∧ p.showEWS = true ∧
        ∃ indices idx, levelIndices p level = some indices ∧ indices[i]? = some idx ∧
          (frame : Int) > idx := by
  simp only [annotationShown, annotationIndex]
  by_cases hc : (isDefaultCase p.chartType && p.showEWS) = true
  · simp only [hc, if_true]
    simp only [Bool.and_eq_true] at hc
    simp only [hc.1, hc.2, true_and]
    cases hl : levelIndices p level with
    | none => simp
    | some indices =>
      cases hi : indices[i]? with
      | none => simp [hi]
      | some idx => simp [hi]
  · rw [if_neg hc]
    simp only [Bool.and_eq_true, not_and] at hc
    simp only [Bool.false_eq_true, false_iff]
    rintro ⟨h1, h2, _⟩
    exact hc h1 h2

theorem shown_peakPoint (p : Props) (frame : Nat) :
    annotationShown p frame AnnotationId.peakPoint = true ↔
      p.chartType = "peak-region" ∧ firstAttackIdx p ≠ some (-1) ∧
        (attackRows p.data frame).length > 0 := by
  simp [annotationShown, and_assoc]

theorem shown_peakLabel (p : Props) (frame : Nat) :
    annotationShown p frame AnnotationId.peakLabel = true ↔
      p.chartType = "flow-with-ews" ∧ p.showAttackRegion = true ∧
        (attackBounds p).isSome = true ∧ (attackRows p.data frame).length > 0 := by
  simp [annotationShown, and_assoc]

end ChartsAnimatedChart

namespace ChartsAnimatedChart

theorem shown_iff (p : Props) (frame : Nat) (id : AnnotationId) :
    annotationShown p frame id = true ↔
      (id = AnnotationId.attackStart ∧
        ((p.chartType = "peak-region" ∧ (attackRows p.data frame).length > 0 ∧
            ∃ idx, firstAttackIdx p = some idx ∧ idx ≠ -1 ∧ (frame : Int) > idx) ∨
          (p.chartType ≠ "peak-region" ∧ drawsAttackRegion p.chartType = true ∧
            p.showAttackRegion = true ∧
            ∃ a b, attackBounds p = some (a, b) ∧ (frame : Int) > a))) ∨
      (id = AnnotationId.attackEnd ∧ drawsAttackRegion p.chartType = true ∧
        p.showAttackRegion = true ∧
        ∃ a b, attackBounds p = some (a, b) ∧ (frame : Int) > a ∧ (frame : Int) > b) ∨
      (id = AnnotationId.peakPoint ∧ p.chartType = "peak-region" ∧
        firstAttackIdx p ≠ some (-1) ∧ (attackRows p.data frame).length > 0) ∨
      (id = AnnotationId.peakLabel ∧ p.chartType = "flow-with-ews" ∧
        p.showAttackRegion = true ∧ (attackBounds p).isSome = true ∧
        (attackRows p.data frame).length > 0) ∨
      (∃ i, id = AnnotationId.ews i ∧ p.chartType = "flow-with-ews" ∧ p.showEWS = true ∧
        ∃ level4 idx, level4Alerts p = some level4 ∧ (level4.take 3)[i]? = some idx ∧
          (frame : Int) > idx) ∨
      (∃ level i, id = AnnotationId.ewsLevel level i ∧ isDefaultCase p.chartType = true ∧
        p.showEWS = true ∧
        ∃ indices idx, levelIndices p level = some indices ∧ indices[i]? = some idx ∧
          (frame : Int) > idx) := by
  cases id with
  | attackStart => rw [shown_attackStart]; simp
  | attackEnd => rw [shown_attackEnd]; simp
  | peakPoint => rw [shown_peakPoint]; simp
  | peakLabel => rw [shown_peakLabel]; simp
  | ews i => rw [shown_ews]; simp
  | ewsLevel level i =>
    rw [shown_ewsLevel]
    simp only [reduceCtorEq, false_and, exists_false, or_false, false_or, AnnotationId.ewsLevel.injEq]
    constructor
    · intro h; exact ⟨level, i, ⟨rfl, rfl⟩, h⟩
    · rintro ⟨_, _, ⟨rfl, rfl⟩, h⟩; exact h

theorem mem_overlayIds_plain (p : Props) (frame : Nat) (id : AnnotationId)
    (h : p.chartType = "benign-attack" ∨ p.chartType = "derivative" ∨
      p.chartType = "early-warnings" ∨ p.chartType = "ews-confusion" ∨
      p.chartType = "emergency-alerts") :
    id ∈ overlayIds p frame ↔ annotationShown p frame id = true := by
  rw [shown_iff]
  rcases h with h | h | h | h | h <;>
    simp [overlayIds, drawsAttackRegion, isDefaultCase, namedCases, h]

theorem markers_iff (p : Props) (frame : Nat) (id : AnnotationId) :
    (p.showAttackRegion = true ∧ ∃ a b, attackBounds p = some (a, b) ∧ (frame : Int) > a ∧
        (id = AnnotationId.attackStart ∨ (id = AnnotationId.attackEnd ∧ (frame : Int) > b))) ↔
      ((id = AnnotationId.attackStart ∧ p.showAttackRegion = true ∧
          ∃ a b, attackBounds p = some (a, b) ∧ (frame : Int) > a) ∨
        (id = AnnotationId.attackEnd ∧ p.showAttackRegion = true ∧
          ∃ a b, attackBounds p = some (a, b) ∧ (frame : Int) > a ∧ (frame : Int) > b)) := by
  constructor
  · rintro ⟨hs, a, b, hb, ha, h | ⟨h, hb2⟩⟩
    · exact Or.inl ⟨h, hs, a, b, hb, ha⟩
    · exact Or.inr ⟨h, hs, a, b, hb, ha, hb2⟩
  · rintro (⟨h, hs, a, b, hb, ha⟩ | ⟨h, hs, a, b, hb, ha, hb2⟩)
    · exact ⟨hs, a, b, hb, ha, Or.inl h⟩
    · exact ⟨hs, a, b, hb, ha, Or.inr ⟨h, hb2⟩⟩

theorem mem_overlayIds_markers (p : Props) (frame : Nat) (id : AnnotationId)
    (h : p.chartType = "alerts" ∨ p.chartType = "alert-levels-separately") :
    id ∈ overlayIds p frame ↔ annotationShown p frame id = true := by
  rw [shown_iff]
  have hm := markers_iff p frame id
  have hdr : drawsAttackRegion p.chartType = true := by
    rcases h with h | h <;> rw [h] <;> decide
  have hdf : isDefaultCase p.chartType = false := by
    rcases h with h | h <;> rw [h] <;> decide
  have hpk : p.chartType ≠ "peak-region" := by
    rcases h with h | h <;> rw [h] <;> decide
  have hfl : p.chartType ≠ "flow-with-ews" := by
    rcases h with h | h <;> rw [h] <;> decide
  have hids : overlayIds p frame = markerIds p frame := by
    rcases h with h | h <;> simp [overlayIds, h]
  rw [hids]
  simp only [hdr, hdf, hpk, hfl, mem_markerIds, false_and, and_false, or_false, false_or,
    exists_false, ne_eq, not_false_eq_true, true_and, Bool.false_eq_true, exists_const]
  exact hm

theorem mem_overlayIds_peak (p : Props) (frame : Nat) (id : AnnotationId)
    (h : p.chartType = "peak-region") :
    id ∈ overlayIds p frame ↔ annotationShown p frame id = true := by
  rw [shown_iff]
  have hdr : drawsAttackRegion p.chartType = false := by rw [h]; decide
  have hdf : isDefaultCase p.chartType = false := by rw [h]; decide
  have hfl : p.chartType ≠ "flow-with-ews" := by rw [h]; decide
  have hids : overlayIds p frame =
      if (firstAttackIdx p != some (-1) && decide ((attackRows p.data frame).length > 0)) = true
      then peakStartIds p frame ++ [AnnotationId.peakPoint] else [] := by
    simp [overlayIds, h]
  rw [hids]
  simp only [hdr, hdf, hfl, false_and, and_false, or_false, false_or, exists_false, ne_eq,
    Bool.false_eq_true, exists_const]
  simp only [h, not_true_eq_false, true_and, false_and, or_false]
  by_cases hc : (firstAttackIdx p != some (-1) &&
      decide ((attackRows p.data frame).length > 0)) = true
  · rw [if_pos hc]
    simp only [List.mem_append, mem_peakStartIds, List.mem_singleton]
    simp only [Bool.and_eq_true, bne_iff_ne, ne_eq, decide_eq_true_eq] at hc
    constructor
    · rintro (⟨h1, idx, h2, h3⟩ | h1)
      · refine Or.inl ⟨h1, hc.2, idx, h2, ?_, h3⟩
        intro hneg
        rw [hneg] at h2
        exact hc.1 h2
      · exact Or.inr ⟨h1, hc.1, hc.2⟩
    · rintro (⟨h1, _, idx, h2, _, h3⟩ | ⟨h1, _, _⟩)
      · exact Or.inl ⟨h1, idx, h2, h3⟩
      · exact Or.inr h1
  · rw [if_neg hc]
    simp only [Bool.and_eq_true, bne_iff_ne, ne_eq, decide_eq_true_eq, not_and] at hc
    simp only [List.not_mem_nil, false_iff]
    rintro (⟨_, h2, idx, h3, h4, _⟩ | ⟨_, h2, h3⟩)
    · exact hc (by rw [h3]; simpa using h4) h2
    · exact hc h2 h3

theorem mem_overlayIds_flow (p : Props) (frame : Nat) (id : AnnotationId)
    (h : p.chartType = "flow-with-ews") :
    id ∈ overlayIds p frame ↔ annotationShown p frame id = true := by
  rw [shown_iff]
  have hm := markers_iff p frame id
  have hdr : drawsAttackRegion p.chartType = true := by rw [h]; decide
  have hdf : isDefaultCase p.chartType = false := by rw [h]; decide
  have hpk : p.chartType ≠ "peak-region" := by rw [h]; decide
  have hids : overlayIds p frame = markerIds p frame ++ peakLabelIds p frame ++ ewsIds p frame := by
    simp [overlayIds, h]
  rw [hids]
  simp only [hdr, hdf, hpk, false_and, and_false, or_false, false_or, exists_false, ne_eq,
    not_false_eq_true, true_and, List.mem_append, mem_markerIds, mem_peakLabelIds, mem_ewsIds,
    hm, Bool.false_eq_true, exists_const]
  simp only [h, true_and]
  constructor
  · rintro ((h1 | h1) | h1)
    · exact h1.imp (fun h => h) Or.inl
    · exact Or.inr (Or.inr (Or.inl h1))
    · obtain ⟨hs, level4, k, idx, hl, hk, hf, hid⟩ := h1
      exact Or.inr (Or.inr (Or.inr ⟨k, hid, hs, level4, idx, hl, hk, hf⟩))
  · rintro (h1 | h1 | h1 | ⟨k, hid, hs, level4, idx, hl, hk, hf⟩)
    · exact Or.inl (Or.inl (Or.inl h1))
    · exact Or.inl (Or.inl (Or.inr h1))
    · exact Or.inl (Or.inr h1)
    · exact Or.inr ⟨hs, level4, k, idx, hl, hk, hf, hid⟩

theorem mem_overlayIds_default (p : Props) (frame : Nat) (id : AnnotationId)
    (hd : isDefaultCase p.chartType = true) :
    id ∈ overlayIds p frame ↔ annotationShown p frame id = true := by
  rw [shown_iff, overlayIds_default p frame hd]
  have hm := markers_iff p frame id
  obtain ⟨_, _, h3, _, _, _, h7, _, _⟩ := (isDefaultCase_iff _).mp hd
  have hdr : drawsAttackRegion p.chartType = true := by simp [drawsAttackRegion, hd]
  simp only [hd, hdr, h3, h7, false_and, and_false, or_false, false_or, exists_false, ne_eq,
    not_false_eq_true, true_and, List.mem_append, mem_markerIds, mem_ewsLevelIds, hm]
  constructor
  · rintro ((h1 | h1) | ⟨hs, level, indices, k, idx, hl, hk, hf, hid⟩)
    · exact Or.inl h1
    · exact Or.inr (Or.inl h1)
    · exact Or.inr (Or.inr ⟨level, k, hid, hs, indices, idx, hl, hk, hf⟩)
  · rintro (h1 | h1 | ⟨level, k, hid, hs, indices, idx, hl, hk, hf⟩)
    · exact Or.inl (Or.inl h1)
    · exact Or.inl (Or.inr h1)
    · exact Or.inr ⟨hs, level, indices, k, idx, hl, hk, hf, hid⟩

/-- A key is among the keys of the overlay exactly when the rule of the
specification shows its annotation. -/
theorem mem_overlayIds_iff (p : Props) (frame : Nat) (id : AnnotationId) :
    id ∈ overlayIds p frame ↔ annotationShown p frame id = true := by
  by_cases h1 : p.chartType = "benign-attack"
  · exact mem_overlayIds_plain p frame id (Or.inl h1)
  by_cases h2 : p.chartType = "derivative"
  · exact mem_overlayIds_plain p frame id (Or.inr (Or.inl h2))
  by_cases h4 : p.chartType = "early-warnings"
  · exact mem_overlayIds_plain p frame id (Or.inr (Or.inr (Or.inl h4)))
  by_cases h5 : p.chartType = "ews-confusion"
  · exact mem_overlayIds_plain p frame id (Or.inr (Or.inr (Or.inr (Or.inl h5))))
  by_cases h9 : p.chartType = "emergency-alerts"
  · exact mem_overlayIds_plain p frame id (Or.inr (Or.inr (Or.inr (Or.inr h9))))
  by_cases h6 : p.chartType = "alerts"
  · exact mem_overlayIds_markers p frame id (Or.inl h6)
  by_cases h8 : p.chartType = "alert-levels-separately"
  · exact mem_overlayIds_markers p frame id (Or.inr h8)
  by_cases h3 : p.chartType = "peak-region"
  · exact mem_overlayIds_peak p frame id h3
  by_cases h7 : p.chartType = "flow-with-ews"
  · exact mem_overlayIds_flow p frame id h7
  exact mem_overlayIds_default p frame id
    ((isDefaultCase_iff _).mpr ⟨h1, h2, h3, h4, h5, h6, h7, h8, h9⟩)

end ChartsAnimatedChart

/-! ## Presence, monotone reveal and success of the derivation -/

namespace ChartsAnimatedChart

/-- In a derived overlay an annotation is present exactly when the rule of the
specification shows it. -/
theorem annotation_present_iff (p : Props) (frame : Nat) (o : Overlay) (id : AnnotationId)
    (h : deriveOverlay p frame = some o) :
    id ∈ o.ids ↔ annotationShown p frame id = true := by
  rw [deriveOverlay_ids p frame o h]
  exact mem_overlayIds_iff p frame id

/-- An annotation that depends on an index is not shown before `frame` has
passed the index. -/
theorem shown_imp_passed (p : Props) (frame : Nat) (id : AnnotationId) (idx : Int)
    (hi : annotationIndex p id = some idx) (h : annotationShown p frame id = true) :
    (frame : Int) > idx := by
  cases id with
  | attackStart =>
    simp only [annotationShown, hi, Bool.and_eq_true, decide_eq_true_eq] at h
    exact h.1
  | attackEnd =>
    simp only [annotationShown, hi] at h
    split at h
    · rename_i first last h1 h2
      cases h2
      simp only [Bool.and_eq_true, decide_eq_true_eq] at h
      exact h.2
    · cases h
  | ews i =>
    simp only [annotationShown, hi, decide_eq_true_eq] at h
    exact h
  | ewsLevel level i =>
    simp only [annotationShown, hi, decide_eq_true_eq] at h
    exact h
  | peakPoint => simp [annotationIndex] at hi
  | peakLabel => simp [annotationIndex] at hi

/-- The rule is monotone in the frame. -/
theorem shown_mono (p : Props) (f g : Nat) (id : AnnotationId) (hfg : f ≤ g)
    (h : annotationShown p f id = true) : annotationShown p g id = true := by
  have hcast : (f : Int) ≤ (g : Int) := by exact_mod_cast hfg
  have hrows : (attackRows p.data f).length > 0 → (attackRows p.data g).length > 0 :=
    attackRows_mono p.data f g hfg
  rw [shown_iff] at h ⊢
  rcases h with ⟨h1, h2⟩ | ⟨h1, h2, h3, a, b, h4, h5, h6⟩ | ⟨h1, h2, h3, h4⟩ |
    ⟨h1, h2, h3, h4, h5⟩ | ⟨i, h1, h2, h3, l, idx, h4, h5, h6⟩ |
    ⟨level, i, h1, h2, h3, l, idx, h4, h5, h6⟩
  · refine Or.inl ⟨h1, ?_⟩
    rcases h2 with ⟨h2, h3, idx, h4, h5, h6⟩ | ⟨h2, h3, h4, a, b, h5, h6⟩
    · exact Or.inl ⟨h2, hrows h3, idx, h4, h5, by omega⟩
    · exact Or.inr ⟨h2, h3, h4, a, b, h5, by omega⟩
  · exact Or.inr (Or.inl ⟨h1, h2, h3, a, b, h4, by omega, by omega⟩)
  · exact Or.inr (Or.inr (Or.inl ⟨h1, h2, h3, hrows h4⟩))
  · exact Or.inr (Or.inr (Or.inr (Or.inl ⟨h1, h2, h3, h4, hrows h5⟩)))
  · exact Or.inr (Or.inr (Or.inr (Or.inr (Or.inl ⟨i, h1, h2, h3, l, idx, h4, h5, by omega⟩))))
  · exact Or.inr (Or.inr (Or.inr (Or.inr (Or.inr
      ⟨level, i, h1, h2, h3, l, idx, h4, h5, by omega⟩))))

theorem levelIndices_four (p : Props) (level4 : List Int) (h : level4Alerts p = some level4) :
    levelIndices p 4 = some level4 := by
  unfold level4Alerts at h
  unfold levelIndices
  cases hpd : p.plotData with
  | none => simp [hpd] at h
  | some plotData =>
    simp only [hpd] at h ⊢
    cases hea : plotData.ews_alerts with
    | none => simp [hea] at h
    | some ews_alerts =>
      simp only [hea] at h ⊢
      apply (mem_ewsEntries _ _ _).mp
      unfold ewsEntries
      simp [h]

theorem attackRegionMarkers_isSome (p : Props) (d : List Row) (frame : Nat) (s t : String)
    (hd : p.data = some d) (hf : frame ≤ d.length)
    (hidx : ∀ bounds, attackBounds p = some bounds → 0 ≤ bounds.1 ∧ 0 ≤ bounds.2) :
    ∃ m, attackRegionMarkers p frame s t = some m := by
  unfold attackRegionMarkers
  by_cases hs : p.showAttackRegion = true
  · simp only [hs, if_true]
    cases hb : attackBounds p with
    | none => exact ⟨_, rfl⟩
    | some bounds =>
      obtain ⟨a, b⟩ := bounds
      have hab := hidx (a, b) hb
      simp only
      by_cases ha : (frame : Int) > a
      · obtain ⟨r, hr, _⟩ := rowAt_some_of_lt d a frame hab.1 ha hf
        simp only [ha, if_true, hd, hr]
        by_cases hb2 : (frame : Int) > b
        · obtain ⟨r2, hr2, _⟩ := rowAt_some_of_lt d b frame hab.2 hb2 hf
          simp only [hb2, if_true, hr2]
          exact ⟨_, rfl⟩
        · simp only [hb2, if_false]
          exact ⟨_, rfl⟩
      · simp only [ha, if_false]
        exact ⟨_, rfl⟩
  · simp only [hs]
    exact ⟨_, rfl⟩

theorem ewsMarkerLoop_isSome (p : Props) (d : List Row) (frame : Nat)
    (hd : p.data = some d) (hf : frame ≤ d.length) (hsec : NumericSeconds d) :
    ∀ (l : List Int) (i : Nat), (∀ idx ∈ l, 0 ≤ idx) → ∃ x, ewsMarkerLoop p frame i l = some x := by
  intro l
  induction l with
  | nil => intro i _; exact ⟨_, rfl⟩
  | cons idx rest ih =>
    intro i hnn
    obtain ⟨more, hmore⟩ := ih (i + 1) (fun j hj => hnn j (List.mem_cons_of_mem _ hj))
    simp only [ewsMarkerLoop]
    by_cases hfi : (frame : Int) > idx
    · obtain ⟨r, hr, hmem⟩ := rowAt_some_of_lt d idx frame (hnn idx (List.mem_cons_self _ _)) hfi hf
      obtain ⟨sec, hsec'⟩ := hsec r hmem
      simp only [hfi, if_true, hd, hr, hsec', hmore]
      exact ⟨_, rfl⟩
    · simp only [hfi, if_false]
      exact ⟨more, hmore⟩

theorem ewsPointLoop_isSome (p : Props) (d : List Row) (frame level : Nat)
    (hd : p.data = some d) (hf : frame ≤ d.length) :
    ∀ (l : List Int) (i : Nat), (∀ idx ∈ l, 0 ≤ idx) →
      ∃ x, ewsPointLoop p frame level i l = some x := by
  intro l
  induction l with
  | nil => intro i _; exact ⟨_, rfl⟩
  | cons idx rest ih =>
    intro i hnn
    obtain ⟨more, hmore⟩ := ih (i + 1) (fun j hj => hnn j (List.mem_cons_of_mem _ hj))
    simp only [ewsPointLoop]
    by_cases hfi : (frame : Int) > idx
    · obtain ⟨r, hr, _⟩ := rowAt_some_of_lt d idx frame (hnn idx (List.mem_cons_self _ _)) hfi hf
      simp only [hfi, if_true, hd, hr, hmore]
      exact ⟨_, rfl⟩
    · simp only [hfi, if_false]
      exact ⟨more, hmore⟩

theorem ewsPointsOver_isSome (p : Props) (d : List Row) (frame : Nat)
    (hd : p.data = some d) (hf : frame ≤ d.length) :
    ∀ (entries : List (Nat × List Int)), (∀ entry ∈ entries, ∀ idx ∈ entry.2, 0 ≤ idx) →
      ∃ x, ewsPointsOver p frame entries = some x := by
  intro entries
  induction entries with
  | nil => intro _; exact ⟨_, rfl⟩
  | cons entry rest ih =>
    intro hnn
    obtain ⟨more, hmore⟩ := ih (fun e he => hnn e (List.mem_cons_of_mem _ he))
    obtain ⟨pts, hpts⟩ := ewsPointLoop_isSome p d frame entry.1 hd hf entry.2 0
      (hnn entry (List.mem_cons_self _ _))
    simp only [ewsPointsOver, hpts, hmore]
    exact ⟨_, rfl⟩

end ChartsAnimatedChart

namespace ChartsAnimatedChart

theorem visiblePeak_mem (p : Props) (d : List Row) (frame : Nat) (r : Row)
    (hd : p.data = some d) (h : visiblePeak p frame = some r) : r ∈ d := by
  rw [visiblePeak_eq] at h
  have hmem : r ∈ attackRows p.data frame := List.getElem?_mem h
  have hslice : r ∈ slice p.data frame := (List.mem_filter.mp hmem).1
  rw [hd, slice_some] at hslice
  exact List.mem_of_mem_take hslice

theorem derivePeakRegion_isSome (p : Props) (d : List Row) (frame : Nat)
    (hd : p.data = some d) (hf : frame ≤ d.length)
    (hidx : ∀ idx, firstAttackIdx p = some idx → idx = -1 ∨ 0 ≤ idx) :
    ∃ o, derivePeakRegion p frame = some o := by
  unfold derivePeakRegion
  by_cases hc : (firstAttackIdx p != some (-1) &&
      decide ((attackRows p.data frame).length > 0)) = true
  · rw [if_pos hc]
    simp only [Bool.and_eq_true, bne_iff_ne, ne_eq, decide_eq_true_eq] at hc
    have hstart : ∃ m, peakRegionStart p frame = some m := by
      unfold peakRegionStart
      cases hfa : firstAttackIdx p with
      | none => exact ⟨_, rfl⟩
      | some idx =>
        simp only
        by_cases hfi : (frame : Int) > idx
        · have h0 : 0 ≤ idx := by
            rcases hidx idx hfa with h | h
            · rw [h] at hfa; exact absurd hfa hc.1
            · exact h
          obtain ⟨r, hr, _⟩ := rowAt_some_of_lt d idx frame h0 hfi hf
          simp only [hfi, if_true, hd, hr]
          exact ⟨_, rfl⟩
        · simp only [hfi, if_false]
          exact ⟨_, rfl⟩
    obtain ⟨m, hm⟩ := hstart
    simp only [hm]
    cases visiblePeak p frame with
    | none => exact ⟨_, rfl⟩
    | some peakRow => exact ⟨_, rfl⟩
  · rw [if_neg hc]
    exact ⟨_, rfl⟩

theorem flowPeak_isSome (p : Props) (d : List Row) (frame : Nat)
    (hd : p.data = some d) (hsec : NumericSeconds d) : ∃ x, flowPeak p frame = some x := by
  unfold flowPeak
  split_ifs
  · unfold peakAttack
    cases hv : visiblePeak p frame with
    | none => exact ⟨_, rfl⟩
    | some peakRow =>
      obtain ⟨sec, hs⟩ := hsec peakRow (visiblePeak_mem p d frame peakRow hd hv)
      simp only [hs]
      exact ⟨_, rfl⟩
  · exact ⟨_, rfl⟩

theorem ewsMarkers_isSome (p : Props) (d : List Row) (frame : Nat)
    (hd : p.data = some d) (hf : frame ≤ d.length) (hsec : NumericSeconds d)
    (hidx : ∀ level indices, levelIndices p level = some indices → ∀ idx ∈ indices, 0 ≤ idx) :
    ∃ x, ewsMarkers p frame = some x := by
  unfold ewsMarkers
  split_ifs
  · cases hl : level4Alerts p with
    | none => exact ⟨_, rfl⟩
    | some level4 =>
      simp only
      apply ewsMarkerLoop_isSome p d frame hd hf hsec
      intro idx hmem
      exact hidx 4 level4 (levelIndices_four p level4 hl) idx (List.mem_of_mem_take hmem)
  · exact ⟨_, rfl⟩

theorem ewsPoints_isSome (p : Props) (d : List Row) (frame : Nat)
    (hd : p.data = some d) (hf : frame ≤ d.length)
    (hidx : ∀ level indices, levelIndices p level = some indices → ∀ idx ∈ indices, 0 ≤ idx) :
    ∃ x, ewsPoints p frame = some x := by
  unfold ewsPoints
  split_ifs
  · cases hpd : p.plotData with
    | none => exact ⟨_, rfl⟩
    | some plotData =>
      simp only
      cases hea : plotData.ews_alerts with
      | none => exact ⟨_, rfl⟩
      | some ews_alerts =>
        simp only
        apply ewsPointsOver_isSome p d frame hd hf
        intro entry hmem idx hin
        refine hidx entry.1 entry.2 ?_ idx hin
        unfold levelIndices
        simp only [hpd, hea]
        exact (mem_ewsEntries _ _ _).mp hmem
  · exact ⟨_, rfl⟩

/-- On a dataset whose rows carry numeric seconds, with metadata indices that
are not negative, the derivation succeeds at every frame up to the length of
the dataset. -/
theorem deriveOverlay_isSome (p : Props) (d : List Row) (frame : Nat)
    (hd : p.data = some d) (hf : frame ≤ d.length) (hsec : NumericSeconds d)
    (hidx : IndicesNonNegative p) : ∃ o, deriveOverlay p frame = some o := by
  obtain ⟨hfirst, hbounds, hlevels⟩ := hidx
  unfold deriveOverlay
  split_ifs
  · exact ⟨_, rfl⟩
  · exact ⟨_, rfl⟩
  · exact derivePeakRegion_isSome p d frame hd hf hfirst
  · exact ⟨_, rfl⟩
  · exact ⟨_, rfl⟩
  · obtain ⟨m, hm⟩ := attackRegionMarkers_isSome p d frame "Attack Start" "Attack Stop" hd hf
      hbounds
    simp only [deriveAlerts, hm]
    exact ⟨_, rfl⟩
  · obtain ⟨m, hm⟩ := attackRegionMarkers_isSome p d frame "Start" "Stop" hd hf hbounds
    obtain ⟨pk, hpk⟩ := flowPeak_isSome p d frame hd hsec
    obtain ⟨e, he⟩ := ewsMarkers_isSome p d frame hd hf hsec hlevels
    simp only [deriveFlowWithEws, hm, hpk, he]
    exact ⟨_, rfl⟩
  · obtain ⟨m, hm⟩ := attackRegionMarkers_isSome p d frame "Attack Start" "Attack Stop" hd hf
      hbounds
    simp only [deriveAlertLevelsSeparately, hm]
    exact ⟨_, rfl⟩
  · exact ⟨_, rfl⟩
  · obtain ⟨m, hm⟩ := attackRegionMarkers_isSome p d frame "Attack Start" "Attack End" hd hf
      hbounds
    obtain ⟨e, he⟩ := ewsPoints_isSome p d frame hd hf hlevels
    simp only [deriveDefault, hm, he]
    exact ⟨_, rfl⟩

end ChartsAnimatedChart

/-! ## The overlay reads the visible rows only -/

namespace ChartsAnimatedChart

section Truncation

variable (p : Props) (d1 d2 : List Row) (f : Nat) (ht : d1.take f = d2.take f)
include ht

theorem slice_congr : slice (withData p d1).data f = slice (withData p d2).data f := by
  simp only [withData, slice_some, ht]

theorem rowAt_congr (idx : Int) (hf : (f : Int) > idx) :
    rowAt (withData p d1).data idx = rowAt (withData p d2).data idx := by
  simp only [withData]
  rw [← rowAt_take d1 idx f hf, ← rowAt_take d2 idx f hf, ht]

theorem attackRows_congr : attackRows (withData p d1).data f = attackRows (withData p d2).data f := by
  simp only [attackRows, slice_congr p d1 d2 f ht]

theorem benignAttackSeries_congr :
    benignAttackSeries (withData p d1) f = benignAttackSeries (withData p d2) f := by
  simp only [benignAttackSeries, benignRows, attackRows, slice_congr p d1 d2 f ht]
  rfl

theorem flowSeries_congr (label : String) (colour : Colour) :
    flowSeries (withData p d1) f label colour = flowSeries (withData p d2) f label colour := by
  simp only [flowSeries, flowData, labels, values, slice_congr p d1 d2 f ht]
  rfl

theorem attackRegionMarkers_congr (s t : String) :
    attackRegionMarkers (withData p d1) f s t = attackRegionMarkers (withData p d2) f s t := by
  have hb : attackBounds (withData p d1) = attackBounds (withData p d2) := rfl
  have hs : (withData p d1).showAttackRegion = (withData p d2).showAttackRegion := rfl
  unfold attackRegionMarkers
  rw [hb, hs]
  split_ifs with h
  · cases hbd : attackBounds (withData p d2) with
    | none => rfl
    | some bounds =>
      obtain ⟨a, b⟩ := bounds
      simp only
      by_cases ha : (f : Int) > a
      · simp only [ha, if_true, rowAt_congr p d1 d2 f ht a ha]
        by_cases hb2 : (f : Int) > b
        · simp only [hb2, if_true, rowAt_congr p d1 d2 f ht b hb2]
        · simp only [hb2, if_false]
      · simp only [ha, if_false]
  · rfl

theorem visiblePeak_congr : visiblePeak (withData p d1) f = visiblePeak (withData p d2) f := by
  rw [visiblePeak_eq, visiblePeak_eq, attackRows_congr p d1 d2 f ht]
  rfl

theorem peakRegionStart_congr :
    peakRegionStart (withData p d1) f = peakRegionStart (withData p d2) f := by
  have hfa : firstAttackIdx (withData p d1) = firstAttackIdx (withData p d2) := rfl
  unfold peakRegionStart
  rw [hfa]
  cases firstAttackIdx (withData p d2) with
  | none => rfl
  | some idx =>
    simp only
    by_cases hf : (f : Int) > idx
    · simp only [hf, if_true, rowAt_congr p d1 d2 f ht idx hf]
    · simp only [hf, if_false]

theorem derivePeakRegion_congr :
    derivePeakRegion (withData p d1) f = derivePeakRegion (withData p d2) f := by
  have hfa : firstAttackIdx (withData p d1) = firstAttackIdx (withData p d2) := rfl
  have hfield : (withData p d1).field = (withData p d2).field := rfl
  unfold derivePeakRegion
  rw [hfa, attackRows_congr p d1 d2 f ht, peakRegionStart_congr p d1 d2 f ht,
    visiblePeak_congr p d1 d2 f ht, benignAttackSeries_congr p d1 d2 f ht, hfield]

theorem labelSeriesFrom_congr (l : List JsVal) (i : Nat) :
    labelSeriesFrom (withData p d1) f i l = labelSeriesFrom (withData p d2) f i l := by
  induction l generalizing i with
  | nil => rfl
  | cons a rest ih =>
    simp only [labelSeriesFrom, slice_congr p d1 d2 f ht, ih]
    rfl

theorem deriveEarlyWarnings_congr :
    deriveEarlyWarnings (withData p d1) f = deriveEarlyWarnings (withData p d2) f := by
  have hs : (withData p d1).showEWS = (withData p d2).showEWS := rfl
  have hfield : (withData p d1).field = (withData p d2).field := rfl
  simp only [deriveEarlyWarnings, flowSeries_congr p d1 d2 f ht, uniqueLabels, warningSeries,
    labelSeriesFrom_congr p d1 d2 f ht, slice_congr p d1 d2 f ht, hs, hfield]

theorem levelPoints_congr (level : Int) :
    levelPoints (withData p d1) f level = levelPoints (withData p d2) f level := by
  simp only [levelPoints, slice_congr p d1 d2 f ht]
  rfl

theorem alertLevelSeries_congr (levels : List Int) :
    alertLevelSeries (withData p d1) f levels = alertLevelSeries (withData p d2) f levels := by
  induction levels with
  | nil => rfl
  | cons a rest ih => simp only [alertLevelSeries, levelPoints_congr p d1 d2 f ht, ih]

theorem deriveAlerts_congr : deriveAlerts (withData p d1) f = deriveAlerts (withData p d2) f := by
  simp only [deriveAlerts, attackRegionMarkers_congr p d1 d2 f ht, flowSeries_congr p d1 d2 f ht,
    alertLevelSeries_congr p d1 d2 f ht]

theorem flowPeak_congr : flowPeak (withData p d1) f = flowPeak (withData p d2) f := by
  have hb : attackBounds (withData p d1) = attackBounds (withData p d2) := rfl
  have hs : (withData p d1).showAttackRegion = (withData p d2).showAttackRegion := rfl
  have hfield : (withData p d1).field = (withData p d2).field := rfl
  simp only [flowPeak, peakAttack, visiblePeak_congr p d1 d2 f ht, hb, hs, hfield]

theorem ewsMarkerLoop_congr (l : List Int) (i : Nat) :
    ewsMarkerLoop (withData p d1) f i l = ewsMarkerLoop (withData p d2) f i l := by
  have hfield : (withData p d1).field = (withData p d2).field := rfl
  induction l generalizing i with
  | nil => rfl
  | cons idx rest ih =>
    simp only [ewsMarkerLoop]
    by_cases hf : (f : Int) > idx
    · simp only [hf, if_true, rowAt_congr p d1 d2 f ht idx hf, ih, hfield]
    · simp only [hf, if_false, ih]

theorem ewsMarkers_congr : ewsMarkers (withData p d1) f = ewsMarkers (withData p d2) f := by
  have hl : level4Alerts (withData p d1) = level4Alerts (withData p d2) := rfl
  have hs : (withData p d1).showEWS = (withData p d2).showEWS := rfl
  simp only [ewsMarkers, hl, hs, ewsMarkerLoop_congr p d1 d2 f ht]

theorem deriveFlowWithEws_congr :
    deriveFlowWithEws (withData p d1) f = deriveFlowWithEws (withData p d2) f := by
  have hfield : (withData p d1).field = (withData p d2).field := rfl
  simp only [deriveFlowWithEws, attackRegionMarkers_congr p d1 d2 f ht, flowPeak_congr p d1 d2 f ht,
    ewsMarkers_congr p d1 d2 f ht, flowSeries_congr p d1 d2 f ht, hfield]

theorem deriveAlertLevelsSeparately_congr :
    deriveAlertLevelsSeparately (withData p d1) f =
      deriveAlertLevelsSeparately (withData p d2) f := by
  have htitle : (withData p d1).title = (withData p d2).title := rfl
  simp only [deriveAlertLevelsSeparately, attackRegionMarkers_congr p d1 d2 f ht,
    flowSeries_congr p d1 d2 f ht, levelPoints_congr p d1 d2 f ht, htitle]

theorem deriveEmergencyAlerts_congr :
    deriveEmergencyAlerts (withData p d1) f = deriveEmergencyAlerts (withData p d2) f := by
  have hl : level4Alerts (withData p d1) = level4Alerts (withData p d2) := rfl
  have hfield : (withData p d1).field = (withData p d2).field := rfl
  simp only [deriveEmergencyAlerts, emergencySeries, flowSeries_congr p d1 d2 f ht,
    slice_congr p d1 d2 f ht, hl, hfield]

theorem ewsPointLoop_congr (level : Nat) (l : List Int) (i : Nat) :
    ewsPointLoop (withData p d1) f level i l = ewsPointLoop (withData p d2) f level i l := by
  have hfield : (withData p d1).field = (withData p d2).field := rfl
  induction l generalizing i with
  | nil => rfl
  | cons idx rest ih =>
    simp only [ewsPointLoop]
    by_cases hf : (f : Int) > idx
    · simp only [hf, if_true, rowAt_congr p d1 d2 f ht idx hf, ih, hfield]
    · simp only [hf, if_false, ih]

theorem ewsPointsOver_congr (entries : List (Nat × List Int)) :
    ewsPointsOver (withData p d1) f entries = ewsPointsOver (withData p d2) f entries := by
  induction entries with
  | nil => rfl
  | cons entry rest ih => simp only [ewsPointsOver, ewsPointLoop_congr p d1 d2 f ht, ih]

theorem deriveDefault_congr : deriveDefault (withData p d1) f = deriveDefault (withData p d2) f := by
  have hs : (withData p d1).showEWS = (withData p d2).showEWS := rfl
  have hpd : (withData p d1).plotData = (withData p d2).plotData := rfl
  simp only [deriveDefault, ewsPoints, attackRegionMarkers_congr p d1 d2 f ht,
    benignAttackSeries_congr p d1 d2 f ht, ewsPointsOver_congr p d1 d2 f ht, hs, hpd]

/-- Two datasets with the same first `f` rows give the same overlay at frame `f`,
the same failure included. -/
theorem deriveOverlay_congr : deriveOverlay (withData p d1) f = deriveOverlay (withData p d2) f := by
  have hct : (withData p d1).chartType = (withData p d2).chartType := rfl
  simp only [deriveOverlay, hct, benignAttackSeries_congr p d1 d2 f ht,
    derivePeakRegion_congr p d1 d2 f ht, deriveEarlyWarnings_congr p d1 d2 f ht,
    deriveAlerts_congr p d1 d2 f ht, deriveFlowWithEws_congr p d1 d2 f ht,
    deriveAlertLevelsSeparately_congr p d1 d2 f ht, deriveEmergencyAlerts_congr p d1 d2 f ht,
    deriveDefault_congr p d1 d2 f ht]

end Truncation

end ChartsAnimatedChart

/-! ## Lemmas on the validation effect -/

namespace ChartsAnimatedChart

theorem fieldNotFound_ne_noData (field : String) :
    "Field \"" ++ field ++ "\" not found in data" ≠ "No data available" := by
  intro h
  have hd := congrArg String.data h
  simp [String.data_append] at hd

theorem fieldNotFound_truthy (field : String) :
    truthyStr (some ("Field \"" ++ field ++ "\" not found in data")) = true := by
  have hne : "Field \"" ++ field ++ "\" not found in data" ≠ "" := by
    intro h
    have hd := congrArg String.data h
    simp [String.data_append] at hd
  simp [truthyStr, hne]

/-- The validation effect written out: the error cell is decided by the new
props alone, and `frame` and `isComplete` are written on success only. -/
theorem validationEffect_eq (p : Props) (s : PlaybackState) :
    validationEffect p s =
      if (mount p).dataError = none then { s with frame := 1, isComplete := false, dataError := none }
      else { s with dataError := (mount p).dataError } := by
  unfold mount validationEffect
  cases hd : p.data with
  | none => simp
  | some d =>
    cases d with
    | nil => simp
    | cons sample rest =>
      by_cases hk : sample.hasKey p.field = true
      · simp [hk]
      · simp [hk]

theorem validationEffect_error_invalid (p : Props) (s : PlaybackState)
    (h : p.data.getD [] = [] ∨
      ∃ sample, (p.data.getD []).head? = some sample ∧ sample.hasKey p.field = false) :
    truthyStr (validationEffect p s).dataError = true ∧
      (validationEffect p s).frame = s.frame ∧
      (validationEffect p s).isComplete = s.isComplete := by
  unfold validationEffect
  cases hd : p.data with
  | none => simp [truthyStr]
  | some d =>
    cases d with
    | nil => simp [truthyStr]
    | cons sample rest =>
      rcases h with h | ⟨r, hr, hk⟩
      · simp [hd] at h
      · simp only [hd, Option.getD_some, List.head?_cons, Option.some.injEq] at hr
        subst hr
        simp only [hk, Bool.not_false, if_true]
        exact ⟨fieldNotFound_truthy p.field, trivial, trivial⟩

theorem tick_of_error (p : Props) (s : PlaybackState) (h : truthyStr s.dataError = true) :
    tick p s = (s, []) := by
  simp [tick, timerScheduled, h]

theorem ticks_of_error (p : Props) (s : PlaybackState) (h : truthyStr s.dataError = true) :
    ∀ n, ticks p n s = (s, []) := by
  intro n
  induction n with
  | zero => rfl
  | succ n ih => simp [ticks, tick_of_error p s h, ih]

theorem applyOp_of_error (p : Props) (op : Op) (s : PlaybackState)
    (h : truthyStr s.dataError = true) :
    (applyOp p op s).dataError = s.dataError ∧ (applyOp p op s).frame = s.frame := by
  cases op with
  | tick => simp [applyOp, tick_of_error p s h]
  | togglePause =>
    simp only [applyOp, pauseResume, passiveEffects, autoResumeEffect, togglePause]
    split_ifs <;> simp
  | setSpeed value => exact ⟨rfl, rfl⟩
  | stopAll =>
    simp only [applyOp, stopAll, passiveEffects, autoResumeEffect, handleStopAllAnimations]
    split_ifs <;> simp

theorem runOps_of_error (p : Props) (ops : List Op) :
    ∀ s : PlaybackState, truthyStr s.dataError = true →
      (runOps p ops s).dataError = s.dataError ∧ (runOps p ops s).frame = s.frame := by
  induction ops with
  | nil => intro s _; exact ⟨rfl, rfl⟩
  | cons op rest ih =>
    intro s h
    have h1 := applyOp_of_error p op s h
    have h2 := ih (applyOp p op s) (by rw [h1.1]; exact h)
    simp only [runOps, List.foldl_cons] at h2 ⊢
    exact ⟨h2.1.trans h1.1, h2.2.trans h1.2⟩

end ChartsAnimatedChart

/-! ## Lemmas on the series and on the presence of single annotations -/

namespace ChartsAnimatedChart

theorem take_eq_of_agree (d1 d2 : List Row) (f : Nat)
    (hagree : ∀ i, i < f → d1[i]? = d2[i]?) : d1.take f = d2.take f := by
  apply List.ext_getElem?
  intro i
  by_cases hi : i < f
  · rw [List.getElem?_take_of_lt hi, List.getElem?_take_of_lt hi]
    exact hagree i hi
  · rw [List.getElem?_take_eq_none (by omega), List.getElem?_take_eq_none (by omega)]

theorem filter_length_add (l : List Row) (q : Row → Bool) :
    (l.filter q).length + (l.filter (fun r => !q r)).length = l.length := by
  induction l with
  | nil => rfl
  | cons r rest ih =>
    by_cases h : q r = true
    · simp only [List.filter_cons, h, if_true, Bool.not_true, Bool.false_eq_true, if_false,
        List.length_cons]
      omega
    · simp only [Bool.not_eq_true] at h
      simp only [List.filter_cons, h, Bool.false_eq_true, if_false, Bool.not_false, if_true,
        List.length_cons]
      omega

theorem benign_attack_length (data : Option (List Row)) (frame : Nat) :
    (benignRows data frame).length + (attackRows data frame).length =
      (slice data frame).length := by
  have h := filter_length_add (slice data frame) (fun r => r.get "Label" == JsVal.str "BENIGN")
  simpa [benignRows, attackRows, bne] using h

theorem flowPoint_eq (field : String) (r : Row) (sec : Int) (hsec : r.get "Seconds" = JsVal.num sec)
    (hdef : r.get field ≠ JsVal.undefined) :
    flowPoint field r = { x := JsVal.num sec, y := r.get field } := by
  unfold flowPoint
  have hx : (JsVal.num sec).orZero = JsVal.num sec := by
    unfold JsVal.orZero JsVal.truthy
    by_cases h0 : sec = 0
    · simp [h0]
    · simp [h0]
  have hy : (r.get field).orNull = r.get field := by
    cases hv : r.get field with
    | undefined => exact absurd hv hdef
    | null => rfl
    | num n => rfl
    | str s => rfl
  rw [hsec, hx, hy]

/-- The first maximum of a non-empty list of rows with numeric values. -/
theorem peakIdx_spec (field : String) (arr : List Row) (hne : arr ≠ [])
    (hnum : ∀ r ∈ arr, ∃ n, r.get field = JsVal.num n) :
    ∃ peakRow, arr[peakIdx field arr]? = some peakRow ∧
      (∀ (k : Nat) rk, arr[k]? = some rk → fieldNum field rk ≤ fieldNum field peakRow) ∧
      (∀ (k : Nat) rk, k < peakIdx field arr → arr[k]? = some rk →
        fieldNum field rk < fieldNum field peakRow) := by
  cases harr : arr with
  | nil => exact absurd harr hne
  | cons first rest =>
    have h0 : arr[0]? = some first := by rw [harr]; simp
    have h := peakIdxLoop_spec field arr hnum arr [] 0 first (by simp) h0
      (by intro k rk hk; simp at hk) (by intro k rk hk; omega)
    rw [← harr]
    simpa [peakIdx] using h

theorem mem_ewsLabelsFrom_iff (frame : Nat) (k : Nat) :
    ∀ (l : List Int) (i : Nat),
      SeriesLabel.ews (k + 1) ∈ ewsLabelsFrom frame i l ↔ AnnotationId.ews k ∈ ewsIdsFrom frame i l := by
  intro l
  induction l with
  | nil => intro i; simp [ewsLabelsFrom, ewsIdsFrom]
  | cons idx rest ih =>
    intro i
    simp only [ewsLabelsFrom, ewsIdsFrom]
    by_cases hf : (frame : Int) > idx
    · simp only [hf, if_true, List.mem_cons, ih (i + 1), SeriesLabel.ews.injEq,
        AnnotationId.ews.injEq, Nat.add_right_cancel_iff]
    · simp only [hf, if_false, ih (i + 1)]

end ChartsAnimatedChart

/-! ## The marker series of the `flow-with-ews` case -/

namespace ChartsAnimatedChart

theorem flowPeak_parts (p : Props) (frame : Nat)
    (peak : List Series × List (AnnotationId × AnnotationSpec)) (h : flowPeak p frame = some peak) :
    (∀ l ∈ peak.1.map Series.label, l = SeriesLabel.text "Peak Attack") ∧
      (∀ id ∈ peak.2.map Prod.fst, id = AnnotationId.peakLabel) := by
  unfold flowPeak at h
  split_ifs at h
  · unfold peakAttack at h
    cases hv : visiblePeak p frame with
    | none => simp only [hv] at h; cases h; simp
    | some peakRow =>
      simp only [hv] at h
      cases hsec : peakRow.get "Seconds" with
      | num sec => simp only [hsec] at h; cases h; simp
      | undefined => simp [hsec] at h
      | null => simp [hsec] at h
      | str s => simp [hsec] at h
  · cases h; simp

theorem ewsMarkers_label_iff (p : Props) (frame k : Nat)
    (x : List Series × List (AnnotationId × AnnotationSpec)) (h : ewsMarkers p frame = some x) :
    SeriesLabel.ews (k + 1) ∈ x.1.map Series.label ↔ AnnotationId.ews k ∈ x.2.map Prod.fst := by
  unfold ewsMarkers at h
  split_ifs at h
  · cases hl : level4Alerts p with
    | none => simp only [hl] at h; cases h; simp
    | some level4 =>
      simp only [hl] at h
      have hids := ewsMarkerLoop_ids p frame (level4.take 3) 0 x h
      rw [hids.1, hids.2]
      exact mem_ewsLabelsFrom_iff frame k (level4.take 3) 0
  · cases h; simp

/-- In the `flow-with-ews` case the series `EWS k+1` is pushed together with the
annotation `ews-k`. -/
theorem flow_ews_series_iff (p : Props) (frame k : Nat) (o : Overlay)
    (hm : p.chartType = "flow-with-ews") (h : deriveOverlay p frame = some o) :
    SeriesLabel.ews (k + 1) ∈ o.labels ↔ AnnotationId.ews k ∈ o.ids := by
  have hflow : deriveFlowWithEws p frame = some o := by
    simpa only [deriveOverlay, hm, String.reduceEq, if_true, if_false] using h
  unfold deriveFlowWithEws at hflow
  cases hmk : attackRegionMarkers p frame "Start" "Stop" with
  | none => simp [hmk] at hflow
  | some markers =>
    cases hp : flowPeak p frame with
    | none => simp [hmk, hp] at hflow
    | some peak =>
      cases he : ewsMarkers p frame with
      | none => simp [hmk, hp, he] at hflow
      | some ews =>
        simp only [hmk, hp, he, Option.some.injEq] at hflow
        subst hflow
        have hmi := attackRegionMarkers_ids p frame _ _ markers hmk
        have hnot : AnnotationId.ews k ∉ markers.map Prod.fst := by
          rw [hmi, mem_markerIds]
          rintro ⟨_, a, b, _, _, h1 | ⟨h1, _⟩⟩ <;> cases h1
        have hparts := flowPeak_parts p frame peak hp
        have hnl : SeriesLabel.ews (k + 1) ∉ peak.1.map Series.label := by
          intro hin
          have := hparts.1 _ hin
          cases this
        have hni : AnnotationId.ews k ∉ peak.2.map Prod.fst := by
          intro hin
          have := hparts.2 _ hin
          cases this
        have hiff := ewsMarkers_label_iff p frame k ews he
        simp only [Overlay.labels, Overlay.ids, flowSeries, List.map_cons, List.map_append,
          List.mem_cons, List.mem_append]
        constructor
        · rintro (h1 | h1 | h1)
          · cases h1
          · exact absurd h1 hnl
          · exact Or.inr (hiff.mp h1)
        · rintro ((h1 | h1) | h1)
          · exact absurd h1 hnot
          · exact absurd h1 hni
          · exact Or.inr (Or.inr (hiff.mpr h1))

theorem annotationIndex_ews_mode (p : Props) (k : Nat) (idx : Int)
    (h : annotationIndex p (AnnotationId.ews k) = some idx) : p.chartType = "flow-with-ews" := by
  simp only [annotationIndex] at h
  split_ifs at h with hc
  exact hc.1

end ChartsAnimatedChart

/-! ## Claims on the reveal of the annotations -/

/-- C14: in a chart type that draws the attack region markers (`alerts`,
`flow-with-ews`, `alert-levels-separately` and the default clause, `standard`
among them) with `showAttackRegion` set and `attack_indices` non-empty with
first element `a` and last element `b`, `a ≤ b`, every overlay derived at frame
`f` has the `attackStart` annotation iff `f > a` and the `attackEnd` annotation
iff `f > b`; the derivation yields an overlay at every frame up to the number
of rows when the rows carry numeric `Seconds` and no index is negative. -/
theorem C14_attack_markers_after_index (p : Props) (f : Nat) (a b : Int)
    (hmode : drawsAttackRegion p.chartType = true) (hshow : p.showAttackRegion = true)
    (hbounds : attackBounds p = some (a, b)) (hab : a ≤ b) :
    (∀ o, deriveOverlay p f = some o →
      ((AnnotationId.attackStart ∈ o.ids ↔ (f : Int) > a) ∧
        (AnnotationId.attackEnd ∈ o.ids ↔ (f : Int) > b))) ∧
    (∀ d, p.data = some d → f ≤ d.length → NumericSeconds d → IndicesNonNegative p →
      ∃ o, deriveOverlay p f = some o) := by
  refine ⟨?_, fun d hd hf hsec hidx => deriveOverlay_isSome p d f hd hf hsec hidx⟩
  intro o ho
  have hnp : p.chartType ≠ "peak-region" := by
    intro h
    rw [h, drawsAttackRegion_peak] at hmode
    cases hmode
  rw [annotation_present_iff p f o _ ho, annotation_present_iff p f o _ ho, shown_attackStart,
    shown_attackEnd]
  constructor
  · constructor
    · rintro (⟨h, _⟩ | ⟨_, _, _, a', b', hb', hfa⟩)
      · exact absurd h hnp
      · rw [hbounds] at hb'
        cases hb'
        exact hfa
    · intro hfa
      exact Or.inr ⟨hnp, hmode, hshow, a, b, hbounds, hfa⟩
  · constructor
    · rintro ⟨_, _, a', b', hb', _, hfb⟩
      rw [hbounds] at hb'
      cases hb'
      exact hfb
    · intro hfb
      exact ⟨hmode, hshow, a, b, hbounds, by omega, hfb⟩

/-- C14 at ten rows with `attack_indices = [2, 3, 4]` in a `flow-with-ews`
chart, frame 4: the start marker is there, the end marker is not. -/
theorem C14_witness :
    ∃ o, deriveOverlay attackFlowScenario 4 = some o ∧
      (AnnotationId.attackStart ∈ o.ids ↔ ((4 : Nat) : Int) > 2) ∧
      (AnnotationId.attackEnd ∈ o.ids ↔ ((4 : Nat) : Int) > 4) :=
  ⟨_, rfl,
    (C14_attack_markers_after_index attackFlowScenario 4 2 4 (by decide) rfl (by decide)
      (by decide)).1 _ rfl⟩

/-- C15: monotonic reveal. For frames `f ≤ g`, every annotation key of an
overlay derived at frame `f` is a key of every overlay derived at frame `g`,
for every dataset, metadata, chart type and option set; and both derivations
yield an overlay when `g` is at most the number of rows, the rows carry numeric
`Seconds` and no index is negative. -/
theorem C15_monotonic_reveal (p : Props) (f g : Nat) (hfg : f ≤ g) :
    (∀ o o2 id, deriveOverlay p f = some o → deriveOverlay p g = some o2 →
      id ∈ o.ids → id ∈ o2.ids) ∧
    (∀ d, p.data = some d → g ≤ d.length → NumericSeconds d → IndicesNonNegative p →
      ∃ o o2, deriveOverlay p f = some o ∧ deriveOverlay p g = some o2 ∧
        ∀ id ∈ o.ids, id ∈ o2.ids) := by
  have hmono : ∀ o o2 id, deriveOverlay p f = some o → deriveOverlay p g = some o2 →
      id ∈ o.ids → id ∈ o2.ids := by
    intro o o2 id ho ho2 hid
    rw [annotation_present_iff p g o2 id ho2]
    exact shown_mono p f g id hfg ((annotation_present_iff p f o id ho).mp hid)
  refine ⟨hmono, ?_⟩
  intro d hd hg hsec hidx
  obtain ⟨o, ho⟩ := deriveOverlay_isSome p d f hd (le_trans hfg hg) hsec hidx
  obtain ⟨o2, ho2⟩ := deriveOverlay_isSome p d g hd hg hsec hidx
  exact ⟨o, o2, ho, ho2, fun id hid => hmono o o2 id ho ho2 hid⟩

/-- C15 at the flow scenario, frames 4 and 9. -/
theorem C15_witness :
    ∃ o o2, deriveOverlay attackFlowScenario 4 = some o ∧
      deriveOverlay attackFlowScenario 9 = some o2 ∧ ∀ id, id ∈ o.ids → id ∈ o2.ids :=
  ⟨_, _, rfl, rfl, fun id =>
    (C15_monotonic_reveal attackFlowScenario 4 9 (by decide)).1 _ _ id rfl rfl⟩

/-- C16: no leakage of future data. Two datasets that agree on the rows before
position `f` give the same result of the derivation at frame `f`, the same
series points and the same annotations, for every chart type, metadata and
option set: the rows from position `f` on are not read. The result is an
overlay when `f` is at most the number of rows, the rows carry numeric
`Seconds` and no index is negative. -/
theorem C16_no_future_leak (p : Props) (d1 d2 : List Row) (f : Nat)
    (hagree : ∀ i, i < f → d1[i]? = d2[i]?) :
    deriveOverlay (withData p d1) f = deriveOverlay (withData p d2) f ∧
    (f ≤ d1.length → NumericSeconds d1 → IndicesNonNegative p →
      ∃ o, deriveOverlay (withData p d1) f = some o ∧ deriveOverlay (withData p d2) f = some o) := by
  have heq := deriveOverlay_congr p d1 d2 f (take_eq_of_agree d1 d2 f hagree)
  refine ⟨heq, ?_⟩
  intro hf hsec hidx
  obtain ⟨o, ho⟩ := deriveOverlay_isSome (withData p d1) d1 f rfl hf hsec hidx
  exact ⟨o, ho, heq ▸ ho⟩

/-- C16 at the flow scenario, frame 4, against the dataset cut after row 3 and
continued by a different row. -/
theorem C16_witness :
    deriveOverlay (withData attackFlowScenario (peakRows ++ [mkRow 5 "BENIGN" 2 0])) 4 =
      deriveOverlay (withData attackFlowScenario (peakRows.take 4 ++ [mkRow 70 "DDoS" 99 4])) 4 :=
  (C16_no_future_leak attackFlowScenario (peakRows ++ [mkRow 5 "BENIGN" 2 0])
    (peakRows.take 4 ++ [mkRow 70 "DDoS" 99 4]) 4 (by decide)).1

/-! ## Claims on malformed metadata, the series and the peak -/

/-- C17, as stated, fails on a negative index: with `first_attack_idx = -2` the
`peak-region` derivation at frame 3 reads `data[-2].Seconds` and throws, and with
`ews_alerts.level4 = [-2, 6, 9]` the `flow-with-ews` derivation throws at frame
1 already. -/
theorem C17_counterexample_negative_index :
    deriveOverlay negativeFirstScenario 3 = none ∧ deriveOverlay negativeEwsScenario 1 = none := by
  decide

/-- C17, amended: on a dataset of `N` rows with numeric `Seconds` and metadata
without a negative index (the value -1 of `first_attack_idx` apart), the
derivation yields an overlay at every frame up to `N`, and the overlay has no
annotation that depends on an index at or behind `N`, and in the
`flow-with-ews` case no series `EWS k+1` for such an index either. -/
theorem C17_index_beyond_end_omitted (p : Props) (d : List Row) (f : Nat)
    (hd : p.data = some d) (hf : f ≤ d.length) (hsec : NumericSeconds d)
    (hidx : IndicesNonNegative p) :
    ∃ o, deriveOverlay p f = some o ∧
      (∀ id idx, annotationIndex p id = some idx → (d.length : Int) ≤ idx → id ∉ o.ids) ∧
      (∀ k idx, annotationIndex p (AnnotationId.ews k) = some idx → (d.length : Int) ≤ idx →
        SeriesLabel.ews (k + 1) ∉ o.labels) := by
  obtain ⟨o, ho⟩ := deriveOverlay_isSome p d f hd hf hsec hidx
  have hids : ∀ id idx, annotationIndex p id = some idx → (d.length : Int) ≤ idx → id ∉ o.ids := by
    intro id idx hi hN hin
    have hshown := (annotation_present_iff p f o id ho).mp hin
    have hpassed := shown_imp_passed p f id idx hi hshown
    have hcast : (f : Int) ≤ (d.length : Int) := by exact_mod_cast hf
    omega
  refine ⟨o, ho, hids, ?_⟩
  intro k idx hi hN hin
  have hm := annotationIndex_ews_mode p k idx hi
  exact hids _ idx hi hN ((flow_ews_series_iff p f k o hm ho).mp hin)

/-- C17 at ten rows with `ews_alerts.level4 = [1, 6, 12]`, frame 10: the overlay
is derived and has neither the annotation `ews-2` nor the series `EWS 3`. -/
theorem C17_witness :
    ∃ o, deriveOverlay beyondEndScenario 10 = some o ∧
      AnnotationId.ews 2 ∉ o.ids ∧ SeriesLabel.ews 3 ∉ o.labels := by
  obtain ⟨o, ho, hids, hlabels⟩ := C17_index_beyond_end_omitted beyondEndScenario
    (peakRows ++ [mkRow 5 "BENIGN" 2 0, mkRow 6 "BENIGN" 2 4, mkRow 7 "BENIGN" 1 0,
                  mkRow 8 "BENIGN" 1 0, mkRow 9 "BENIGN" 1 4]) 10 rfl (by decide)
    (by
      intro r hr
      simp only [peakRows, List.cons_append, List.nil_append, List.mem_cons, List.mem_singleton,
        List.not_mem_nil, or_false] at hr
      rcases hr with h | h | h | h | h | h | h | h | h | h <;> subst h <;> exact ⟨_, rfl⟩)
    (by
      refine ⟨?_, ?_, ?_⟩
      · intro idx h
        cases h
        right; decide
      · intro bounds h
        cases h
        decide
      · intro level indices h idx hmem
        have hl : level = 4 ∧ indices = [1, 6, 12] := by
          simp only [levelIndices, beyondEndScenario, ewsEntries] at h
          simp only [List.lookup] at h
          split at h <;> simp_all
        obtain ⟨_, rfl⟩ := hl
        simp only [List.mem_cons, List.mem_singleton, List.not_mem_nil, or_false] at hmem
        rcases hmem with h | h | h <;> subst h <;> decide)
  exact ⟨o, ho, hids (AnnotationId.ews 2) 12 (by decide) (by decide),
    hlabels 2 12 (by decide) (by decide)⟩

/-- C18: in the `benign-attack` and `derivative` cases the overlay at frame `f`,
at most the number of rows, has exactly two series and no annotation. The data
of the first series are the points of the rows among the first `f` whose
`Label` is `BENIGN`, the data of the second those of the rows whose `Label` is
not `BENIGN`, each in the order of the dataset, so that the two lengths sum to
`f`; the point of a row with a number under `Seconds` and a value under the
field is the pair of the two. -/
theorem C18_benign_attack_series (p : Props) (d : List Row) (f : Nat)
    (hmode : p.chartType = "benign-attack" ∨ p.chartType = "derivative")
    (hd : p.data = some d) (hf : f ≤ d.length) :
    ∃ benign attack : Series,
      deriveOverlay p f = some { series := [benign, attack], annotations := [] } ∧
      benign.label = SeriesLabel.text "Benign" ∧ attack.label = SeriesLabel.text "Attack" ∧
      benign.data =
        ((d.take f).filter (fun r => r.get "Label" == JsVal.str "BENIGN")).map
          (flowPoint p.field) ∧
      attack.data =
        ((d.take f).filter (fun r => r.get "Label" != JsVal.str "BENIGN")).map
          (flowPoint p.field) ∧
      benign.data.length + attack.data.length = f ∧
      (∀ r sec, r.get "Seconds" = JsVal.num sec → r.get p.field ≠ JsVal.undefined →
        flowPoint p.field r = { x := JsVal.num sec, y := r.get p.field }) := by
  have hderive : deriveOverlay p f =
      some { series := benignAttackSeries p f, annotations := [] } := by
    rcases hmode with h | h <;> simp [deriveOverlay, h]
  have hlen := benign_attack_length p.data f
  rw [hd, slice_length d f hf] at hlen
  refine ⟨_, _, hderive, rfl, rfl, ?_, ?_, ?_, ?_⟩
  · simp only [benignRows, hd, slice_some]
  · simp only [attackRows, hd, slice_some]
  · simp only [List.length_map, hd]
    exact hlen
  · intro r sec hsec hdef
    exact flowPoint_eq p.field r sec hsec hdef

/-- C18 at the rows of the peak scenario, frame 4: two benign points and two
attack points. -/
theorem C18_witness :
    ∃ benign attack : Series,
      deriveOverlay benignAttackScenario 4 =
        some { series := [benign, attack], annotations := [] } ∧
      benign.data = [ { x := JsVal.num 0, y := JsVal.num 3 }, { x := JsVal.num 1, y := JsVal.num 4 } ] ∧
      attack.data = [ { x := JsVal.num 2, y := JsVal.num 9 }, { x := JsVal.num 3, y := JsVal.num 9 } ] ∧
      benign.data.length + attack.data.length = 4 := by
  obtain ⟨benign, attack, ho, _, _, hb, ha, hlen, _⟩ :=
    C18_benign_attack_series benignAttackScenario peakRows 4 (Or.inl rfl) rfl (by decide)
  exact ⟨benign, attack, ho, hb.trans (by decide), ha.trans (by decide), hlen⟩

/-- C19, as stated, fails: five rows that are all `BENIGN` with
`first_attack_idx = 2` give, in the `peak-region` case at frame 3, an overlay
without the `attackStart` annotation. -/
theorem C19_counterexample_no_attack_row :
    firstAttackIdx attackScenario = some 2 ∧ attackScenario.chartType = "peak-region" ∧
    ∃ o, deriveOverlay attackScenario 3 = some o ∧ AnnotationId.attackStart ∉ o.ids :=
  ⟨rfl, rfl, _, rfl, by decide⟩

/-- C19, amended: in the `peak-region` case with `first_attack_idx = i`, `i` not
negative, the overlay at frame `f ≤ N` is derived, and it has the `attackStart`
annotation iff `f > i` and one of the first `f` rows has a `Label` other than
`BENIGN` (line 412: `attackRows.length > 0`); when row `i` itself has such a
label, this is iff `f > i`. -/
theorem C19_peak_region_attack_start (p : Props) (d : List Row) (f : Nat) (i : Int)
    (hmode : p.chartType = "peak-region") (hd : p.data = some d) (hf : f ≤ d.length)
    (hfirst : firstAttackIdx p = some i) (hi0 : 0 ≤ i) :
    ∃ o, deriveOverlay p f = some o ∧
      (AnnotationId.attackStart ∈ o.ids ↔
        ((f : Int) > i ∧ (attackRows p.data f).length > 0)) ∧
      (∀ row, d[i.toNat]? = some row → row.get "Label" ≠ JsVal.str "BENIGN" →
        (AnnotationId.attackStart ∈ o.ids ↔ (f : Int) > i)) := by
  have hsome : ∃ o, derivePeakRegion p f = some o :=
    derivePeakRegion_isSome p d f hd hf (by
      intro idx h
      rw [hfirst] at h
      cases h
      exact Or.inr hi0)
  obtain ⟨o, ho⟩ := hsome
  have hderive : deriveOverlay p f = some o := by
    simpa only [deriveOverlay, hmode, String.reduceEq, if_true, if_false] using ho
  have hiff : AnnotationId.attackStart ∈ o.ids ↔
      ((f : Int) > i ∧ (attackRows p.data f).length > 0) := by
    rw [annotation_present_iff p f o _ hderive, shown_attackStart]
    constructor
    · rintro (⟨_, hrows, idx, hidx, _, hfi⟩ | ⟨hne, _⟩)
      · rw [hfirst] at hidx
        cases hidx
        exact ⟨hfi, hrows⟩
      · exact absurd hmode hne
    · rintro ⟨hfi, hrows⟩
      exact Or.inl ⟨hmode, hrows, i, hfirst, by omega, hfi⟩
  refine ⟨o, hderive, hiff, ?_⟩
  intro row hrow hlabel
  rw [hiff]
  constructor
  · exact fun h => h.1
  · intro hfi
    refine ⟨hfi, ?_⟩
    have hmem : row ∈ attackRows p.data f := by
      simp only [attackRows, hd, slice_some, List.mem_filter, bne_iff_ne, ne_eq]
      refine ⟨?_, hlabel⟩
      have hlt : i.toNat < f := by omega
      have : (d.take f)[i.toNat]? = some row := by
        rw [List.getElem?_take_of_lt hlt]
        exact hrow
      exact List.getElem?_mem this
    exact List.length_pos_of_mem hmem

/-- C19 at the peak scenario (five rows, attack rows 2 to 4,
`first_attack_idx = 2`): the `attackStart` annotation is absent at frames 1 and
2 and present at frames 3, 4 and 5. -/
theorem C19_witness :
    (∃ o, deriveOverlay peakScenario 3 = some o ∧ AnnotationId.attackStart ∈ o.ids) ∧
    (∀ f, f < 6 → 1 ≤ f → ∃ o, deriveOverlay peakScenario f = some o ∧
      (AnnotationId.attackStart ∈ o.ids ↔ 3 ≤ f)) := by
  obtain ⟨o, ho, _, hrow⟩ := C19_peak_region_attack_start peakScenario peakRows 3 2 rfl rfl
    (by decide) rfl (by decide)
  refine ⟨⟨o, ho, (hrow (mkRow 2 "DDoS" 9 4) rfl (by decide)).mpr (by decide)⟩, ?_⟩
  decide

/-- C20: for a non-empty list of visible attack rows with numeric values under
the field, `peakIdx` (the `reduce` of the `peak-region` and `flow-with-ews`
cases) is a position of the list, the value there is at least the value of
every row, and every row before it has a strictly smaller value: it is the
first position of the maximum. The peak the two cases draw is the row there. -/
theorem C20_peak_index_first_maximum (p : Props) (f : Nat)
    (hne : attackRows p.data f ≠ [])
    (hnum : ∀ r ∈ attackRows p.data f, ∃ n, r.get p.field = JsVal.num n) :
    ∃ peakRow, (attackRows p.data f)[peakIdx p.field (attackRows p.data f)]? = some peakRow ∧
      visiblePeak p f = some peakRow ∧
      (∀ (k : Nat) rk, (attackRows p.data f)[k]? = some rk →
        fieldNum p.field rk ≤ fieldNum p.field peakRow) ∧
      (∀ (k : Nat) rk, k < peakIdx p.field (attackRows p.data f) →
        (attackRows p.data f)[k]? = some rk → fieldNum p.field rk < fieldNum p.field peakRow) := by
  obtain ⟨peakRow, hrow, hmax, hfirst⟩ := peakIdx_spec p.field (attackRows p.data f) hne hnum
  exact ⟨peakRow, hrow, by rw [visiblePeak_eq]; exact hrow, hmax, hfirst⟩

/-- C20 at the peak scenario, frame 5: the attack rows have the values 9, 9 and
7, and the peak is the first of them. -/
theorem C20_witness :
    peakIdx peakScenario.field (attackRows peakScenario.data 5) = 0 ∧
    ∃ peakRow, (attackRows peakScenario.data 5)[0]? = some peakRow ∧
      visiblePeak peakScenario 5 = some peakRow ∧ fieldNum peakScenario.field peakRow = 9 := by
  obtain ⟨peakRow, hrow, hvis, _, _⟩ := C20_peak_index_first_maximum peakScenario 5 (by decide)
    (by
      intro r hr
      have hrows : attackRows peakScenario.data 5 =
          [mkRow 2 "DDoS" 9 4, mkRow 3 "DDoS" 9 4, mkRow 4 "DDoS" 7 2] := by decide
      rw [hrows] at hr
      simp only [List.mem_cons, List.mem_singleton, List.not_mem_nil, or_false] at hr
      rcases hr with h | h | h <;> subst h <;> exact ⟨_, rfl⟩)
  have hidx : peakIdx peakScenario.field (attackRows peakScenario.data 5) = 0 := by decide
  rw [hidx] at hrow
  refine ⟨hidx, peakRow, hrow, hvis, ?_⟩
  have h0 : (attackRows peakScenario.data 5)[0]? = some (mkRow 2 "DDoS" 9 4) := by decide
  rw [h0] at hrow
  cases hrow
  decide

/-! ## Lemmas on the events of a whole playback -/

namespace ChartsAnimatedChart

theorem count_attackEvents_completion (p : Props) (frame : Nat) (ev : Event)
    (h : ev = Event.plottingEnded ∨ ∃ c, ev = Event.animationComplete c) :
    (attackEvents p frame).count ev = 0 := by
  unfold attackEvents
  split
  · simp
  · split
    · simp
    · split
      · simp only [List.count_append]
        rcases h with h | ⟨c, h⟩ <;> subst h <;> split_ifs <;> simp [List.count_cons]
      · simp

theorem count_events_completion (p : Props) (frame : Nat) (ev : Event)
    (h : ev = Event.plottingEnded ∨ ∃ c, ev = Event.animationComplete c) :
    (attackEvents p frame ++ ewsEvents p frame).count ev = 0 := by
  rw [List.count_append, count_attackEvents_completion p frame ev h,
    count_ewsEvents_other p frame ev
      (by rcases h with h | ⟨c, h⟩ <;> subst h <;> simp)
      (by rcases h with h | ⟨c, h⟩ <;> subst h <;> simp)]

/-- The ticks before the completing one dispatch no event that the checks of
`startAnimation` never dispatch. -/
theorem ticks_run_count_zero (p : Props) (ev : Event)
    (hev : ∀ f, (attackEvents p f ++ ewsEvents p f).count ev = 0) (k : Nat) (s : PlaybackState)
    (h : timerScheduled p s = true) (hk : s.frame + k = maxFrames p) :
    (ticks p k s).2.count ev = 0 := by
  induction k generalizing s with
  | zero => simp [ticks]
  | succ k ih =>
    have hf : s.frame < maxFrames p := by omega
    have ht := tick_advance p s h hf
    have ih' := ih { s with frame := s.frame + 1 } (by rw [timerScheduled_frame]; exact h)
      (by simp only; omega)
    simp only [ticks, ht, List.count_append, ih', hev s.frame]

/-- The events of an uninterrupted playback: those of the ticks that raise
`frame` to `maxFrames`, then those of the completing tick, and none after. -/
theorem playback_events (p : Props) (s : PlaybackState) (n : Nat)
    (h : timerScheduled p s = true) (hf : s.frame ≤ maxFrames p)
    (hn : maxFrames p - s.frame + 1 ≤ n) :
    (ticks p n s).2 =
      (ticks p (maxFrames p - s.frame) s).2 ++
        (if p.chartType == "flow-with-ews" then
          [Event.animationComplete p.chartType, Event.plottingEnded]
        else []) := by
  obtain ⟨m, rfl⟩ : ∃ m, n = (maxFrames p - s.frame) + (1 + m) :=
    ⟨n - (maxFrames p - s.frame + 1), by omega⟩
  have hrun := ticks_run p (maxFrames p - s.frame) s h (by omega)
  have h1 : timerScheduled p { s with frame := maxFrames p } = true := by
    rw [timerScheduled_frame]; exact h
  have h2 := tick_complete p { s with frame := maxFrames p } h1 (le_refl _)
  have h3 : timerScheduled p { s with frame := maxFrames p, isComplete := true } = false :=
    timerScheduled_complete p _ rfl
  have h4 := ticks_idle p m _ h3
  rw [ticks_add, hrun.1, ticks_add]
  have h5 : ticks p 1 { s with frame := maxFrames p } = tick p { s with frame := maxFrames p } := by
    simp [ticks]
  rw [h5, h2]
  simp only [h4, List.append_nil]

/-- No tick dispatches an event that neither the checks nor the completion
branch of `startAnimation` dispatch. -/
theorem ticks_count_zero (p : Props) (ev : Event)
    (hev : ∀ f, (attackEvents p f ++ ewsEvents p f).count ev = 0)
    (hc : ev ≠ Event.plottingEnded ∧ ∀ c, ev ≠ Event.animationComplete c) (n : Nat) :
    ∀ s : PlaybackState, (ticks p n s).2.count ev = 0 := by
  induction n with
  | zero => intro s; simp [ticks]
  | succ n ih =>
    intro s
    simp only [ticks, List.count_append, ih, Nat.add_zero]
    unfold tick startAnimation
    split_ifs
    · simp [List.count_cons, hc.1.symm, (hc.2 p.chartType).symm]
    · simp
    · exact hev s.frame
    · simp

theorem count_events_ews_hidden (p : Props) (hs : p.showEWS = false) (k f : Nat) :
    (attackEvents p f ++ ewsEvents p f).count (Event.ewsAlertDetected k) = 0 := by
  rw [List.count_append, count_attackEvents_ews]
  simp [ewsEvents, hs]

end ChartsAnimatedChart

/-! ## Lemmas on the level-4 markers of the `flow-with-ews` case -/

namespace ChartsAnimatedChart

theorem ewsIdsFrom_isEws (frame : Nat) :
    ∀ (l : List Int) (i : Nat), ∀ id ∈ ewsIdsFrom frame i l, id.isEws = true := by
  intro l
  induction l with
  | nil => intro i id h; simp [ewsIdsFrom] at h
  | cons idx rest ih =>
    intro i id h
    simp only [ewsIdsFrom] at h
    split_ifs at h
    · rcases List.mem_cons.mp h with h | h
      · subst h; rfl
      · exact ih (i + 1) id h
    · exact ih (i + 1) id h

theorem ewsLabelsFrom_isEws (frame : Nat) :
    ∀ (l : List Int) (i : Nat), ∀ label ∈ ewsLabelsFrom frame i l,
      label.isEws = true ∧ ∃ k, label = SeriesLabel.ews (k + 1) := by
  intro l
  induction l with
  | nil => intro i label h; simp [ewsLabelsFrom] at h
  | cons idx rest ih =>
    intro i label h
    simp only [ewsLabelsFrom] at h
    split_ifs at h
    · rcases List.mem_cons.mp h with h | h
      · subst h; exact ⟨rfl, i, rfl⟩
      · exact ih (i + 1) label h
    · exact ih (i + 1) label h

theorem ewsIdsFrom_length (frame : Nat) :
    ∀ (l : List Int) (i : Nat),
      (ewsIdsFrom frame i l).length = (l.filter (fun idx => decide ((frame : Int) > idx))).length ∧
      (ewsLabelsFrom frame i l).length =
        (l.filter (fun idx => decide ((frame : Int) > idx))).length := by
  intro l
  induction l with
  | nil => intro i; simp [ewsIdsFrom, ewsLabelsFrom]
  | cons idx rest ih =>
    intro i
    simp only [ewsIdsFrom, ewsLabelsFrom, List.filter_cons]
    by_cases hf : (frame : Int) > idx
    · simp [hf, ih (i + 1)]
    · simp [hf, ih (i + 1)]

theorem markerIds_not_isEws (p : Props) (frame : Nat) :
    (markerIds p frame).filter AnnotationId.isEws = [] := by
  rw [List.filter_eq_nil_iff]
  intro id hid
  rw [mem_markerIds] at hid
  obtain ⟨_, a, b, _, _, h | ⟨h, _⟩⟩ := hid <;> subst h <;> simp [AnnotationId.isEws]

/-- The `EWS` series and the `ews` annotations of the overlay of a
`flow-with-ews` chart are those that `ewsMarkers` writes, in their order. -/
theorem flow_ews_filter (p : Props) (frame : Nat) (o : Overlay)
    (hm : p.chartType = "flow-with-ews") (h : deriveOverlay p frame = some o) :
    ∃ ews, ewsMarkers p frame = some ews ∧
      o.ids.filter AnnotationId.isEws = ews.2.map Prod.fst ∧
      o.labels.filter SeriesLabel.isEws = ews.1.map Series.label ∧
      (∀ id ∈ ews.2.map Prod.fst, id.isEws = true) ∧
      (∀ label ∈ ews.1.map Series.label, label.isEws = true ∧ ∃ k, label = SeriesLabel.ews (k + 1)) ∧
      (ews.2.map Prod.fst).length = (ews.1.map Series.label).length := by
  have hflow : deriveFlowWithEws p frame = some o := by
    simpa only [deriveOverlay, hm, String.reduceEq, if_true, if_false] using h
  unfold deriveFlowWithEws at hflow
  cases hmk : attackRegionMarkers p frame "Start" "Stop" with
  | none => simp [hmk] at hflow
  | some markers =>
    cases hp : flowPeak p frame with
    | none => simp [hmk, hp] at hflow
    | some peak =>
      cases he : ewsMarkers p frame with
      | none => simp [hmk, hp, he] at hflow
      | some ews =>
        simp only [hmk, hp, he, Option.some.injEq] at hflow
        subst hflow
        have hmi := attackRegionMarkers_ids p frame _ _ markers hmk
        have hparts := flowPeak_parts p frame peak hp
        have hself : (∀ id ∈ ews.2.map Prod.fst, id.isEws = true) ∧
            (∀ label ∈ ews.1.map Series.label,
              label.isEws = true ∧ ∃ k, label = SeriesLabel.ews (k + 1)) ∧
            (ews.2.map Prod.fst).length = (ews.1.map Series.label).length := by
          unfold ewsMarkers at he
          split_ifs at he
          · cases hl : level4Alerts p with
            | none => simp only [hl] at he; cases he; simp
            | some level4 =>
              simp only [hl] at he
              have hids := ewsMarkerLoop_ids p frame (level4.take 3) 0 ews he
              rw [hids.1, hids.2]
              refine ⟨ewsIdsFrom_isEws frame _ 0, ewsLabelsFrom_isEws frame _ 0, ?_⟩
              rw [(ewsIdsFrom_length frame _ 0).1, (ewsIdsFrom_length frame _ 0).2]
          · cases he; simp
        refine ⟨ews, rfl, ?_, ?_, hself⟩
        · simp only [Overlay.ids, List.map_append, List.filter_append, hmi, markerIds_not_isEws]
          have hpk : (peak.2.map Prod.fst).filter AnnotationId.isEws = [] := by
            rw [List.filter_eq_nil_iff]
            intro id hid
            rw [hparts.2 id hid]
            simp [AnnotationId.isEws]
          rw [hpk, List.nil_append, List.nil_append]
          exact List.filter_eq_self.mpr hself.1
        · simp only [Overlay.labels, flowSeries, List.map_cons, List.map_append, List.filter_cons,
            List.filter_append, SeriesLabel.isEws]
          have hpk : (peak.1.map Series.label).filter SeriesLabel.isEws = [] := by
            rw [List.filter_eq_nil_iff]
            intro label hl
            rw [hparts.1 label hl]
            simp [SeriesLabel.isEws]
          rw [hpk]
          simp only [Bool.false_eq_true, if_false, List.nil_append]
          exact List.filter_eq_self.mpr (fun label hl => (hself.2.1 label hl).1)

theorem ewsMarkers_count (p : Props) (frame : Nat) (level4 : List Int)
    (ews : List Series × List (AnnotationId × AnnotationSpec))
    (hs : p.showEWS = true) (hl : level4Alerts p = some level4)
    (he : ewsMarkers p frame = some ews) :
    (ews.2.map Prod.fst).length =
      ((level4.take 3).filter (fun idx => decide ((frame : Int) > idx))).length := by
  unfold ewsMarkers at he
  simp only [hs, if_true, hl] at he
  have hids := ewsMarkerLoop_ids p frame (level4.take 3) 0 ews he
  rw [hids.1, (ewsIdsFrom_length frame _ 0).1]

end ChartsAnimatedChart

/-! ## Lemmas on the series of the alert cases -/

namespace ChartsAnimatedChart

theorem flowData_eq_map (data : Option (List Row)) (field : String) (frame : Nat) :
    flowData data field frame = (slice data frame).map (flowPoint field) := by
  unfold flowData labels values flowPoint
  generalize slice data frame = l
  induction l with
  | nil => rfl
  | cons r rest ih => simp [List.zipWith, ih]

theorem alertLevelSeries_eq_filterMap (p : Props) (frame : Nat) (levels : List Int) :
    alertLevelSeries p frame levels =
      levels.filterMap (fun level =>
        if (levelPoints p frame level).length = 0 then none
        else some { label := SeriesLabel.alertCount (levelMap level)
                               (levelPoints p frame level).length,
                    data := levelPoints p frame level, borderColor := colors.ews level }) := by
  induction levels with
  | nil => rfl
  | cons level rest ih =>
    simp only [alertLevelSeries, List.filterMap_cons]
    by_cases h : (levelPoints p frame level).length = 0
    · simp only [h, if_true, ih]
    · simp only [h, if_false, ih]

theorem alertLevel_chartGrid (level : Fin 4) :
    alertLevel (ChartGrid.alertLevelTitle (level.val + 1)) = 0 := by
  revert level
  decide

end ChartsAnimatedChart

/-! ## Lemmas on the label series and the decimated series -/

namespace ChartsAnimatedChart

theorem setInsertAll_append (l1 l2 : List JsVal) :
    ∀ seen, setInsertAll seen (l1 ++ l2) = setInsertAll (setInsertAll seen l1) l2 := by
  induction l1 with
  | nil => intro seen; rfl
  | cons v rest ih =>
    intro seen
    simp only [List.cons_append, setInsertAll]
    split_ifs
    · exact ih seen
    · exact ih (seen ++ [v])

theorem setInsertAll_prefix (l : List JsVal) : ∀ seen, seen <+: setInsertAll seen l := by
  induction l with
  | nil => intro seen; exact List.prefix_refl seen
  | cons v rest ih =>
    intro seen
    simp only [setInsertAll]
    split_ifs
    · exact ih seen
    · exact List.IsPrefix.trans (List.prefix_append seen [v]) (ih (seen ++ [v]))

theorem mem_setInsertAll (l : List JsVal) :
    ∀ seen v, v ∈ setInsertAll seen l ↔ v ∈ seen ∨ v ∈ l := by
  induction l with
  | nil => intro seen v; simp [setInsertAll]
  | cons a rest ih =>
    intro seen v
    simp only [setInsertAll]
    split_ifs with h
    · rw [ih seen v, List.mem_cons]
      constructor
      · rintro (h1 | h1)
        · exact Or.inl h1
        · exact Or.inr (Or.inr h1)
      · rintro (h1 | h1 | h1)
        · exact Or.inl h1
        · subst h1; exact Or.inl h
        · exact Or.inr h1
    · rw [ih (seen ++ [a]) v, List.mem_append, List.mem_singleton, List.mem_cons]
      tauto

theorem setInsertAll_nodup (l : List JsVal) :
    ∀ seen, seen.Nodup → (setInsertAll seen l).Nodup := by
  induction l with
  | nil => intro seen h; exact h
  | cons a rest ih =>
    intro seen h
    simp only [setInsertAll]
    split_ifs with hin
    · exact ih seen h
    · apply ih
      rw [List.nodup_append]
      refine ⟨h, List.nodup_singleton a, ?_⟩
      intro x hx1 hx2
      rw [List.mem_singleton] at hx2
      subst hx2
      exact hin hx1

theorem slice_take_append (data : Option (List Row)) (f g : Nat) (hfg : f ≤ g) :
    ∃ more, slice data g = slice data f ++ more := by
  cases data with
  | none => exact ⟨[], by simp [slice_none]⟩
  | some d =>
    rw [slice_some, slice_some]
    refine ⟨(d.take g).drop f, ?_⟩
    have h : (d.take g).take f = d.take f := by
      rw [List.take_take]
      congr 1
      omega
    rw [← h]
    exact (List.take_append_drop f (d.take g)).symm

theorem uniqueLabels_prefix (p : Props) (f g : Nat) (hfg : f ≤ g) :
    uniqueLabels p f <+: uniqueLabels p g := by
  obtain ⟨more, hmore⟩ := slice_take_append p.data f g hfg
  unfold uniqueLabels
  rw [hmore, List.map_append, setInsertAll_append]
  exact setInsertAll_prefix _ _

theorem labelSeriesFrom_getElem (p : Props) (frame : Nat) :
    ∀ (l : List JsVal) (i k : Nat),
      (labelSeriesFrom p frame i l)[k]? =
        l[k]?.map (fun v =>
          { label := SeriesLabel.value v,
            data := ((slice p.data frame).filter (fun r => r.get "Label" == v)).map
                      (rawPoint p.field),
            borderColor := Colour.hsl (((i + k) * 137) % 360) }) := by
  intro l
  induction l with
  | nil => intro i k; simp [labelSeriesFrom]
  | cons v rest ih =>
    intro i k
    cases k with
    | zero => simp [labelSeriesFrom]
    | succ k =>
      simp only [labelSeriesFrom, List.getElem?_cons_succ, ih (i + 1) k]
      have : i + 1 + k = i + (k + 1) := by omega
      rw [this]

/-- The positions that the filter `(_, i) => i % 10 === 0` keeps, counted from
`i`. -/
theorem filterIdxFrom_tenth_getElem {α : Type} :
    ∀ (l : List α) (i j : Nat),
      (filterIdxFrom (fun n => n % 10 == 0) i l)[j]? = l[10 * j + (10 - i % 10) % 10]? := by
  intro l
  induction l with
  | nil => intro i j; simp [filterIdxFrom]
  | cons a rest ih =>
    intro i j
    simp only [filterIdxFrom]
    by_cases h0 : i % 10 = 0
    · have hk : ((i % 10 == 0) = true) := by simp [h0]
      simp only [hk, if_true]
      cases j with
      | zero => simp [h0]
      | succ j =>
        rw [List.getElem?_cons_succ, ih (i + 1) j]
        have h1 : 10 * (j + 1) + (10 - i % 10) % 10 = (10 * j + (10 - (i + 1) % 10) % 10) + 1 := by
          omega
        rw [h1, List.getElem?_cons_succ]
    · have hk : ((i % 10 == 0) = true) = False := by simp [h0]
      simp only [hk, if_false]
      rw [ih (i + 1) j]
      have h1 : 10 * j + (10 - i % 10) % 10 = (10 * j + (10 - (i + 1) % 10) % 10) + 1 := by
        omega
      rw [h1, List.getElem?_cons_succ]

theorem filterIdxFrom_tenth_length {α : Type} :
    ∀ (l : List α) (i : Nat),
      (filterIdxFrom (fun n => n % 10 == 0) i l).length = (l.length + (i + 9) % 10) / 10 := by
  intro l
  induction l with
  | nil => intro i; simp [filterIdxFrom]
  | cons a rest ih =>
    intro i
    simp only [filterIdxFrom]
    by_cases h0 : i % 10 = 0
    · have hk : ((i % 10 == 0) = true) := by simp [h0]
      simp only [hk, if_true, List.length_cons, ih (i + 1)]
      omega
    · have hk : ((i % 10 == 0) = true) = False := by simp [h0]
      simp only [hk, if_false, List.length_cons, ih (i + 1)]
      omega

end ChartsAnimatedChart

/-! ## The overlay derivation of `components/AnimatedCharts.js` against that of
`components/charts/AnimatedChart.js` -/

theorem eqv_colors :
    AnimatedCharts.colors.benign = ChartsAnimatedChart.colors.benign ∧
    AnimatedCharts.colors.attack = ChartsAnimatedChart.colors.attack ∧
    AnimatedCharts.colors.trafficFlow = ChartsAnimatedChart.colors.trafficFlow ∧
    AnimatedCharts.colors.flowPackets = ChartsAnimatedChart.colors.flowPackets ∧
    AnimatedCharts.colors.ews = ChartsAnimatedChart.colors.ews ∧
    AnimatedCharts.colors.attackStart = ChartsAnimatedChart.colors.attackStart ∧
    AnimatedCharts.colors.attackStop = ChartsAnimatedChart.colors.attackStop ∧
    AnimatedCharts.colors.peakStart = ChartsAnimatedChart.colors.peakStart ∧
    AnimatedCharts.colors.peakPointMarker = ChartsAnimatedChart.colors.peakPointMarker ∧
    AnimatedCharts.colors.peakPointLine = ChartsAnimatedChart.colors.peakPointLine ∧
    AnimatedCharts.colors.earlyWarning = ChartsAnimatedChart.colors.earlyWarning ∧
    AnimatedCharts.colors.ewsLines = ChartsAnimatedChart.colors.ewsLines ∧
    AnimatedCharts.colors.peakAttack = ChartsAnimatedChart.colors.peakAttack ∧
    AnimatedCharts.colors.emergency = ChartsAnimatedChart.colors.emergency ∧
    AnimatedCharts.levelMap = ChartsAnimatedChart.levelMap :=
  ⟨rfl, rfl, rfl, rfl, rfl, rfl, rfl, rfl, rfl, rfl, rfl, rfl, rfl, rfl, rfl⟩

theorem eqv_slice (p : AnimatedCharts.Props) (f : Nat) :
    AnimatedCharts.slice p.data f = ChartsAnimatedChart.slice p.toChart.data f := by
  simp only [AnimatedCharts.slice, AnimatedCharts.Props.toChart, ChartsAnimatedChart.slice_some]

theorem mem_slice_toChart (p : AnimatedCharts.Props) (f : Nat) (r : Row)
    (h : r ∈ ChartsAnimatedChart.slice p.toChart.data f) : r ∈ p.data := by
  rw [← eqv_slice] at h
  exact List.mem_of_mem_take h

theorem eqv_rawPoint :
    AnimatedCharts.rawPoint = ChartsAnimatedChart.rawPoint := rfl

theorem nullish_eq_orNull (v : JsVal) : v.nullish = v.orNull := by
  cases v <;> rfl

theorem orZero_num (sec : Int) : (JsVal.num sec).orZero = JsVal.num sec := by
  unfold JsVal.orZero JsVal.truthy
  by_cases h0 : sec = 0
  · simp [h0]
  · simp [h0]

theorem eqv_labels (p : AnimatedCharts.Props) (f : Nat) (hsec : NumericSeconds p.data) :
    AnimatedCharts.labels p.data f = ChartsAnimatedChart.labels p.toChart.data f := by
  simp only [AnimatedCharts.labels, ChartsAnimatedChart.labels, eqv_slice]
  apply List.map_congr_left
  intro r hr
  obtain ⟨sec, hs⟩ := hsec r (mem_slice_toChart p f r hr)
  rw [hs, orZero_num]

theorem eqv_values (p : AnimatedCharts.Props) (f : Nat) :
    AnimatedCharts.values p.data p.field f =
      ChartsAnimatedChart.values p.toChart.data p.toChart.field f := by
  simp only [AnimatedCharts.values, ChartsAnimatedChart.values, eqv_slice, nullish_eq_orNull]
  rfl

theorem eqv_flowSeries (p : AnimatedCharts.Props) (f : Nat) (label : String) (colour : Colour)
    (hsec : NumericSeconds p.data) :
    AnimatedCharts.flowSeries p f label colour =
      ChartsAnimatedChart.flowSeries p.toChart f label colour := by
  simp only [AnimatedCharts.flowSeries, ChartsAnimatedChart.flowSeries, AnimatedCharts.flowData,
    ChartsAnimatedChart.flowData, eqv_labels p f hsec, eqv_values]

theorem eqv_benignRows (p : AnimatedCharts.Props) (f : Nat) :
    AnimatedCharts.benignRows p.data f = ChartsAnimatedChart.benignRows p.toChart.data f := by
  simp only [AnimatedCharts.benignRows, ChartsAnimatedChart.benignRows, eqv_slice]

theorem eqv_attackRows (p : AnimatedCharts.Props) (f : Nat) :
    AnimatedCharts.attackRows p.data f = ChartsAnimatedChart.attackRows p.toChart.data f := by
  simp only [AnimatedCharts.attackRows, ChartsAnimatedChart.attackRows, eqv_slice]

theorem rawPoint_eq_flowPoint (p : AnimatedCharts.Props) (f : Nat)
    (hsec : NumericSeconds p.data) (hdef : DefinedField p.field p.data)
    (l : List Row) (hl : ∀ r ∈ l, r ∈ ChartsAnimatedChart.slice p.toChart.data f) :
    l.map (AnimatedCharts.rawPoint p.field) = l.map (ChartsAnimatedChart.flowPoint p.field) := by
  apply List.map_congr_left
  intro r hr
  have hmem := mem_slice_toChart p f r (hl r hr)
  obtain ⟨sec, hs⟩ := hsec r hmem
  rw [ChartsAnimatedChart.flowPoint_eq p.field r sec hs (hdef r hmem)]
  simp only [AnimatedCharts.rawPoint, hs]

theorem eqv_benignAttackSeries (p : AnimatedCharts.Props) (f : Nat)
    (hsec : NumericSeconds p.data) (hdef : DefinedField p.field p.data) :
    AnimatedCharts.benignAttackSeries p f = ChartsAnimatedChart.benignAttackSeries p.toChart f := by
  have hb := rawPoint_eq_flowPoint p f hsec hdef (ChartsAnimatedChart.benignRows p.toChart.data f)
    (fun r hr => (List.mem_filter.mp hr).1)
  have ha := rawPoint_eq_flowPoint p f hsec hdef (ChartsAnimatedChart.attackRows p.toChart.data f)
    (fun r hr => (List.mem_filter.mp hr).1)
  simp only [AnimatedCharts.benignAttackSeries, ChartsAnimatedChart.benignAttackSeries,
    eqv_benignRows, eqv_attackRows, hb, ha]
  rfl

theorem eqv_rowAt (p : AnimatedCharts.Props) (idx : Int) :
    AnimatedCharts.rowAt p.data idx = ChartsAnimatedChart.rowAt p.toChart.data idx := rfl

theorem eqv_attackBounds (p : AnimatedCharts.Props) :
    AnimatedCharts.attackBounds p = ChartsAnimatedChart.attackBounds p.toChart := rfl

theorem eqv_level4Alerts (p : AnimatedCharts.Props) :
    AnimatedCharts.level4Alerts p = ChartsAnimatedChart.level4Alerts p.toChart := rfl

theorem eqv_firstAttackIdx (p : AnimatedCharts.Props) :
    AnimatedCharts.firstAttackIdx p = ChartsAnimatedChart.firstAttackIdx p.toChart := rfl

theorem eqv_attackRegionMarkers (p : AnimatedCharts.Props) (f : Nat) (s t : String) :
    AnimatedCharts.attackRegionMarkers p f s t =
      ChartsAnimatedChart.attackRegionMarkers p.toChart f s t := rfl

theorem eqv_peakIdxLoop (field : String) (arr rest : List Row) :
    ∀ maxIdx idx, AnimatedCharts.peakIdxLoop field arr maxIdx idx rest =
      ChartsAnimatedChart.peakIdxLoop field arr maxIdx idx rest := by
  induction rest with
  | nil => intro maxIdx idx; rfl
  | cons row rest ih =>
    intro maxIdx idx
    simp only [AnimatedCharts.peakIdxLoop, ChartsAnimatedChart.peakIdxLoop, ih]

theorem eqv_peakIdx (field : String) (arr : List Row) :
    AnimatedCharts.peakIdx field arr = ChartsAnimatedChart.peakIdx field arr := by
  simp only [AnimatedCharts.peakIdx, ChartsAnimatedChart.peakIdx, eqv_peakIdxLoop]

theorem eqv_alertLevel : AnimatedCharts.alertLevel = ChartsAnimatedChart.alertLevel := rfl

theorem eqv_ewsEntries : AnimatedCharts.ewsEntries = ChartsAnimatedChart.ewsEntries := rfl

theorem eqv_peakRegionStart (p : AnimatedCharts.Props) (f : Nat) :
    AnimatedCharts.peakRegionStart p f = ChartsAnimatedChart.peakRegionStart p.toChart f := rfl

theorem eqv_ewsPointLoop (p : AnimatedCharts.Props) (f level : Nat) (l : List Int) :
    ∀ i, AnimatedCharts.ewsPointLoop p f level i l =
      ChartsAnimatedChart.ewsPointLoop p.toChart f level i l := by
  induction l with
  | nil => intro i; rfl
  | cons idx rest ih =>
    intro i
    simp only [AnimatedCharts.ewsPointLoop, ChartsAnimatedChart.ewsPointLoop, ih, eqv_rowAt]
    rfl

theorem eqv_ewsPointsOver (p : AnimatedCharts.Props) (f : Nat) (entries : List (Nat × List Int)) :
    AnimatedCharts.ewsPointsOver p f entries =
      ChartsAnimatedChart.ewsPointsOver p.toChart f entries := by
  induction entries with
  | nil => rfl
  | cons entry rest ih =>
    simp only [AnimatedCharts.ewsPointsOver, ChartsAnimatedChart.ewsPointsOver, ih,
      eqv_ewsPointLoop]

theorem eqv_ewsPoints (p : AnimatedCharts.Props) (f : Nat) :
    AnimatedCharts.ewsPoints p f = ChartsAnimatedChart.ewsPoints p.toChart f := by
  simp only [AnimatedCharts.ewsPoints, ChartsAnimatedChart.ewsPoints, eqv_ewsPointsOver,
    eqv_ewsEntries]
  rfl

theorem eqv_ewsMarkerLoop (p : AnimatedCharts.Props) (f : Nat) (l : List Int) :
    ∀ i, AnimatedCharts.ewsMarkerLoop p f i l =
      ChartsAnimatedChart.ewsMarkerLoop p.toChart f i l := by
  induction l with
  | nil => intro i; rfl
  | cons idx rest ih =>
    intro i
    simp only [AnimatedCharts.ewsMarkerLoop, ChartsAnimatedChart.ewsMarkerLoop, ih, eqv_rowAt]
    rfl

theorem eqv_ewsMarkers (p : AnimatedCharts.Props) (f : Nat) :
    AnimatedCharts.ewsMarkers p f = ChartsAnimatedChart.ewsMarkers p.toChart f := by
  simp only [AnimatedCharts.ewsMarkers, ChartsAnimatedChart.ewsMarkers, eqv_ewsMarkerLoop,
    eqv_level4Alerts]
  rfl

theorem eqv_visiblePeak (p : AnimatedCharts.Props) (f : Nat) :
    AnimatedCharts.visiblePeak p f = ChartsAnimatedChart.visiblePeak p.toChart f := by
  simp only [AnimatedCharts.visiblePeak, ChartsAnimatedChart.visiblePeak, eqv_attackRows,
    eqv_peakIdx]
  rfl

theorem eqv_derivePeakRegion (p : AnimatedCharts.Props) (f : Nat)
    (hsec : NumericSeconds p.data) (hdef : DefinedField p.field p.data) :
    AnimatedCharts.derivePeakRegion p f = ChartsAnimatedChart.derivePeakRegion p.toChart f := by
  simp only [AnimatedCharts.derivePeakRegion, ChartsAnimatedChart.derivePeakRegion,
    eqv_attackRows, eqv_firstAttackIdx, eqv_peakRegionStart, eqv_visiblePeak,
    eqv_benignAttackSeries p f hsec hdef]
  rfl

theorem eqv_labelSeriesFrom (p : AnimatedCharts.Props) (f : Nat) (l : List JsVal) :
    ∀ i, AnimatedCharts.labelSeriesFrom p f i l =
      ChartsAnimatedChart.labelSeriesFrom p.toChart f i l := by
  induction l with
  | nil => intro i; rfl
  | cons v rest ih =>
    intro i
    simp only [AnimatedCharts.labelSeriesFrom, ChartsAnimatedChart.labelSeriesFrom, eqv_slice, ih]
    rfl

theorem eqv_uniqueLabels (p : AnimatedCharts.Props) (f : Nat) :
    AnimatedCharts.uniqueLabels p f = ChartsAnimatedChart.uniqueLabels p.toChart f := by
  simp only [AnimatedCharts.uniqueLabels, ChartsAnimatedChart.uniqueLabels, eqv_slice]

theorem eqv_warningSeries (p : AnimatedCharts.Props) (f : Nat) :
    AnimatedCharts.warningSeries p f = ChartsAnimatedChart.warningSeries p.toChart f := by
  simp only [AnimatedCharts.warningSeries, ChartsAnimatedChart.warningSeries, eqv_slice]
  rfl

theorem eqv_deriveEarlyWarnings (p : AnimatedCharts.Props) (f : Nat)
    (hsec : NumericSeconds p.data) :
    AnimatedCharts.deriveEarlyWarnings p f =
      ChartsAnimatedChart.deriveEarlyWarnings p.toChart f := by
  simp only [AnimatedCharts.deriveEarlyWarnings, ChartsAnimatedChart.deriveEarlyWarnings,
    eqv_flowSeries p f _ _ hsec, eqv_labelSeriesFrom, eqv_uniqueLabels, eqv_warningSeries]
  rfl

theorem eqv_levelPoints (p : AnimatedCharts.Props) (f : Nat) (level : Int) :
    AnimatedCharts.levelPoints p f level = ChartsAnimatedChart.levelPoints p.toChart f level := by
  simp only [AnimatedCharts.levelPoints, ChartsAnimatedChart.levelPoints, eqv_slice]
  rfl

theorem eqv_alertLevelSeries (p : AnimatedCharts.Props) (f : Nat) (levels : List Int) :
    AnimatedCharts.alertLevelSeries p f levels =
      ChartsAnimatedChart.alertLevelSeries p.toChart f levels := by
  induction levels with
  | nil => rfl
  | cons level rest ih =>
    simp only [AnimatedCharts.alertLevelSeries, ChartsAnimatedChart.alertLevelSeries,
      eqv_levelPoints, ih]
    rfl

theorem eqv_deriveAlerts (p : AnimatedCharts.Props) (f : Nat) (hsec : NumericSeconds p.data) :
    AnimatedCharts.deriveAlerts p f = ChartsAnimatedChart.deriveAlerts p.toChart f := by
  simp only [AnimatedCharts.deriveAlerts, ChartsAnimatedChart.deriveAlerts,
    eqv_attackRegionMarkers, eqv_flowSeries p f _ _ hsec, eqv_alertLevelSeries]
  rfl

theorem eqv_flowPeak (p : AnimatedCharts.Props) (f : Nat) :
    AnimatedCharts.flowPeak p f = ChartsAnimatedChart.flowPeak p.toChart f := by
  simp only [AnimatedCharts.flowPeak, ChartsAnimatedChart.flowPeak, AnimatedCharts.peakAttack,
    ChartsAnimatedChart.peakAttack, eqv_visiblePeak, eqv_attackBounds]
  rfl

theorem eqv_deriveFlowWithEws (p : AnimatedCharts.Props) (f : Nat)
    (hsec : NumericSeconds p.data) :
    AnimatedCharts.deriveFlowWithEws p f = ChartsAnimatedChart.deriveFlowWithEws p.toChart f := by
  simp only [AnimatedCharts.deriveFlowWithEws, ChartsAnimatedChart.deriveFlowWithEws,
    eqv_attackRegionMarkers, eqv_flowPeak, eqv_ewsMarkers, eqv_flowSeries p f _ _ hsec]
  rfl

theorem eqv_deriveAlertLevelsSeparately (p : AnimatedCharts.Props) (f : Nat)
    (hsec : NumericSeconds p.data) :
    AnimatedCharts.deriveAlertLevelsSeparately p f =
      ChartsAnimatedChart.deriveAlertLevelsSeparately p.toChart f := by
  simp only [AnimatedCharts.deriveAlertLevelsSeparately,
    ChartsAnimatedChart.deriveAlertLevelsSeparately, eqv_attackRegionMarkers,
    eqv_flowSeries p f _ _ hsec, eqv_levelPoints, eqv_alertLevel]
  rfl

theorem eqv_deriveEmergencyAlerts (p : AnimatedCharts.Props) (f : Nat)
    (hsec : NumericSeconds p.data) :
    AnimatedCharts.deriveEmergencyAlerts p f =
      ChartsAnimatedChart.deriveEmergencyAlerts p.toChart f := by
  simp only [AnimatedCharts.deriveEmergencyAlerts, ChartsAnimatedChart.deriveEmergencyAlerts,
    AnimatedCharts.emergencySeries, ChartsAnimatedChart.emergencySeries,
    eqv_flowSeries p f _ _ hsec, eqv_slice, eqv_level4Alerts]
  rfl

theorem eqv_deriveDefault (p : AnimatedCharts.Props) (f : Nat)
    (hsec : NumericSeconds p.data) (hdef : DefinedField p.field p.data) :
    AnimatedCharts.deriveDefault p f = ChartsAnimatedChart.deriveDefault p.toChart f := by
  simp only [AnimatedCharts.deriveDefault, ChartsAnimatedChart.deriveDefault,
    eqv_attackRegionMarkers, eqv_ewsPoints, eqv_benignAttackSeries p f hsec hdef]

/-- The two copies of the derivation give the same result on rows with numeric
`Seconds` and a value under the field. -/
theorem eqv_deriveOverlay (p : AnimatedCharts.Props) (f : Nat)
    (hsec : NumericSeconds p.data) (hdef : DefinedField p.field p.data) :
    AnimatedCharts.deriveOverlay p f = ChartsAnimatedChart.deriveOverlay p.toChart f := by
  have hct : p.toChart.chartType = p.chartType := rfl
  simp only [AnimatedCharts.deriveOverlay, ChartsAnimatedChart.deriveOverlay, hct,
    eqv_benignAttackSeries p f hsec hdef, eqv_derivePeakRegion p f hsec hdef,
    eqv_deriveEarlyWarnings p f hsec, eqv_deriveAlerts p f hsec,
    eqv_deriveFlowWithEws p f hsec, eqv_deriveAlertLevelsSeparately p f hsec,
    eqv_deriveEmergencyAlerts p f hsec, eqv_deriveDefault p f hsec hdef]

/-! ## Claims on the series of the single chart types -/

/-- C21: in a `flow-with-ews` chart with `showEWS` set and level-4 indices
`level4`, every overlay derived at frame `f` has the annotation `ews-i` exactly
for the positions `i` below `min 3 |level4|` with `f > level4[i]`, and the series
`EWS n` exactly for `n = i + 1` with such an `i`; it has as many `EWS` series and
as many `ews` annotations as there are such positions, hence at most three, and
none for an index that `f` has not passed. The derivation yields an overlay at
every frame up to the number of rows when the rows carry numeric `Seconds` and
no index is negative. -/
theorem C21_ews_markers (p : Props) (f : Nat) (level4 : List Int)
    (hm : p.chartType = "flow-with-ews") (hs : p.showEWS = true)
    (hl : level4Alerts p = some level4) :
    (∀ o, deriveOverlay p f = some o →
      (∀ i, AnnotationId.ews i ∈ o.ids ↔
        ∃ idx, (level4.take 3)[i]? = some idx ∧ (f : Int) > idx) ∧
      (∀ n, SeriesLabel.ews n ∈ o.labels ↔
        ∃ i idx, n = i + 1 ∧ (level4.take 3)[i]? = some idx ∧ (f : Int) > idx) ∧
      (o.ids.filter AnnotationId.isEws).length =
        ((level4.take 3).filter (fun idx => decide ((f : Int) > idx))).length ∧
      (o.labels.filter SeriesLabel.isEws).length =
        ((level4.take 3).filter (fun idx => decide ((f : Int) > idx))).length ∧
      (o.labels.filter SeriesLabel.isEws).length ≤ 3) ∧
    (∀ d, p.data = some d → f ≤ d.length → NumericSeconds d → IndicesNonNegative p →
      ∃ o, deriveOverlay p f = some o) := by
  refine ⟨?_, fun d hd hf hsec hidx => deriveOverlay_isSome p d f hd hf hsec hidx⟩
  intro o ho
  have hids : ∀ i, AnnotationId.ews i ∈ o.ids ↔
      ∃ idx, (level4.take 3)[i]? = some idx ∧ (f : Int) > idx := by
    intro i
    rw [annotation_present_iff p f o _ ho, shown_ews]
    constructor
    · rintro ⟨_, _, l4, idx, hl4, hget, hf⟩
      rw [hl] at hl4
      cases hl4
      exact ⟨idx, hget, hf⟩
    · rintro ⟨idx, hget, hf⟩
      exact ⟨hm, hs, level4, idx, hl, hget, hf⟩
  obtain ⟨ews, he, hfi, hfl, _, hlab, hlen⟩ := flow_ews_filter p f o hm ho
  have hcount := ewsMarkers_count p f level4 ews hs hl he
  have hle : ((level4.take 3).filter (fun idx => decide ((f : Int) > idx))).length ≤ 3 := by
    have h1 := List.length_filter_le (fun idx => decide ((f : Int) > idx)) (level4.take 3)
    have h2 : (level4.take 3).length ≤ 3 := by
      rw [List.length_take]
      omega
    omega
  refine ⟨hids, ?_, by rw [hfi, hcount], by rw [hfl, ← hlen, hcount],
    by rw [hfl, ← hlen, hcount]; exact hle⟩
  intro n
  constructor
  · intro hn
    have hmem : SeriesLabel.ews n ∈ o.labels.filter SeriesLabel.isEws :=
      List.mem_filter.mpr ⟨hn, rfl⟩
    rw [hfl] at hmem
    obtain ⟨_, k, hk⟩ := hlab _ hmem
    cases hk
    obtain ⟨idx, hget, hf⟩ := (hids k).mp ((flow_ews_series_iff p f k o hm ho).mp hn)
    exact ⟨k, idx, rfl, hget, hf⟩
  · rintro ⟨i, idx, rfl, hget, hf⟩
    exact (flow_ews_series_iff p f i o hm ho).mpr ((hids i).mpr ⟨idx, hget, hf⟩)

/-- C21 at the EWS scenario (ten rows, `ews_alerts.level4 = [1, 6, 9]`): three
`EWS` series and three `ews` annotations at frame 10, one of each at frame 6. -/
theorem C21_witness :
    (∃ o, deriveOverlay ewsScenario 10 = some o ∧
      (o.labels.filter SeriesLabel.isEws).length = 3 ∧
      (o.ids.filter AnnotationId.isEws).length = 3) ∧
    (∃ o, deriveOverlay ewsScenario 6 = some o ∧
      (o.labels.filter SeriesLabel.isEws).length = 1 ∧
      (SeriesLabel.ews 2 ∈ o.labels ↔
        ∃ i idx, 2 = i + 1 ∧ (([1, 6, 9] : List Int).take 3)[i]? = some idx ∧
          ((6 : Nat) : Int) > idx)) :=
  have h10 := (C21_ews_markers ewsScenario 10 [1, 6, 9] rfl rfl rfl).1 _ rfl
  have h6 := (C21_ews_markers ewsScenario 6 [1, 6, 9] rfl rfl rfl).1 _ rfl
  ⟨⟨_, rfl, h10.2.2.2.1, h10.2.2.1⟩, ⟨_, rfl, h6.2.2.2.1, h6.2.1 2⟩⟩

/-- C22: the code differs. For each of the four alert-level charts of
`ChartGrid`, `parseInt(title.split(' ')[0]) || 0` reads the word `Level` of the
title and gives 0, so the test `alertLevel >= 1 && alertLevel <= 4` fails and
every overlay has the series `Traffic Flow` alone; in the flow scenario at frame
10 the chart of level 4 has no marker series although four visible rows have
`EWS` 4. With the titles of `FileUpload`, which start with the number, the level
is read and the series is there. -/
theorem C22_alert_level_series_missing (cleanedDf : List Row) (plotData : Option PlotData)
    (isAnalysisRunning : Bool) (level : Fin 4) (frame : Nat) :
    alertLevel (ChartGrid.alertLevelTitle (level.val + 1)) = 0 ∧
    (deriveOverlay (ChartGrid.alertLevelChart cleanedDf plotData isAnalysisRunning
        (level.val + 1)) frame).map Overlay.labels =
      (deriveOverlay (ChartGrid.alertLevelChart cleanedDf plotData isAnalysisRunning
        (level.val + 1)) frame).map (fun _ => [SeriesLabel.text "Traffic Flow"]) ∧
    (deriveOverlay (ChartGrid.alertLevelChart flowRows attackFlowScenario.plotData true 4)
        10).map Overlay.labels = some [SeriesLabel.text "Traffic Flow"] ∧
    (levelPoints (ChartGrid.alertLevelChart flowRows attackFlowScenario.plotData true 4)
        10 4).length = 4 ∧
    alertLevel (FileUpload.alertLevelTitle (level.val + 1)) = ((level.val + 1 : Nat) : Int) ∧
    (deriveOverlay
        { ChartGrid.alertLevelChart flowRows attackFlowScenario.plotData true 4 with
          title := FileUpload.alertLevelTitle 4 } 10).map Overlay.labels =
      some [SeriesLabel.text "Traffic Flow", SeriesLabel.alertCount "Very High" 4] := by
  have h0 := alertLevel_chartGrid level
  refine ⟨h0, ?_, by decide, by decide, by revert level; decide, by decide⟩
  have hd : deriveOverlay (ChartGrid.alertLevelChart cleanedDf plotData isAnalysisRunning
      (level.val + 1)) frame =
      deriveAlertLevelsSeparately (ChartGrid.alertLevelChart cleanedDf plotData
        isAnalysisRunning (level.val + 1)) frame := by
    simp only [deriveOverlay, ChartGrid.alertLevelChart, String.reduceEq, if_true, if_false]
  rw [hd]
  unfold deriveAlertLevelsSeparately
  have ht : (ChartGrid.alertLevelChart cleanedDf plotData isAnalysisRunning
      (level.val + 1)).title = ChartGrid.alertLevelTitle (level.val + 1) := rfl
  rw [ht, h0]
  cases attackRegionMarkers (ChartGrid.alertLevelChart cleanedDf plotData isAnalysisRunning
      (level.val + 1)) frame "Attack Start" "Attack Stop" with
  | none => rfl
  | some markers => simp [Overlay.labels, flowSeries]

/-- C23, as stated, fails: the flow scenario drawn as an `alerts` chart has at
frame 10 no series for the level 3, which no visible row has; and the copy
`components/AnimatedChart.js` labels its series `Level L Alert`, without the
number of points. -/
theorem C23_counterexample_empty_level :
    (deriveOverlay alertsScenario 10).map Overlay.labels =
      some [SeriesLabel.text "Traffic Flow", SeriesLabel.alertCount "Low" 1,
            SeriesLabel.alertCount "Medium" 1, SeriesLabel.alertCount "Very High" 4] ∧
    levelPoints alertsScenario 10 3 = [] ∧
    (AnimatedChart.alertsSeries legacyAlertsScenario 10).map Series.label =
      [SeriesLabel.text "Traffic Flow", SeriesLabel.text "Level 1 Alert",
       SeriesLabel.text "Level 2 Alert", SeriesLabel.text "Level 3 Alert",
       SeriesLabel.text "Level 4 Alert"] := by
  decide

/-- C23, amended: in the `alerts` case of `charts/AnimatedChart.js` every
overlay has the gray series `Traffic Flow` over all visible rows, followed, for
each level `L` of 1 to 4 in turn that at least one visible row has, by one
series whose points are the visible rows with `EWS == L` in order and whose label
carries the name of the level and the number of these points; a level that no
visible row has gets no series. The copy `components/AnimatedChart.js` pushes a
series for each of the four levels, with these points and the label
`Level L Alert`. -/
theorem C23_alerts_series (p : Props) (q : AnimatedChart.Props) (d : List Row) (f : Nat)
    (hm : p.chartType = "alerts") (hd : p.data = some d) :
    (∀ o, deriveOverlay p f = some o →
      o.series =
        { label := SeriesLabel.text "Traffic Flow",
          data := (d.take f).map (flowPoint p.field),
          borderColor := colors.trafficFlow }
        :: ([1, 2, 3, 4] : List Int).filterMap (fun level =>
            if (levelPoints p f level).length = 0 then none
            else some { label := SeriesLabel.alertCount (levelMap level)
                                   (levelPoints p f level).length,
                        data := levelPoints p f level, borderColor := colors.ews level })) ∧
    (∀ level, levelPoints p f level =
      ((d.take f).filter (fun r => r.get "EWS" == JsVal.num level)).map (rawPoint p.field)) ∧
    ((AnimatedChart.alertsSeries q f).map Series.label =
        [SeriesLabel.text "Traffic Flow", SeriesLabel.text "Level 1 Alert",
         SeriesLabel.text "Level 2 Alert", SeriesLabel.text "Level 3 Alert",
         SeriesLabel.text "Level 4 Alert"] ∧
      (AnimatedChart.alertsSeries q f).map Series.data =
        AnimatedChart.flowData q f ::
          ([1, 2, 3, 4] : List Int).map (fun level =>
            ((q.data.take f).filter (fun r => r.get "EWS" == JsVal.num level)).map
              (fun r => { x := r.get "Seconds", y := r.get q.field }))) := by
  refine ⟨?_, ?_, ?_, ?_⟩
  · intro o ho
    have hal : deriveAlerts p f = some o := by
      simpa only [deriveOverlay, hm, String.reduceEq, if_true, if_false] using ho
    unfold deriveAlerts at hal
    cases hmk : attackRegionMarkers p f "Attack Start" "Attack Stop" with
    | none => simp [hmk] at hal
    | some markers =>
      simp only [hmk, Option.some.injEq] at hal
      subst hal
      simp only [flowSeries, flowData_eq_map, hd, slice_some, alertLevelSeries_eq_filterMap]
  · intro level
    simp only [levelPoints, hd, slice_some]
  · rfl
  · rfl

/-- C23 at the flow scenario drawn as an `alerts` chart, frame 10. -/
theorem C23_witness :
    ∃ o, deriveOverlay alertsScenario 10 = some o ∧
      o.labels = [SeriesLabel.text "Traffic Flow", SeriesLabel.alertCount "Low" 1,
                  SeriesLabel.alertCount "Medium" 1, SeriesLabel.alertCount "Very High" 4] :=
  have h := (C23_alerts_series alertsScenario legacyAlertsScenario flowRows 10 rfl rfl).1 _ rfl
  ⟨_, rfl, by rw [Overlay.labels, h]; decide⟩

/-- C26: the code differs. The chart type `confusion-matrix` that `ChartGrid`
configures is not the label `ews-confusion` of the clause that skips the chart, so
the `switch` takes the `default` clause: every overlay has the series `Benign`
and `Attack`, and in the flow scenario at frame 4 an EWS point annotation as
well. The chart type `ews-confusion` gives no series and no annotation. -/
theorem C26_confusion_matrix_takes_default (cleanedDf : List Row) (plotData : Option PlotData)
    (isAnalysisRunning : Bool) (p : Props) (frame : Nat) :
    deriveOverlay (ChartGrid.confusionMatrixChart cleanedDf plotData isAnalysisRunning) frame =
      deriveDefault (ChartGrid.confusionMatrixChart cleanedDf plotData isAnalysisRunning) frame ∧
    (deriveOverlay (ChartGrid.confusionMatrixChart cleanedDf plotData isAnalysisRunning)
        frame).map Overlay.labels =
      (deriveOverlay (ChartGrid.confusionMatrixChart cleanedDf plotData isAnalysisRunning)
        frame).map (fun _ => [SeriesLabel.text "Benign", SeriesLabel.text "Attack"]) ∧
    (deriveOverlay (ChartGrid.confusionMatrixChart flowRows attackFlowScenario.plotData true)
        4).map (fun o => (o.labels, o.ids)) =
      some ([SeriesLabel.text "Benign", SeriesLabel.text "Attack"],
            [AnnotationId.ewsLevel 4 0]) ∧
    deriveOverlay { p with chartType := "ews-confusion" } frame =
      some { series := [], annotations := [] } := by
  have hd : deriveOverlay (ChartGrid.confusionMatrixChart cleanedDf plotData isAnalysisRunning)
      frame =
      deriveDefault (ChartGrid.confusionMatrixChart cleanedDf plotData isAnalysisRunning)
        frame := by
    simp only [deriveOverlay, ChartGrid.confusionMatrixChart, String.reduceEq, if_true, if_false]
  refine ⟨hd, ?_, by decide, ?_⟩
  · rw [hd]
    unfold deriveDefault
    cases attackRegionMarkers (ChartGrid.confusionMatrixChart cleanedDf plotData
        isAnalysisRunning) frame "Attack Start" "Attack End" with
    | none => rfl
    | some markers =>
      cases ewsPoints (ChartGrid.confusionMatrixChart cleanedDf plotData isAnalysisRunning)
          frame with
      | none => rfl
      | some points => simp [Overlay.labels, benignAttackSeries]
  · simp only [deriveOverlay, String.reduceEq, if_true, if_false]

/-- C24: in the `early-warnings` case the overlay is derived at every frame and
has, after the series `Traffic Flow`, one series per distinct `Label` value of
the visible rows, in the order of first occurrence: the list of these values has
no repetition, holds exactly the `Label` values of the visible rows, and its
`k`-th value gets the colour `hsl((k * 137) % 360, 70%, 60%)`. For frames
`f ≤ g` the list at `f` is a prefix of the list at `g`, so the `k`-th label
series at `f` has a `k`-th label series at `g` with the same label and the same
colour. -/
theorem C24_label_series_stable (p : Props) (f g : Nat)
    (hm : p.chartType = "early-warnings") (hfg : f ≤ g) :
    deriveOverlay p f =
      some { series := flowSeries p f "Traffic Flow" colors.trafficFlow ::
                (labelSeriesFrom p f 0 (uniqueLabels p f) ++ warningSeries p f),
             annotations := [] } ∧
    ((uniqueLabels p f).Nodup ∧
      ∀ v, v ∈ uniqueLabels p f ↔ ∃ r ∈ slice p.data f, r.get "Label" = v) ∧
    (∀ k : Nat, (labelSeriesFrom p f 0 (uniqueLabels p f))[k]? =
      (uniqueLabels p f)[k]?.map (fun v =>
        { label := SeriesLabel.value v,
          data := ((slice p.data f).filter (fun r => r.get "Label" == v)).map (rawPoint p.field),
          borderColor := Colour.hsl ((k * 137) % 360) })) ∧
    uniqueLabels p f <+: uniqueLabels p g ∧
    (∀ (k : Nat) (s : Series), (labelSeriesFrom p f 0 (uniqueLabels p f))[k]? = some s →
      ∃ s2, (labelSeriesFrom p g 0 (uniqueLabels p g))[k]? = some s2 ∧
        s2.label = s.label ∧ s2.borderColor = s.borderColor) := by
  have hget : ∀ (h k : Nat), (labelSeriesFrom p h 0 (uniqueLabels p h))[k]? =
      (uniqueLabels p h)[k]?.map (fun v =>
        { label := SeriesLabel.value v,
          data := ((slice p.data h).filter (fun r => r.get "Label" == v)).map (rawPoint p.field),
          borderColor := Colour.hsl ((k * 137) % 360) }) := by
    intro h k
    have := labelSeriesFrom_getElem p h (uniqueLabels p h) 0 k
    simpa using this
  have hpre := uniqueLabels_prefix p f g hfg
  refine ⟨?_, ⟨?_, ?_⟩, hget f, hpre, ?_⟩
  · simp only [deriveOverlay, hm, String.reduceEq, if_true, if_false, deriveEarlyWarnings]
  · exact setInsertAll_nodup _ [] List.nodup_nil
  · intro v
    unfold uniqueLabels
    rw [mem_setInsertAll]
    simp only [List.not_mem_nil, false_or, List.mem_map]
  · intro k s hs
    rw [hget f k] at hs
    cases hv : (uniqueLabels p f)[k]? with
    | none => simp [hv] at hs
    | some v =>
      simp only [hv, Option.map_some', Option.some.injEq] at hs
      obtain ⟨t, ht⟩ := hpre
      have hv2 : (uniqueLabels p g)[k]? = some v := by
        rw [← ht]
        have hk : k < (uniqueLabels p f).length := by
          by_contra hcon
          rw [List.getElem?_eq_none (by omega)] at hv
          cases hv
        rw [List.getElem?_append_left hk]
        exact hv
      refine ⟨_, by rw [hget g k, hv2]; rfl, ?_, ?_⟩
      · rw [← hs]
      · rw [← hs]

/-- C24 at the peak scenario drawn as an `early-warnings` chart: the label
`BENIGN` alone at frame 2, `BENIGN` and `DDoS` at frame 5. -/
theorem C24_witness :
    uniqueLabels earlyWarningScenario 2 = [JsVal.str "BENIGN"] ∧
    uniqueLabels earlyWarningScenario 5 = [JsVal.str "BENIGN", JsVal.str "DDoS"] ∧
    uniqueLabels earlyWarningScenario 2 <+: uniqueLabels earlyWarningScenario 5 :=
  ⟨by decide, by decide, (C24_label_series_stable earlyWarningScenario 2 5 rfl (by decide)).2.2.2.1⟩

/-- C25: in the `early-warnings` case, when no visible row has a string as
`EWS` (a number, `null` or no value at all: then `r.EWS > 0` holds exactly when
`EWS` is a number above 0), the series `Early Warning (1 per 10)` is the last
series of the overlay when `showEWS` is set and at least one visible row has
`EWS > 0`, and is absent otherwise. With `m` the number of these rows, its data
has `⌈m / 10⌉` points, and its `j`-th point is the point of the row at position
`10 * j` among these rows: the 1st, the 11th, the 21st and so on. -/
theorem C25_decimated_warnings (p : Props) (f : Nat) (hm : p.chartType = "early-warnings")
    (hews : ∀ r ∈ slice p.data f, (r.get "EWS").isString = false) :
    deriveOverlay p f =
      some { series := flowSeries p f "Traffic Flow" colors.trafficFlow ::
                (labelSeriesFrom p f 0 (uniqueLabels p f) ++ warningSeries p f),
             annotations := [] } ∧
    (∀ r ∈ slice p.data f,
      (jsGt (r.get "EWS") (JsVal.num 0) = true ↔ ∃ n : Int, r.get "EWS" = JsVal.num n ∧ 0 < n)) ∧
    ((p.showEWS = false ∨
        ((slice p.data f).filter (fun r => jsGt (r.get "EWS") (JsVal.num 0))).length = 0) →
      warningSeries p f = []) ∧
    ((p.showEWS = true ∧
        ((slice p.data f).filter (fun r => jsGt (r.get "EWS") (JsVal.num 0))).length ≥ 1) →
      ∃ s : Series, warningSeries p f = [s] ∧
        s.label = SeriesLabel.text "Early Warning (1 per 10)" ∧
        s.data.length =
          (((slice p.data f).filter (fun r => jsGt (r.get "EWS") (JsVal.num 0))).length + 9) / 10 ∧
        ∀ j : Nat, s.data[j]? =
          (((slice p.data f).filter (fun r => jsGt (r.get "EWS") (JsVal.num 0)))[10 * j]?).map
            (rawPoint p.field)) := by
  have hany : (slice p.data f).any (fun r => jsGt (r.get "EWS") (JsVal.num 0)) = true ↔
      ((slice p.data f).filter (fun r => jsGt (r.get "EWS") (JsVal.num 0))).length ≥ 1 := by
    rw [List.any_eq_true]
    constructor
    · rintro ⟨r, hr, hp⟩
      exact List.length_pos_of_mem (List.mem_filter.mpr ⟨hr, hp⟩)
    · intro h
      obtain ⟨r, hr⟩ := List.exists_mem_of_length_pos h
      exact ⟨r, (List.mem_filter.mp hr).1, (List.mem_filter.mp hr).2⟩
  refine ⟨?_, ?_, ?_, ?_⟩
  · simp only [deriveOverlay, hm, String.reduceEq, if_true, if_false, deriveEarlyWarnings]
  · intro r hr
    have hstr := hews r hr
    cases hv : r.get "EWS" with
    | undefined => simp [jsGt, JsVal.toNumber?]
    | null => simp [jsGt, JsVal.toNumber?]
    | num n => simp [jsGt, JsVal.toNumber?]
    | str t => simp [hv, JsVal.isString] at hstr
  · rintro (h | h)
    · simp [warningSeries, h]
    · have hn : ¬ ((slice p.data f).any (fun r => jsGt (r.get "EWS") (JsVal.num 0)) = true) := by
        rw [hany]; omega
      simp only [Bool.not_eq_true] at hn
      simp [warningSeries, hn]
  · rintro ⟨hs, hlen⟩
    have ha := hany.mpr hlen
    refine ⟨{ label := SeriesLabel.text "Early Warning (1 per 10)",
               data := (filterIdxFrom (fun i => i % 10 == 0) 0
                 ((slice p.data f).filter (fun r => jsGt (r.get "EWS") (JsVal.num 0)))).map
                 (rawPoint p.field),
               borderColor := colors.earlyWarning },
      by simp only [warningSeries, hs, ha, Bool.and_self, if_true], rfl, ?_, ?_⟩
    · simp only [List.length_map]
      rw [filterIdxFrom_tenth_length]
    · intro j
      simp only [List.getElem?_map]
      rw [filterIdxFrom_tenth_getElem]
      simp

/-- C25 at the peak scenario drawn as an `early-warnings` chart, frame 5: every
`EWS` is a number, four rows have `EWS > 0`, and the series has the point of the
first of them. -/
theorem C25_witness :
    (∀ r ∈ slice earlyWarningScenario.data 5, (r.get "EWS").isString = false) ∧
    ∃ s : Series, warningSeries earlyWarningScenario 5 = [s] ∧
      s.data = [ { x := JsVal.num 1, y := JsVal.num 4 } ] ∧
      ((slice earlyWarningScenario.data 5).filter
        (fun r => jsGt (r.get "EWS") (JsVal.num 0))).length = 4 := by
  obtain ⟨s, hs, _, _, _⟩ :=
    (C25_decimated_warnings earlyWarningScenario 5 rfl (by decide)).2.2.2 ⟨rfl, by decide⟩
  refine ⟨by decide, s, hs, ?_, by decide⟩
  have h : warningSeries earlyWarningScenario 5 =
      [ { label := SeriesLabel.text "Early Warning (1 per 10)",
          data := [ { x := JsVal.num 1, y := JsVal.num 4 } ],
          borderColor := colors.earlyWarning } ] := by decide
  rw [h] at hs
  cases hs
  rfl

/-! ## Claims on the events of a whole playback -/

/-- C27, as stated, fails: the five-row attack scenario, a `peak-region` chart,
played to the end is Complete and has dispatched neither `animationComplete`
nor `plottingEnded`. -/
theorem C27_counterexample_no_completion_event :
    (mount attackScenario).dataError = none ∧
    (ticks attackScenario 5 (mount attackScenario)).1.isComplete = true ∧
    (ticks attackScenario 8 (mount attackScenario)).2.count Event.plottingEnded = 0 ∧
    (ticks attackScenario 8 (mount attackScenario)).2.count
      (Event.animationComplete "peak-region") = 0 := by
  decide

/-- C27, amended: on a dataset of `N ≥ 1` rows that passed validation, the first
`N - 1` ticks of an uninterrupted playback from the mounted state dispatch no
completion event and leave the state not Complete; the `N`-th tick makes the
state Complete and dispatches `animationComplete` and `plottingEnded` when the
chart type is `flow-with-ews`, and nothing otherwise; so every playback of at
least `N` ticks has dispatched each of the two exactly once in a `flow-with-ews`
chart and never in any other chart. The copy `components/AnimatedCharts.js`
dispatches `animationComplete` alone, under the same test. -/
theorem C27_completion_event_once (p : Props) (r : AnimatedCharts.Props) (n : Nat) (c : String)
    (hvalid : (mount p).dataError = none) (hfield : p.field ≠ "") (hn : maxFrames p ≤ n)
    (hr : 1 ≤ AnimatedCharts.maxFrames r) (hrn : AnimatedCharts.maxFrames r ≤ n) :
    ((ticks p (maxFrames p - 1) (mount p)).1.isComplete = false ∧
      (ticks p (maxFrames p - 1) (mount p)).2.count Event.plottingEnded = 0 ∧
      (ticks p (maxFrames p - 1) (mount p)).2.count (Event.animationComplete c) = 0) ∧
    ((tick p (ticks p (maxFrames p - 1) (mount p)).1).1.isComplete = true ∧
      (tick p (ticks p (maxFrames p - 1) (mount p)).1).2 =
        if p.chartType = "flow-with-ews" then
          [Event.animationComplete p.chartType, Event.plottingEnded]
        else []) ∧
    ((ticks p n (mount p)).1.isComplete = true ∧
      (ticks p n (mount p)).2.count Event.plottingEnded =
        (if p.chartType = "flow-with-ews" then 1 else 0) ∧
      (ticks p n (mount p)).2.count (Event.animationComplete c) =
        (if p.chartType = "flow-with-ews" ∧ c = p.chartType then 1 else 0)) ∧
    (AnimatedCharts.ticks r n (AnimatedCharts.useStateInit r)).2 =
      (if r.chartType = "flow-with-ews" then [Event.animationComplete r.chartType] else []) := by
  obtain ⟨hm, hN⟩ := mount_valid p hvalid
  have hs : timerScheduled p (mount p) = true := by
    rw [hm]; exact timerScheduled_of_running p _ rfl rfl rfl hfield hN
  have hfr : (mount p).frame = 1 := by rw [hm]; rfl
  have hcomp : (mount p).isComplete = false := by rw [hm]; rfl
  have hk : (mount p).frame + (maxFrames p - 1) = maxFrames p := by rw [hfr]; omega
  have hrun := ticks_run p (maxFrames p - 1) (mount p) hs hk
  have hz1 := ticks_run_count_zero p Event.plottingEnded
    (fun f => count_events_completion p f _ (Or.inl rfl)) (maxFrames p - 1) (mount p) hs hk
  have hz2 := ticks_run_count_zero p (Event.animationComplete c)
    (fun f => count_events_completion p f _ (Or.inr ⟨c, rfl⟩)) (maxFrames p - 1) (mount p) hs hk
  have hlast : timerScheduled p { mount p with frame := maxFrames p } = true := by
    rw [timerScheduled_frame]; exact hs
  have htick := tick_complete p { mount p with frame := maxFrames p } hlast (le_refl _)
  have hpb := playback p (mount p) n hs (by rw [hfr]; omega) (by rw [hfr]; omega)
  have hev := playback_events p (mount p) n hs (by rw [hfr]; omega) (by rw [hfr]; omega)
  have hsub : maxFrames p - (mount p).frame = maxFrames p - 1 := by rw [hfr]
  rw [hsub] at hev
  refine ⟨⟨by rw [hrun.1]; exact hcomp, hz1, hz2⟩, ?_, ⟨by rw [hpb.1], ?_, ?_⟩, ?_⟩
  · rw [hrun.1, htick]
    refine ⟨rfl, ?_⟩
    by_cases hc : p.chartType = "flow-with-ews" <;> simp [hc]
  · rw [hev, List.count_append, hz1]
    by_cases hc : p.chartType = "flow-with-ews" <;> simp [hc, List.count_cons]
  · rw [hev, List.count_append, hz2]
    by_cases hc : p.chartType = "flow-with-ews"
    · by_cases hcc : c = p.chartType
      · simp [hc, hcc, List.count_cons]
      · have hcc2 : ¬ (p.chartType = c) := fun h => hcc h.symm
        have hcc3 : ¬ ("flow-with-ews" = c) := by rw [← hc]; exact hcc2
        have hcc4 : ¬ (c = "flow-with-ews") := by rw [← hc]; exact hcc
        simp [hc, hcc3, hcc4, List.count_cons]
    · simp [hc]
  · have hup := AnimatedCharts.upload_playback r (AnimatedCharts.useStateInit r) n
      (by simp [AnimatedCharts.intervalActive, AnimatedCharts.useStateInit])
      (by simp only [AnimatedCharts.useStateInit]; omega)
      (by simp only [AnimatedCharts.useStateInit]; omega)
    rw [hup]
    by_cases hc : r.chartType = "flow-with-ews" <;> simp [hc]

/-- C27 at the ten-row EWS scenario, a `flow-with-ews` chart, after 12 ticks, and
at the five-row scenario of `components/AnimatedCharts.js`. -/
theorem C27_witness :
    (ticks ewsScenario 12 (mount ewsScenario)).1.isComplete = true ∧
    (ticks ewsScenario 12 (mount ewsScenario)).2.count Event.plottingEnded = 1 ∧
    (ticks ewsScenario 12 (mount ewsScenario)).2.count
      (Event.animationComplete "flow-with-ews") = 1 :=
  have h := C27_completion_event_once ewsScenario uploadScenario 12 "flow-with-ews"
    (by decide) (by decide) (by decide) (by decide) (by decide)
  ⟨h.2.2.1.1, h.2.2.1.2.1, h.2.2.1.2.2⟩

/-- C29, as stated, fails for the level-4 indices: in the `flow-with-ews` chart
of ten rows with `ews_alerts.level4 = [1, 6, 9]` and `showEWS` left at false, the
playback to the end dispatches no `ewsAlertDetected` event, for the index 6 in
`[2, 10]` either. -/
theorem C29_counterexample_ews_hidden :
    ewsHiddenScenario.chartType = "flow-with-ews" ∧
    level4Alerts ewsHiddenScenario = some [1, 6, 9] ∧
    maxFrames ewsHiddenScenario = 10 ∧
    (ticks ewsHiddenScenario 10 (mount ewsHiddenScenario)).1.isComplete = true ∧
    (ticks ewsHiddenScenario 10 (mount ewsHiddenScenario)).2.count (Event.ewsAlertDetected 2) = 0 := by
  decide

/-- C29, amended: on a dataset of `N ≥ 1` rows that passed validation, an
uninterrupted playback from the mounted state (frame 1) to Complete dispatches
the event of a watched index `i` (`attackDetected` for the first element of
`attack_indices`, `attackEnded` for the last, `ewsAlertDetected k` for the `k`-th
of the first three level-4 indices of a `flow-with-ews` chart with `showEWS`
set) exactly once if `2 ≤ i ≤ N` and never if `i ≤ 1` or `i > N`; with `showEWS`
not set no `ewsAlertDetected` event is dispatched at all. -/
theorem C29_watched_event_count (p : Props) (ev : Event) (i : Int) (n k : Nat)
    (hvalid : (mount p).dataError = none) (hfield : p.field ≠ "")
    (hw : watchedIndex p ev = some i) (hn : maxFrames p ≤ n) :
    (ticks p n (mount p)).1.isComplete = true ∧
    (ticks p n (mount p)).2.count ev =
      (if 2 ≤ i ∧ i ≤ (maxFrames p : Int) then 1 else 0) ∧
    (p.showEWS = false → (ticks p n (mount p)).2.count (Event.ewsAlertDetected k) = 0) := by
  obtain ⟨hm, hN⟩ := mount_valid p hvalid
  have hs : timerScheduled p (mount p) = true := by
    rw [hm]; exact timerScheduled_of_running p _ rfl rfl rfl hfield hN
  have hfr : (mount p).frame = 1 := by rw [hm]; rfl
  have hpb := playback p (mount p) n hs (by rw [hfr]; omega) (by rw [hfr]; omega)
  refine ⟨by rw [hpb.1], ?_, ?_⟩
  · rw [hpb.2 ev i hw, hfr]
    by_cases hc : 2 ≤ i ∧ i ≤ (maxFrames p : Int)
    · have : ((1 : Nat) : Int) ≤ i - 1 ∧ i - 1 < (maxFrames p : Int) := by
        constructor <;> push_cast <;> omega
      rw [if_pos this, if_pos hc]
    · have : ¬ (((1 : Nat) : Int) ≤ i - 1 ∧ i - 1 < (maxFrames p : Int)) := by
        push_cast
        omega
      rw [if_neg this, if_neg hc]
  · intro hhid
    exact ticks_count_zero p _ (fun f => count_events_ews_hidden p hhid k f)
      ⟨by simp, by simp⟩ n (mount p)

/-- C29 at the attack scenario (`attack_indices = [2, 3, 4]`, five rows): the
event `attackDetected` of the index 2 is dispatched once. -/
theorem C29_witness :
    watchedIndex attackScenario Event.attackDetected = some 2 ∧
    (ticks attackScenario 5 (mount attackScenario)).1.isComplete = true ∧
    (ticks attackScenario 5 (mount attackScenario)).2.count Event.attackDetected = 1 :=
  have h := C29_watched_event_count attackScenario Event.attackDetected 2 5 1
    (by decide) (by decide) (by decide) (by decide)
  ⟨by decide, h.1, h.2.1⟩

/-- C28: in the `peak-region` case with `first_attack_idx` other than -1, every
overlay derived at frame `f` has the `peakPoint` annotation and the series
`Peak Point` iff one of the first `f` rows has a `Label` other than `BENIGN`; the
test `frame > lastFrameIdx` passes for the peak row; the point and the line are
those of the row at `peakIdx` of the attack rows visible at `f`, which for
numeric values is the first maximum among these rows. The overlay is derived at
every frame up to the number of rows when `first_attack_idx` is absent or not
negative. -/
theorem C28_peak_point_of_visible_rows (p : Props) (d : List Row) (f : Nat)
    (hm : p.chartType = "peak-region") (hd : p.data = some d)
    (hne1 : firstAttackIdx p ≠ some (-1)) :
    attackRows p.data f = (d.take f).filter (fun r => r.get "Label" != JsVal.str "BENIGN") ∧
    (∀ o, deriveOverlay p f = some o →
      (AnnotationId.peakPoint ∈ o.ids ↔ (attackRows p.data f).length > 0) ∧
      (SeriesLabel.text "Peak Point" ∈ o.labels ↔ (attackRows p.data f).length > 0) ∧
      (∀ peakRow,
        (attackRows p.data f)[peakIdx p.field (attackRows p.data f)]? = some peakRow →
          (f : Int) > findIndexFrom (fun r => r.get "Seconds" == peakRow.get "Seconds") 0 d ∧
          { label := SeriesLabel.text "Peak Point",
            data := [ { x := peakRow.get "Seconds", y := peakRow.get p.field } ],
            borderColor := colors.peakPointMarker } ∈ o.series ∧
          (AnnotationId.peakPoint,
            AnnotationSpec.line (peakRow.get "Seconds") "Peak Point" colors.peakPointLine)
            ∈ o.annotations)) ∧
    ((attackRows p.data f).length > 0 →
      (∀ r ∈ attackRows p.data f, ∃ n, r.get p.field = JsVal.num n) →
      ∃ peakRow,
        (attackRows p.data f)[peakIdx p.field (attackRows p.data f)]? = some peakRow ∧
        (∀ (k : Nat) rk, (attackRows p.data f)[k]? = some rk →
          fieldNum p.field rk ≤ fieldNum p.field peakRow) ∧
        (∀ (k : Nat) rk, k < peakIdx p.field (attackRows p.data f) →
          (attackRows p.data f)[k]? = some rk →
          fieldNum p.field rk < fieldNum p.field peakRow)) ∧
    (f ≤ d.length → (∀ idx, firstAttackIdx p = some idx → 0 ≤ idx) →
      ∃ o, deriveOverlay p f = some o) := by
  have hbne : (firstAttackIdx p != some (-1)) = true := by simpa using hne1
  have hvis := visiblePeak_eq p f
  refine ⟨by simp only [attackRows, hd, slice_some], ?_, ?_, ?_⟩
  · intro o hderive
    have ho : derivePeakRegion p f = some o := by
      simpa only [deriveOverlay, hm, String.reduceEq, if_true, if_false] using hderive
    refine ⟨?_, ?_, ?_⟩
    · rw [annotation_present_iff p f o _ hderive, shown_peakPoint]
      constructor
      · exact fun h => h.2.2
      · exact fun h => ⟨hm, hne1, h⟩
    · unfold derivePeakRegion at ho
      by_cases hrows : (attackRows p.data f).length > 0
      · simp only [hbne, hrows, decide_True, Bool.and_self, if_true] at ho
        have hsome := visiblePeak_isSome p f
        simp only [hrows, decide_True] at hsome
        obtain ⟨peakRow, hpk⟩ := Option.isSome_iff_exists.mp hsome
        cases hst : peakRegionStart p f with
        | none => simp [hst] at ho
        | some startMarker =>
          simp only [hst, hpk, Option.some.injEq] at ho
          subst ho
          simp [Overlay.labels, hrows]
      · simp only [hrows, decide_False, Bool.and_false, Bool.false_eq_true, if_false,
          Option.some.injEq] at ho
        subst ho
        simp [Overlay.labels, benignAttackSeries, hrows]
    · intro peakRow hrow
      have hmem : peakRow ∈ attackRows p.data f := List.getElem?_mem hrow
      have hrows : (attackRows p.data f).length > 0 := List.length_pos_of_mem hmem
      have hin : peakRow ∈ d.take f := by
        have hslice : peakRow ∈ slice p.data f := (List.mem_filter.mp hmem).1
        rwa [hd, slice_some] at hslice
      have hidx := findIndexFrom_lt (fun r => r.get "Seconds" == peakRow.get "Seconds") d 0 f
        ⟨peakRow, hin, by simp⟩
      refine ⟨by simpa using hidx, ?_⟩
      unfold derivePeakRegion at ho
      simp only [hbne, hrows, decide_True, Bool.and_self, if_true] at ho
      rw [hvis, hrow] at ho
      cases hst : peakRegionStart p f with
      | none => simp [hst] at ho
      | some startMarker =>
        simp only [hst, Option.some.injEq] at ho
        subst ho
        simp
  · intro hrows hnum
    exact peakIdx_spec p.field (attackRows p.data f) (List.length_pos.mp hrows) hnum
  · intro hf hfirst
    obtain ⟨o, ho⟩ := derivePeakRegion_isSome p d f hd hf (fun idx h => Or.inr (hfirst idx h))
    exact ⟨o, by simpa only [deriveOverlay, hm, String.reduceEq, if_true, if_false] using ho⟩

/-- C28 at the peak scenario, frames 2 and 4: no peak while the visible rows
are all `BENIGN`; at frame 4 the peak is row 2, the first of the two rows with
the value 9. -/
theorem C28_witness :
    (∃ o, deriveOverlay peakScenario 2 = some o ∧ AnnotationId.peakPoint ∉ o.ids ∧
      SeriesLabel.text "Peak Point" ∉ o.labels) ∧
    (∃ o, deriveOverlay peakScenario 4 = some o ∧ AnnotationId.peakPoint ∈ o.ids ∧
      { label := SeriesLabel.text "Peak Point",
        data := [ { x := JsVal.num 2, y := JsVal.num 9 } ],
        borderColor := colors.peakPointMarker } ∈ o.series) :=
  have h := (C28_peak_point_of_visible_rows peakScenario peakRows 4 rfl rfl (by decide)).2.1 _ rfl
  ⟨⟨_, rfl, by decide, by decide⟩, _, rfl, h.1.mpr (by decide),
    (h.2.2 (mkRow 2 "DDoS" 9 4) (by decide)).2.1⟩

/-! ## Claim on the two copies of the overlay derivation -/

/-- C30: the derivation of `components/AnimatedCharts.js` and that of
`components/charts/AnimatedChart.js` give the same result on the same dataset,
field, metadata, chart type, options, title and frame, when every row has a
number under `Seconds` and a value under the field: the same series in the same
order with the same labels and points, the same annotations under the same keys,
and the same failure if a read throws. The result is an overlay at every frame
up to the number of rows when no index of the metadata is negative. -/
theorem C30_overlay_copies_agree (p : AnimatedCharts.Props) (f : Nat)
    (hsec : NumericSeconds p.data) (hdef : DefinedField p.field p.data) :
    AnimatedCharts.deriveOverlay p f = deriveOverlay p.toChart f ∧
    (f ≤ p.data.length → IndicesNonNegative p.toChart →
      ∃ o, AnimatedCharts.deriveOverlay p f = some o ∧ deriveOverlay p.toChart f = some o) := by
  have heq := eqv_deriveOverlay p f hsec hdef
  refine ⟨heq, ?_⟩
  intro hf hidx
  obtain ⟨o, ho⟩ := deriveOverlay_isSome p.toChart p.data f rfl hf hsec hidx
  exact ⟨o, heq.trans ho, ho⟩

/-- C30 at the flow scenario, frame 9: both copies derive the overlay with the
series `Flow Packets/s`, `Peak Attack`, `EWS 1` and `EWS 2`. -/
theorem C30_witness :
    AnimatedCharts.deriveOverlay uploadFlowScenario 9 =
      deriveOverlay uploadFlowScenario.toChart 9 ∧
    (AnimatedCharts.deriveOverlay uploadFlowScenario 9).map Overlay.labels =
      some [SeriesLabel.text "Flow Packets/s", SeriesLabel.text "Peak Attack",
            SeriesLabel.ews 1, SeriesLabel.ews 2] :=
  ⟨(C30_overlay_copies_agree uploadFlowScenario 9
      (by
        intro r hr
        simp only [uploadFlowScenario, flowRows, peakRows, List.cons_append, List.nil_append,
          List.mem_cons, List.mem_singleton, List.not_mem_nil, or_false] at hr
        rcases hr with h | h | h | h | h | h | h | h | h | h <;> subst h <;> exact ⟨_, rfl⟩)
      (by
        intro r hr
        simp only [uploadFlowScenario, flowRows, peakRows, List.cons_append, List.nil_append,
          List.mem_cons, List.mem_singleton, List.not_mem_nil, or_false] at hr
        rcases hr with h | h | h | h | h | h | h | h | h | h <;> subst h <;> decide)).1,
    by decide⟩

/-! ## The restart button of `src/components/AnimatedChart.js` -/

namespace AnimatedChart

/-- While the interval is live exactly when the state is neither paused nor
complete, a tick on the session is a tick on the state, and the interval stays
so. -/
theorem session_tick_sync (p : Props) (s : Session) (h : s.timer = intervalActive s.state) :
    (Session.tick p s).state = tick p s.state ∧
      (Session.tick p s).timer = intervalActive (tick p s.state) := by
  obtain ⟨⟨frame, isPaused, isComplete⟩, timer⟩ := s
  simp only at h
  subst h
  cases isPaused <;> cases isComplete <;>
    by_cases hf : frame ≥ maxFrames p <;>
    simp [Session.tick, tick, intervalActive, intervalCallback, animationEffect, hf]

theorem session_ticks_sync (p : Props) (n : Nat) :
    ∀ s : Session, s.timer = intervalActive s.state →
      (Session.ticks p n s).state = ticks p n s.state := by
  induction n with
  | zero => intro s _; rfl
  | succ n ih =>
    intro s h
    have hs := session_tick_sync p s h
    simp only [Session.ticks, ticks]
    rw [ih (Session.tick p s) (by rw [hs.2, hs.1]), hs.1]

theorem session_ticks_dead (p : Props) (n : Nat) :
    ∀ s : Session, s.timer = false → Session.ticks p n s = s := by
  induction n with
  | zero => intro s _; rfl
  | succ n ih =>
    intro s h
    have ht : Session.tick p s = s := by simp [Session.tick, h]
    simp only [Session.ticks, ht]
    exact ih s h

theorem session_restart_eq (s : Session) :
    s.restart = { state := restart s.state, timer := s.state.isPaused || s.state.isComplete } := by
  obtain ⟨⟨frame, isPaused, isComplete⟩, timer⟩ := s
  cases isPaused <;> cases isComplete <;>
    simp [Session.restart, restart, animationEffect, intervalActive]

end AnimatedChart

/-! ## Restart and validation -/

/-- C10: a click on the restart button of `components/AnimatedChart.js` yields,
from every session, running, paused or complete, with or without a live
interval, the state `frame = 1`, `isPaused = false`, `isComplete = false`. The
interval is live afterwards iff the state was paused or complete before (the
animation effect runs again only when `isPaused` or `isComplete` changed): then
the playback that follows ends Complete at `frame = maxFrames`; after a restart
from a running state the interval of line 57 stays cleared and every number of
ticks leaves the session as it is. -/
theorem C10_restart_resets (p : AnimatedChart.Props) (s : AnimatedChart.Session) (n : Nat) :
    s.restart.state.frame = 1 ∧
    s.restart.state.isPaused = false ∧
    s.restart.state.isComplete = false ∧
    s.restart.timer = (s.state.isPaused || s.state.isComplete) ∧
    ((s.state.isPaused || s.state.isComplete) = true → 1 ≤ AnimatedChart.maxFrames p →
      AnimatedChart.maxFrames p ≤ n →
      (AnimatedChart.Session.ticks p n s.restart).state =
        { frame := AnimatedChart.maxFrames p, isPaused := false, isComplete := true }) ∧
    ((s.state.isPaused || s.state.isComplete) = false →
      AnimatedChart.Session.ticks p n s.restart = s.restart) := by
  have hr := AnimatedChart.session_restart_eq s
  refine ⟨by rw [hr]; rfl, by rw [hr]; rfl, by rw [hr]; rfl, by rw [hr], ?_, ?_⟩
  · intro hlive hN hn
    have hsync : s.restart.timer = AnimatedChart.intervalActive s.restart.state := by
      rw [hr]
      simp [AnimatedChart.intervalActive, AnimatedChart.restart, hlive]
    rw [AnimatedChart.session_ticks_sync p n s.restart hsync, hr]
    have hf : (AnimatedChart.restart s.state).frame = 1 := rfl
    rw [AnimatedChart.chart_playback p (AnimatedChart.restart s.state) n rfl
      (by rw [hf]; exact hN) (by rw [hf]; omega)]
    rfl
  · intro hrun
    apply AnimatedChart.session_ticks_dead
    rw [hr]
    exact hrun

/-- C10 at five rows: a restart of the session that ran to the end (six ticks
from the mount) has a live interval and plays to the end again; a restart of
the session running at frame 3 has frame 1 and no interval. -/
theorem C10_witness :
    ((AnimatedChart.Session.ticks legacyScenario 6 AnimatedChart.Session.mount).restart.state =
        { frame := 1, isPaused := false, isComplete := false } ∧
      (AnimatedChart.Session.ticks legacyScenario 5
        (AnimatedChart.Session.ticks legacyScenario 6
          AnimatedChart.Session.mount).restart).state =
        { frame := 5, isPaused := false, isComplete := true }) ∧
    (legacyRunningSession.state.frame = 3 ∧
      legacyRunningSession.restart.state = { frame := 1, isPaused := false, isComplete := false } ∧
      legacyRunningSession.restart.timer = false ∧
      AnimatedChart.Session.ticks legacyScenario 5 legacyRunningSession.restart =
        legacyRunningSession.restart) :=
  have h1 := C10_restart_resets legacyScenario
    (AnimatedChart.Session.ticks legacyScenario 6 AnimatedChart.Session.mount) 5
  have h2 := C10_restart_resets legacyScenario legacyRunningSession 5
  ⟨⟨by decide, h1.2.2.2.2.1 (by decide) (by decide) (by decide)⟩,
    by decide, by decide, by decide, h2.2.2.2.2.2 (by decide)⟩

/-- C11: the code differs. The validation effect reports `No data available`
exactly when the dataset is missing or has no rows, and otherwise the
field-not-found error exactly when `field in sample` is false for the first row;
that test is true for every key of the row and for every name that an object
inherits. With the field `constructor`, which no row of `plainRows` has as a
key, the effect reports no error. -/
theorem C11_inherited_name_passes_validation (p : Props) (s : PlaybackState) :
    ((validationEffect p s).dataError = some "No data available" ↔
        (p.data = none ∨ p.data = some [])) ∧
    ((validationEffect p s).dataError = some ("Field \"" ++ p.field ++ "\" not found in data") ↔
        ∃ sample rest, p.data = some (sample :: rest) ∧ sample.hasKey p.field = false) ∧
    ((validationEffect p s).dataError = none ↔
        ∃ sample rest, p.data = some (sample :: rest) ∧ sample.hasKey p.field = true) ∧
    (∀ (r : Row) (key : String),
      r.hasKey key = (r.hasOwnKey key || objectPrototypeKeys.contains key)) ∧
    ((∀ r ∈ plainRows, r.hasOwnKey "constructor" = false) ∧
      (mount inheritedNameScenario).dataError = none ∧
      (validationEffect inheritedNameScenario (useStateInit inheritedNameScenario)).dataError ≠
        some "Field \"constructor\" not found in data") := by
  have hne := fieldNotFound_ne_noData p.field
  refine ⟨?_, ?_, ?_, fun r key => rfl, by decide, by decide, by decide⟩
  · unfold validationEffect
    cases hd : p.data with
    | none => simp
    | some d =>
      cases d with
      | nil => simp
      | cons sample rest =>
        by_cases hk : sample.hasKey p.field = true
        · simp [hk]
        · simp only [Bool.not_eq_true] at hk
          simp [hk, hne]
  · unfold validationEffect
    cases hd : p.data with
    | none => simp [Ne.symm hne]
    | some d =>
      cases d with
      | nil => simp [Ne.symm hne]
      | cons sample rest =>
        by_cases hk : sample.hasKey p.field = true
        · simp [hk]
        · simp only [Bool.not_eq_true] at hk
          simp [hk]
  · unfold validationEffect
    cases hd : p.data with
    | none => simp
    | some d =>
      cases d with
      | nil => simp
      | cons sample rest =>
        by_cases hk : sample.hasKey p.field = true
        · simp [hk]
        · simp only [Bool.not_eq_true] at hk
          simp [hk]

/-- C12: the code differs. In the chart over `plainRows` with the field
`constructor` the first row lacks the field, yet validation leaves no error,
the animation effect schedules the timer, the first tick advances `frame` to 2
and the playback ends Complete; with the field `Bytes`, which is no inherited
name, the same rows give the error and no tick changes the state. -/
theorem C12_inherited_name_plays :
    (∀ r ∈ plainRows, r.hasOwnKey "constructor" = false) ∧
    (mount inheritedNameScenario).dataError = none ∧
    timerScheduled inheritedNameScenario (mount inheritedNameScenario) = true ∧
    (tick inheritedNameScenario (mount inheritedNameScenario)).1.frame = 2 ∧
    (ticks inheritedNameScenario 2 (mount inheritedNameScenario)).1.isComplete = true ∧
    ((mount { inheritedNameScenario with field := "Bytes" }).dataError =
        some "Field \"Bytes\" not found in data" ∧
      ticks { inheritedNameScenario with field := "Bytes" } 5
          (mount { inheritedNameScenario with field := "Bytes" }) =
        (mount { inheritedNameScenario with field := "Bytes" }, [])) := by
  decide

/-- What the code does on the datasets that its validation rejects: when the
dataset is missing or empty, or `field in sample` is false for its first row,
the state after validation carries a truthy error, no timer is scheduled, and no
sequence of ticks, pause clicks, speed changes and stop events changes `frame`
or clears the error. -/
theorem validation_error_blocks_playback (p : Props) (s : PlaybackState) (ops : List Op)
    (n : Nat)
    (hinvalid : p.data = none ∨ p.data = some [] ∨
      ∃ sample rest, p.data = some (sample :: rest) ∧ sample.hasKey p.field = false) :
    (mount p).dataError ≠ none ∧
    (changeDataField p s).dataError = (mount p).dataError ∧
    truthyStr (changeDataField p s).dataError = true ∧
    timerScheduled p (changeDataField p s) = false ∧
    ticks p n (changeDataField p s) = (changeDataField p s, []) ∧
    ticks p n (mount p) = (mount p, []) ∧
    (runOps p ops (changeDataField p s)).frame = (changeDataField p s).frame ∧
    (runOps p ops (changeDataField p s)).dataError = (changeDataField p s).dataError := by
  have hinv : ∀ t : PlaybackState, truthyStr (validationEffect p t).dataError = true := by
    intro t
    refine (validationEffect_error_invalid p t ?_).1
    rcases hinvalid with h | h | ⟨sample, rest, h, hk⟩
    · left; simp [h]
    · left; simp [h]
    · right; exact ⟨sample, by simp [h], hk⟩
  have hs := hinv s
  have hm := hinv (useStateInit p)
  have herr : (changeDataField p s).dataError = (mount p).dataError := by
    simp only [changeDataField]
    rw [validationEffect_eq p s]
    split_ifs with h
    · exact h.symm
    · rfl
  have hops := runOps_of_error p ops (changeDataField p s) hs
  refine ⟨?_, herr, hs, ?_, ticks_of_error p _ hs n, ticks_of_error p _ hm n, hops.2, hops.1⟩
  · intro hnone
    simp only [mount] at hnone
    rw [hnone] at hm
    simp [truthyStr] at hm
  · simp only [changeDataField] at hs ⊢
    simp [timerScheduled, hs]

/-! ## A change of the dataset or the field -/

/-- C13, as stated, fails. The attack scenario played to the end (frame 5,
complete) and then given a field that the rows do not have keeps frame 5 and
stays complete; only the error is replaced. And the chart of the EWS scenario at
frame 6, given three rows with `ews_alerts.level4 = [1, 4]`, is rendered with
the three rows at frame 6 before the validation effect runs: this render reads
`data[4].Seconds`, throws, and no state is reset. -/
theorem C13_counterexample_invalid_change_keeps_frame :
    dataChange { attackScenario with field := "Bytes" }
        (ticks attackScenario 5 (mount attackScenario)).1 =
      some { (ticks attackScenario 5 (mount attackScenario)).1 with
              dataError := some "Field \"Bytes\" not found in data" } ∧
    (ticks attackScenario 5 (mount attackScenario)).1.frame = 5 ∧
    (ticks attackScenario 5 (mount attackScenario)).1.isComplete = true ∧
    ((ticks ewsScenario 5 (mount ewsScenario)).1.frame = 6 ∧
      deriveOverlay shortDataScenario 6 = none ∧
      dataChange shortDataScenario (ticks ewsScenario 5 (mount ewsScenario)).1 = none) := by
  decide

/-- C13, amended: a change of the dataset or the field is first rendered with
the new props at the frame the state has, then validated, then rendered again.
It ends without a state exactly when one of the two renders throws. When it ends
with a state, the error is the one of the validation of the new dataset and
field alone, whatever the state was; when that validation succeeds the state has
frame 1, is not complete and has no error; when it fails, only the error cell is
written. The speed and the pause flag are kept in both cases. It ends with a
state whenever the frame is within the new dataset, every `Seconds` of it is a
number and no index of the metadata is negative. -/
theorem C13_change_resets_on_valid_data (newProps : Props) (s : PlaybackState) :
    (dataChange newProps s = none ↔
      (deriveOverlay newProps s.frame = none ∨
        deriveOverlay newProps (changeDataField newProps s).frame = none)) ∧
    (∀ s2, dataChange newProps s = some s2 →
      s2.dataError = (mount newProps).dataError ∧
      s2 =
        (if (mount newProps).dataError = none then
          { s with frame := 1, isComplete := false, dataError := none }
        else { s with dataError := (mount newProps).dataError })) ∧
    (∀ d, newProps.data = some d → s.frame ≤ d.length → NumericSeconds d →
      IndicesNonNegative newProps → ∃ s2, dataChange newProps s = some s2) := by
  have h := validationEffect_eq newProps s
  refine ⟨?_, ?_, ?_⟩
  · unfold dataChange
    cases h1 : deriveOverlay newProps s.frame with
    | none => simp
    | some o1 =>
      cases h2 : deriveOverlay newProps (changeDataField newProps s).frame with
      | none => simp
      | some o2 => simp
  · intro s2 hs2
    have hc : s2 = changeDataField newProps s := by
      unfold dataChange at hs2
      cases h1 : deriveOverlay newProps s.frame with
      | none => simp [h1] at hs2
      | some o1 =>
        cases h2 : deriveOverlay newProps (changeDataField newProps s).frame with
        | none => simp [h1, h2] at hs2
        | some o2 =>
          simp only [h1, h2, Option.some.injEq] at hs2
          exact hs2.symm
    subst hc
    refine ⟨?_, h⟩
    simp only [changeDataField]
    rw [h]
    split_ifs with hn
    · exact hn.symm
    · rfl
  · intro d hd hf hsec hidx
    obtain ⟨o1, h1⟩ := deriveOverlay_isSome newProps d s.frame hd hf hsec hidx
    have hf2 : (changeDataField newProps s).frame ≤ d.length := by
      simp only [changeDataField]
      rw [h]
      split_ifs with hv
      · have hm := (mount_valid newProps hv).2
        simp only [maxFrames, hd] at hm
        simpa using hm
      · exact hf
    obtain ⟨o2, h2⟩ :=
      deriveOverlay_isSome newProps d (changeDataField newProps s).frame hd hf2 hsec hidx
    exact ⟨changeDataField newProps s, by simp [dataChange, h1, h2]⟩

/-- C13 at the attack scenario played to the end and then given the ten rows of
the EWS scenario: both renders succeed and the state is reset to frame 1, not
complete, without error. -/
theorem C13_witness :
    dataChange ewsScenario (ticks attackScenario 5 (mount attackScenario)).1 =
        some { (ticks attackScenario 5 (mount attackScenario)).1 with
                frame := 1, isComplete := false, dataError := none } ∧
    (ticks attackScenario 5 (mount attackScenario)).1.frame = 5 ∧
    { (ticks attackScenario 5 (mount attackScenario)).1 with
        frame := 1, isComplete := false, dataError := none } =
      (if (mount ewsScenario).dataError = none then
        { (ticks attackScenario 5 (mount attackScenario)).1 with
            frame := 1, isComplete := false, dataError := none }
      else { (ticks attackScenario 5 (mount attackScenario)).1 with
              dataError := (mount ewsScenario).dataError }) :=
  ⟨by decide, by decide,
    ((C13_change_resets_on_valid_data ewsScenario
      (ticks attackScenario 5 (mount attackScenario)).1).2.1 _ (by decide)).2⟩
